import Mathlib

/-!
# Correlation engine of libprocess/correlation.c

A shallow embedding of the correlation scorers, the one-shot spatial
correlation, the loop over the frequency bins of the FFT and phase-only
correlation, the one-shot cross-correlation, and the two resumable iterators of
`libprocess/correlation.c`.

* `gint` values are `Int` (field dimensions are far below the 32-bit range, so
  no wrap-around is modelled); integer division is C's truncating division.
* `gdouble` values are elements of an arbitrary linearly ordered field `R`
  (exact arithmetic).  The C library function `sqrt` is a parameter
  `sqrt : R → R`; theorems that need it assume `IsSqrt sqrt`, which
  `Real.sqrt` satisfies.
* A sample buffer `gdouble *data` is a function `Int → R` of the flat index;
  a field owns the indices `0 ≤ k < xres*yres`.
* Divisions are the division of `R`.  The two divisions by a computed quantity
  that vanishes on ordinary inputs and that the code does not test (the
  parabola denominator of the one-shot cross-correlation, the magnitude in the
  phase-only correlation) are `gdouble_div`, which has no result for a zero
  divisor.  The C library function `hypot` is a parameter like `sqrt`.
* A function that updates a field in place returns the updated field.
  `gwy_data_field_invalidate` only drops cached statistics and the `printf` of
  the weighted scorer only prints; neither is modelled.  Reference counting
  (`g_object_ref`, `g_object_unref`) is not modelled.
* Functions of the library that are not part of `correlation.c` (area
  statistics, `gwy_data_field_area_gather`, `gwy_data_field_fill`, ...) are
  modelled from their specification and marked as such.
-/

set_option linter.unusedSectionVars false
set_option linter.unusedVariables false

namespace Gwy

/-- The data field structure `GwyDataField`: pixel dimensions, physical
extents and the row-major sample buffer. -/
structure GwyDataField (R : Type) where
  xres : Int
  yres : Int
  xreal : R
  yreal : R
  data : Int → R

/-- The enumeration `GwyComputationStateType`. -/
inductive GwyComputationStateType where
  | GWY_COMPUTATION_STATE_INIT
  | GWY_COMPUTATION_STATE_ITERATE
  | GWY_COMPUTATION_STATE_FINISHED
  deriving DecidableEq, Repr

open GwyComputationStateType

/-- The structure `GwyComputationState`: the state tag and the progress
fraction. -/
structure GwyComputationState (R : Type) where
  state : GwyComputationStateType
  fraction : R

/-- The counting loop `for (i = lo; i < hi; i++) acc = body(acc, i);`. -/
def forRange {α : Type} (lo hi : Int) (body : α → Int → α) (init : α) : α :=
  (List.range (hi - lo).toNat).foldl (fun acc (t : Nat) => body acc (lo + (t : Int))) init

/-- The accumulation over a window that every scorer uses:
`for (j = 0; j < height; j++) for (i = 0; i < width; i++) acc += term(i, j);`. -/
def windowLoop {R : Type} [Add R] (width height : Int) (term : Int → Int → R) (init : R) : R :=
  forRange 0 height (fun acc j => forRange 0 width (fun acc i => acc + term i j) acc) init

/-- What the theorems assume of the C library function `sqrt`: on a
non-negative argument it returns the non-negative square root. -/
def IsSqrt {R : Type} [LinearOrderedField R] (sqrt : R → R) : Prop :=
  ∀ x : R, 0 ≤ x → 0 ≤ sqrt x ∧ sqrt x * sqrt x = x

section Fields

variable {R : Type} [LinearOrderedField R]

/-- Modelled from the spec: `gwy_data_field_area_get_avg` (libprocess/stats.c,
not among the sources) called with a NULL mask: the mean of the samples of the
`width x height` window whose top-left corner is `(col, row)`. -/
def gwy_data_field_area_get_avg (data_field : GwyDataField R)
    (col row width height : Int) : R :=
  windowLoop width height
      (fun i j => data_field.data ((i + col) + data_field.xres * (j + row))) 0
    / ((width * height : Int) : R)

/-- Modelled from the spec: `gwy_data_field_area_get_rms` (libprocess/stats.c,
not among the sources) called with a NULL mask: the population standard
deviation of the samples of the `width x height` window whose top-left corner
is `(col, row)`, the square root of the mean squared deviation from the
window mean. -/
def gwy_data_field_area_get_rms (sqrt : R → R) (data_field : GwyDataField R)
    (col row width height : Int) : R :=
  let avg := gwy_data_field_area_get_avg data_field col row width height
  sqrt (windowLoop width height
      (fun i j =>
        (data_field.data ((i + col) + data_field.xres * (j + row)) - avg)
          * (data_field.data ((i + col) + data_field.xres * (j + row)) - avg)) 0
    / ((width * height : Int) : R))

/-- Modelled from the spec: `gwy_data_field_get_sum` (libprocess/stats.c, not
among the sources): the sum of all samples of the field. -/
def gwy_data_field_get_sum (data_field : GwyDataField R) : R :=
  windowLoop data_field.xres data_field.yres
    (fun i j => data_field.data (i + data_field.xres * j)) 0

/-- Modelled from the spec: `gwy_data_field_get_avg` (libprocess/stats.c, not
among the sources): the mean of all samples of the field. -/
def gwy_data_field_get_avg (data_field : GwyDataField R) : R :=
  gwy_data_field_area_get_avg data_field 0 0 data_field.xres data_field.yres

/-- Modelled from the spec: `gwy_data_field_get_rms` (libprocess/stats.c, not
among the sources): the population standard deviation of all samples of the
field. -/
def gwy_data_field_get_rms (sqrt : R → R) (data_field : GwyDataField R) : R :=
  gwy_data_field_area_get_rms sqrt data_field 0 0 data_field.xres data_field.yres

/-- The function `gwy_data_field_get_correlation_score`
(correlation.c, lines 86-155). -/
def gwy_data_field_get_correlation_score (sqrt : R → R)
    (data_field kernel_field : GwyDataField R)
    (col row kernel_col kernel_row kernel_width kernel_height : Int) : R :=
  let xres := data_field.xres
  let yres := data_field.yres
  let kxres := kernel_field.xres
  let kyres := kernel_field.yres
  -- correlation request outside kernel
  if kernel_col > kxres ∨ kernel_row > kyres then -1
  -- correlation request outside data field
  else if col < 0 ∨ row < 0 ∨ col + kernel_width > xres ∨ row + kernel_height > yres then -1
  else if kernel_col < 0 ∨ kernel_row < 0 ∨ kernel_col + kernel_width > kxres
      ∨ kernel_row + kernel_height > kyres then -1
  else
    let avg1 := gwy_data_field_area_get_avg data_field col row kernel_width kernel_height
    let avg2 := gwy_data_field_area_get_avg kernel_field kernel_col kernel_row
      kernel_width kernel_height
    let rms1 := gwy_data_field_area_get_rms sqrt data_field col row kernel_width kernel_height
    if rms1 = 0 then 0
    else
      let rms2 := gwy_data_field_area_get_rms sqrt kernel_field kernel_col kernel_row
        kernel_width kernel_height
      if rms2 = 0 then 0
      else
        let sumpoints : R := ((kernel_width * kernel_height : Int) : R)
        let data := data_field.data
        let kdata := kernel_field.data
        let score := windowLoop kernel_width kernel_height
          (fun i j => (data ((i + col) + xres * (j + row)) - avg1)
            * (kdata ((i + kernel_col) + kxres * (j + kernel_row)) - avg2)) 0
        score / (rms1 * rms2 * sumpoints)

/-- The function `gwy_data_field_get_weighted_correlation_score`
(correlation.c, lines 182-279).  The first three `g_return_val_if_fail`
checks are type checks of the arguments and hold by typing. -/
def gwy_data_field_get_weighted_correlation_score (sqrt : R → R)
    (data_field kernel_field weight_field : GwyDataField R)
    (col row kernel_col kernel_row kernel_width kernel_height : Int) : R :=
  if ¬ (kernel_width = weight_field.xres ∧ kernel_height = weight_field.yres) then -13
  else
    let xres := data_field.xres
    let yres := data_field.yres
    let kxres := kernel_field.xres
    let kyres := kernel_field.yres
    let wxres := weight_field.xres
    -- correlation request outside kernel
    if kernel_col > kxres ∨ kernel_row > kyres then -2
    -- correlation request outside data field
    else if col < 0 ∨ row < 0 ∨ col + kernel_width > xres ∨ row + kernel_height > yres then -3
    else if kernel_col < 0 ∨ kernel_row < 0 ∨ kernel_col + kernel_width > kxres
        ∨ kernel_row + kernel_height > kyres then -4
    else
      let data := data_field.data
      let kdata := kernel_field.data
      let wdata := weight_field.data
      let weightsum := gwy_data_field_get_sum weight_field
      let avg1 := windowLoop kernel_width kernel_height
        (fun i j => data ((i + col) + xres * (j + row)) * wdata (i + wxres * j)) 0
      let avg2 := windowLoop kernel_width kernel_height
        (fun i j => kdata ((i + kernel_col) + kxres * (j + kernel_row)) * wdata (i + wxres * j)) 0
      let avg1 := avg1 / gwy_data_field_get_sum weight_field
      let avg2 := avg2 / gwy_data_field_get_sum weight_field
      let rms1 := windowLoop kernel_width kernel_height
        (fun i j => wdata (i + wxres * j) * (data ((i + col) + xres * (j + row)) - avg1)
          * (data ((i + col) + xres * (j + row)) - avg1)) 0
      let rms2 := windowLoop kernel_width kernel_height
        (fun i j => wdata (i + wxres * j)
          * (kdata ((i + kernel_col) + kxres * (j + kernel_row)) - avg2)
          * (kdata ((i + kernel_col) + kxres * (j + kernel_row)) - avg2)) 0
      let rms1 := rms1 / gwy_data_field_get_sum weight_field
      let rms2 := rms2 / gwy_data_field_get_sum weight_field
      let rms1 := sqrt rms1
      let rms2 := sqrt rms2
      if rms1 = 0 then 0
      else if rms2 = 0 then 0
      else
        let score := windowLoop kernel_width kernel_height
          (fun i j => wdata (i + wxres * j) * (data ((i + col) + xres * (j + row)) - avg1)
            * (kdata ((i + kernel_col) + kxres * (j + kernel_row)) - avg2)) 0
        score / (rms1 * rms2 * weightsum)

/-- Modelled from the spec: `gwy_data_field_fill` (libprocess/datafield.c, not
among the sources): every sample of the field is set to `value`. -/
def gwy_data_field_fill (data_field : GwyDataField R) (value : R) : GwyDataField R :=
  { data_field with
    data := fun k =>
      if 0 ≤ k ∧ k < data_field.xres * data_field.yres then value else data_field.data k }

/-- Modelled from the spec: `gwy_data_field_clear` (libprocess/datafield.c, not
among the sources): every sample of the field is set to zero. -/
def gwy_data_field_clear (data_field : GwyDataField R) : GwyDataField R :=
  gwy_data_field_fill data_field 0

/-- Modelled from the spec: `gwy_data_field_area_gather` (libprocess/filters.c,
not among the sources) called with `average = TRUE` on the whole field, the
result stored in the field itself: the sample at row `i`, column `j` becomes the
mean of the input over the `hsize x vsize` window that extends `(hsize-1)/2`
samples to the left of `j` and `hsize/2` to the right, `(vsize-1)/2` samples
above `i` and `vsize/2` below, clipped to the field. -/
def gwy_data_field_area_gather (data_field : GwyDataField R) (hsize vsize : Int) :
    GwyDataField R :=
  let xres := data_field.xres
  let yres := data_field.yres
  { data_field with
    data := fun k =>
      if 0 ≤ k ∧ k < xres * yres then
        let i := k / xres
        let j := k % xres
        let left := max 0 (j - Int.tdiv (hsize - 1) 2)
        let right := min xres (j - Int.tdiv (hsize - 1) 2 + hsize)
        let top := max 0 (i - Int.tdiv (vsize - 1) 2)
        let bottom := min yres (i - Int.tdiv (vsize - 1) 2 + vsize)
        gwy_data_field_area_get_avg data_field left top (right - left) (bottom - top)
      else data_field.data k }

/-- The function `calculate_normalization` (correlation.c, lines 283-312).
The fields `avg` and `rms` are updated in place in C; here the updated pair is
returned.  The two element-wise loops over `0 ≤ i < xres*yres` are written as
maps of the sample buffer. -/
def calculate_normalization (sqrt : R → R) (avg rms : GwyDataField R)
    (kernel_width kernel_height : Int) : GwyDataField R × GwyDataField R :=
  if ¬ (rms.xres = avg.xres ∧ rms.yres = avg.yres) then (avg, rms)
  else
    let xres := avg.xres
    let yres := avg.yres
    let rms : GwyDataField R :=
      { rms with
        data := fun i => if 0 ≤ i ∧ i < xres * yres then rms.data i * rms.data i else rms.data i }
    let rms := gwy_data_field_area_gather rms kernel_width kernel_height
    let avg := gwy_data_field_area_gather avg kernel_width kernel_height
    let rms : GwyDataField R :=
      { rms with
        data := fun i =>
          if 0 ≤ i ∧ i < xres * yres then sqrt (max (rms.data i - avg.data i * avg.data i) 0)
          else rms.data i }
    (avg, rms)

/-- The function `gwy_data_field_get_raw_correlation_score`
(correlation.c, lines 338-393). -/
def gwy_data_field_get_raw_correlation_score
    (data_field kernel_field : GwyDataField R)
    (col row kernel_col kernel_row kernel_width kernel_height : Int)
    (data_avg kernel_avg : R) : R :=
  let xres := data_field.xres
  let yres := data_field.yres
  let kxres := kernel_field.xres
  let kyres := kernel_field.yres
  -- correlation request outside kernel
  if kernel_col > kxres ∨ kernel_row > kyres then -1
  -- correlation request outside data field
  else if col < 0 ∨ row < 0 ∨ col + kernel_width > xres ∨ row + kernel_height > yres then -1
  else if kernel_col < 0 ∨ kernel_row < 0 ∨ kernel_col + kernel_width > kxres
      ∨ kernel_row + kernel_height > kyres then -1
  else
    let sumpoints : R := ((kernel_width * kernel_height : Int) : R)
    let data := data_field.data
    let kdata := kernel_field.data
    let score := windowLoop kernel_width kernel_height
      (fun i j => (data ((i + col) + xres * (j + row)) - data_avg)
        * (kdata ((i + kernel_col) + kxres * (j + kernel_row)) - kernel_avg)) 0
    score / sumpoints

/-- The assignment `score->data[k] = value`. -/
def GwyDataField.store (score : GwyDataField R) (k : Int) (value : R) : GwyDataField R :=
  { score with data := Function.update score.data k value }

/-- The body of the two nested loops of the `GWY_CORRELATION_NORMAL` case of
`gwy_data_field_correlate` (correlation.c, lines 459-473): the score of the
output sample at row `i`, column `j`. -/
def correlate_pixel (data_field kernel_field avg rms : GwyDataField R) (kavg krms : R)
    (xoff yoff : Int) (score : GwyDataField R) (i j : Int) : GwyDataField R :=
  let xres := data_field.xres
  let kxres := kernel_field.xres
  let kyres := kernel_field.yres
  let k := i * xres + j
  let davg := avg.data k
  let drms := rms.data k
  if krms = 0 ∨ drms = 0 then score.store k 0
  else
    let s := gwy_data_field_get_raw_correlation_score data_field kernel_field
      (j - xoff) (i - yoff) 0 0 kxres kyres davg kavg
    score.store k (s / (drms * krms))

/-- The function `gwy_data_field_correlate` called with the method
`GWY_CORRELATION_NORMAL` (correlation.c, lines 413-479); the result is the
score field after the call.  The loop `for (i = yoff; i + kyres - yoff <= yres;
i++)` runs over `yoff ≤ i < yres - kyres + yoff + 1`, and likewise for `j`. -/
def gwy_data_field_correlate_NORMAL (sqrt : R → R)
    (data_field kernel_field score : GwyDataField R) : GwyDataField R :=
  let xres := data_field.xres
  let yres := data_field.yres
  let kxres := kernel_field.xres
  let kyres := kernel_field.yres
  if kxres ≤ 0 ∨ kyres ≤ 0 then score
  else
    let score := gwy_data_field_fill score (-1)
    -- correlation request outside kernel
    if kxres > xres ∨ kyres > yres then score
    else
      let xoff := Int.tdiv (kxres - 1) 2
      let yoff := Int.tdiv (kyres - 1) 2
      let kavg := gwy_data_field_get_avg kernel_field
      let krms := gwy_data_field_get_rms sqrt kernel_field
      let norm := calculate_normalization sqrt data_field data_field kxres kyres
      let avg := norm.1
      let rms := norm.2
      forRange yoff (yres - kyres + yoff + 1)
        (fun score i =>
          forRange xoff (xres - kxres + xoff + 1)
            (fun score j =>
              correlate_pixel data_field kernel_field avg rms kavg krms xoff yoff score i j)
            score)
        score

/-- The structure `GwyCorrelationState` (correlation.c, lines 32-43).  The
pointers `avg` and `rms` are NULL until the initialising call; no code reads
them before that call, so they are plain fields here. -/
structure GwyCorrelationState (R : Type) where
  cs : GwyComputationState R
  data_field : GwyDataField R
  kernel_field : GwyDataField R
  score : GwyDataField R
  avg : GwyDataField R
  rms : GwyDataField R
  kavg : R
  krms : R
  i : Int
  j : Int

/-- The function `gwy_data_field_correlate_init` (correlation.c, lines
550-571): `none` is the NULL it returns when the kernel does not fit into the
data field.  The zeroed members (`g_new0`) are zero, the NULL pointers `avg`
and `rms` are empty fields. -/
def gwy_data_field_correlate_init (data_field kernel_field score : GwyDataField R) :
    Option (GwyCorrelationState R) :=
  if ¬ (kernel_field.xres ≤ data_field.xres ∧ kernel_field.yres ≤ data_field.yres) then none
  else
    some
      { cs := { state := GWY_COMPUTATION_STATE_INIT, fraction := 0 }
        data_field := data_field
        kernel_field := kernel_field
        score := score
        avg := { xres := 0, yres := 0, xreal := 0, yreal := 0, data := fun _ => 0 }
        rms := { xres := 0, yres := 0, xreal := 0, yreal := 0, data := fun _ => 0 }
        kavg := 0
        krms := 0
        i := 0
        j := 0 }

/-- The function `gwy_data_field_correlate_iteration` (correlation.c, lines
584-641); the result is the iterator after the call. -/
def gwy_data_field_correlate_iteration (sqrt : R → R) (state : GwyCorrelationState R) :
    GwyCorrelationState R :=
  let xres := state.data_field.xres
  let yres := state.data_field.yres
  let kxres := state.kernel_field.xres
  let kyres := state.kernel_field.yres
  let xoff := Int.tdiv (kxres - 1) 2
  let yoff := Int.tdiv (kyres - 1) 2
  match state.cs.state with
  | GWY_COMPUTATION_STATE_INIT =>
    let norm := calculate_normalization sqrt state.data_field state.data_field kxres kyres
    { state with
      score := gwy_data_field_fill state.score (-1)
      kavg := gwy_data_field_get_avg state.kernel_field
      krms := gwy_data_field_get_rms sqrt state.kernel_field
      avg := norm.1
      rms := norm.2
      cs := { state := GWY_COMPUTATION_STATE_ITERATE, fraction := 0 }
      i := yoff
      j := xoff }
  | GWY_COMPUTATION_STATE_ITERATE =>
    let k := state.i * xres + state.j
    let davg := state.avg.data k
    let drms := state.rms.data k
    let score :=
      if drms ≠ 0 ∧ state.krms ≠ 0 then
        let s := gwy_data_field_get_raw_correlation_score state.data_field state.kernel_field
          (state.j - xoff) (state.i - yoff) 0 0 kxres kyres davg state.kavg
        state.score.store k (s / (drms * state.krms))
      else state.score.store k 0
    let j := state.j + 1
    let wrap : Bool := decide (j + kxres - xoff > xres)
    let j := if wrap then xoff else j
    let i := if wrap then state.i + 1 else state.i
    let st :=
      if wrap ∧ i + kyres - yoff > yres then GWY_COMPUTATION_STATE_FINISHED
      else state.cs.state
    let fraction := state.cs.fraction + 1 / (((xres - kxres + 1) * (yres - kyres + 1) : Int) : R)
    let fraction := min fraction 1
    { state with
      score := score
      i := i
      j := j
      cs := { state := st, fraction := fraction } }
  | GWY_COMPUTATION_STATE_FINISHED => state

/-- The caller's loop over a correlation iterator,
`do gwy_data_field_correlate_iteration(state); while (state->state !=
GWY_COMPUTATION_STATE_FINISHED);`, bounded by `fuel` calls. -/
def correlate_run (sqrt : R → R) : Nat → GwyCorrelationState R → GwyCorrelationState R
  | 0, state => state
  | fuel + 1, state =>
    let state := gwy_data_field_correlate_iteration sqrt state
    if state.cs.state = GWY_COMPUTATION_STATE_FINISHED then state
    else correlate_run sqrt fuel state

/-- The structure `GwyCrossCorrelationState` (correlation.c, lines 46-60).
The output fields `x_dist`, `y_dist` and `score` may be NULL (`none`). -/
structure GwyCrossCorrelationState (R : Type) where
  cs : GwyComputationState R
  data_field1 : GwyDataField R
  data_field2 : GwyDataField R
  x_dist : Option (GwyDataField R)
  y_dist : Option (GwyDataField R)
  score : Option (GwyDataField R)
  weights : GwyDataField R
  search_width : Int
  search_height : Int
  window_width : Int
  window_height : Int
  i : Int
  j : Int

/-- Modelled from the spec: `gwy_data_field_new` (libprocess/datafield.c, not
among the sources) called with `nullme = TRUE`: a field of the given
dimensions whose samples are zero. -/
def gwy_data_field_new (xres yres : Int) (xreal yreal : R) : GwyDataField R :=
  { xres := xres, yres := yres, xreal := xreal, yreal := yreal, data := fun _ => 0 }

/-- The function `gwy_data_field_crosscorrelate_init` (correlation.c, lines
813-858): `none` is the NULL it returns when the two fields differ in size. -/
def gwy_data_field_crosscorrelate_init (data_field1 data_field2 : GwyDataField R)
    (x_dist y_dist score : Option (GwyDataField R))
    (search_width search_height window_width window_height : Int) :
    Option (GwyCrossCorrelationState R) :=
  if ¬ (data_field1.xres = data_field2.xres ∧ data_field1.yres = data_field2.yres) then none
  else
    some
      { cs := { state := GWY_COMPUTATION_STATE_INIT, fraction := 0 }
        data_field1 := data_field1
        data_field2 := data_field2
        x_dist := x_dist
        y_dist := y_dist
        score := score
        search_width := search_width
        search_height := search_height
        window_width := window_width
        window_height := window_height
        weights :=
          gwy_data_field_fill
            (gwy_data_field_new window_width window_height (window_width : R) (window_height : R))
            1
        i := 0
        j := 0 }

/-- The search loops of `gwy_data_field_crosscorrelate_iteration`
(correlation.c, lines 934-965) at the grid point `(col, row)`: the result is
`(cormax, colmax, rowmax)`.  `G_MAXDOUBLE` is the glib constant. -/
def crosscorrelate_search (sqrt : R → R) (G_MAXDOUBLE : R)
    (state : GwyCrossCorrelationState R) (col row : Int) : R × Int × Int :=
  let xres := state.data_field1.xres
  let yres := state.data_field1.yres
  forRange
    (max 0 (row - Int.tdiv state.search_height 2 - Int.tdiv state.window_height 2))
    (min (yres - state.window_height)
      (row + Int.tdiv state.search_height 2 - Int.tdiv state.window_height 2))
    (fun best m =>
      forRange
        (max 0 (col - Int.tdiv state.search_width 2 - Int.tdiv state.window_width 2))
        (min (xres - state.window_width)
          (col + Int.tdiv state.search_width 2 - Int.tdiv state.window_width 2))
        (fun best n =>
          let lscore := gwy_data_field_get_weighted_correlation_score sqrt
            state.data_field1 state.data_field2 state.weights
            (col - Int.tdiv state.window_width 2) (row - Int.tdiv state.window_height 2)
            n m state.window_width state.window_height
          -- add a little to score at exactly same point - to prevent problems on flat data
          let lscore := if m = 0 ∧ n = 0 then lscore * (10001 / 10000) else lscore
          if lscore > best.1 then
            (lscore, n + Int.tdiv state.window_width 2, m + Int.tdiv state.window_height 2)
          else best)
        best)
    (-G_MAXDOUBLE, col, row)

/-- The loops of `gwy_data_field_crosscorrelate_iteration` that fill the array
`scores[9]` (correlation.c, lines 971-986): the result is the array, indexed
by `k`. -/
def crosscorrelate_scores (sqrt : R → R) (state : GwyCrossCorrelationState R)
    (col row : Int) (cormax : R) (colmax rowmax : Int) : Int → R :=
  (forRange (-1) 2
    (fun acc m =>
      forRange (-1) 2
        (fun (acc : (Int → R) × Int) n =>
          let value :=
            if m = 0 ∧ n = 0 then cormax
            else gwy_data_field_get_weighted_correlation_score sqrt
              state.data_field1 state.data_field2 state.weights
              (col - Int.tdiv state.window_width 2) (row - Int.tdiv state.window_height 2)
              (colmax - Int.tdiv state.window_width 2 + n)
              (rowmax - Int.tdiv state.window_height 2 + m)
              state.window_width state.window_height
          (Function.update acc.1 acc.2 value, acc.2 + 1))
        acc)
    ((fun _ => 0), 0)).1

/-- The function `gwy_data_field_crosscorrelate_iteration` (correlation.c,
lines 905-1029); the result is the iterator after the call, or `none` when the
call dereferences a NULL output field.  `gwy_math_refine_maximum`
(libgwyddion/gwymath.c, not among the sources) is a parameter: it maps the
array of nine scores to its return value and the two refined coordinates. -/
def gwy_data_field_crosscorrelate_iteration (sqrt : R → R) (G_MAXDOUBLE : R)
    (gwy_math_refine_maximum : (Int → R) → Bool × R × R)
    (state : GwyCrossCorrelationState R) : Option (GwyCrossCorrelationState R) :=
  let xres := state.data_field1.xres
  let yres := state.data_field1.yres
  match state.cs.state with
  | GWY_COMPUTATION_STATE_INIT =>
    some
      { state with
        x_dist := state.x_dist.map gwy_data_field_clear
        y_dist := state.y_dist.map gwy_data_field_clear
        score := state.score.map gwy_data_field_clear
        cs := { state := GWY_COMPUTATION_STATE_ITERATE, fraction := 0 }
        i := Int.tdiv state.window_width 2 + 1
        j := Int.tdiv state.window_height 2 + 1 }
  | GWY_COMPUTATION_STATE_ITERATE =>
    -- iterate over search area in the second datafield
    let col := state.i
    let row := state.j
    let best := crosscorrelate_search sqrt G_MAXDOUBLE state col row
    let cormax := best.1
    let colmax := best.2.1
    let rowmax := best.2.2
    let score := state.score.map (fun f => f.store (col + xres * row) cormax)
    -- the condition is `state->x_dist || state->x_dist`
    let dist : Option (Option (GwyDataField R) × Option (GwyDataField R)) :=
      match state.x_dist with
      | none => some (state.x_dist, state.y_dist)
      | some x_dist =>
        let scores := crosscorrelate_scores sqrt state col row cormax colmax rowmax
        let refined := gwy_math_refine_maximum scores
        let ipos : R := if refined.1 then (colmax : R) + refined.2.1 else (colmax : R)
        let jpos : R := if refined.1 then (rowmax : R) + refined.2.2 else (rowmax : R)
        let x_dist := x_dist.store (col + xres * row)
          ((ipos - (col : R)) * state.data_field1.xreal / (state.data_field1.xres : R))
        match state.y_dist with
        | none => none
        | some y_dist =>
          some (some x_dist,
            some (y_dist.store (col + xres * row)
              ((jpos - (row : R)) * state.data_field1.yreal / (state.data_field1.yres : R))))
    match dist with
    | none => none
    | some (x_dist, y_dist) =>
      let i := state.i + 1
      let wrap : Bool := decide (i = xres - Int.tdiv state.window_width 2 - 1)
      let i := if wrap then Int.tdiv state.window_width 2 + 1 else i
      let j := if wrap then state.j + 1 else state.j
      let st :=
        if wrap ∧ j = yres - Int.tdiv state.window_height 2 - 1 then
          GWY_COMPUTATION_STATE_FINISHED
        else state.cs.state
      let fraction := state.cs.fraction
        + 1 / ((xres - state.window_width - 2 : Int) : R)
          / ((yres - state.window_height - 2 : Int) : R)
      let fraction := min fraction 1
      some
        { state with
          x_dist := x_dist
          y_dist := y_dist
          score := score
          i := i
          j := j
          cs := { state := st, fraction := fraction } }
  | GWY_COMPUTATION_STATE_FINISHED => some state

/-- The positions of the score map at which the kernel fits into the data
field: the ranges of the two loops of `gwy_data_field_correlate`, `for (i =
yoff; i + kyres - yoff <= yres; i++)` and `for (j = xoff; j + kxres - xoff <=
xres; j++)`. -/
def kernel_fits (data_field kernel_field : GwyDataField R) (i j : Int) : Prop :=
  Int.tdiv (kernel_field.yres - 1) 2 ≤ i
    ∧ i + kernel_field.yres - Int.tdiv (kernel_field.yres - 1) 2 ≤ data_field.yres
    ∧ Int.tdiv (kernel_field.xres - 1) 2 ≤ j
    ∧ j + kernel_field.xres - Int.tdiv (kernel_field.xres - 1) 2 ≤ data_field.xres

/-- The value that `correlate_pixel` stores at row `i`, column `j`. -/
def correlate_value (data_field kernel_field avg rms : GwyDataField R) (kavg krms : R)
    (xoff yoff : Int) (i j : Int) : R :=
  if krms = 0 ∨ rms.data (i * data_field.xres + j) = 0 then 0
  else
    gwy_data_field_get_raw_correlation_score data_field kernel_field
        (j - xoff) (i - yoff) 0 0 kernel_field.xres kernel_field.yres
        (avg.data (i * data_field.xres + j)) kavg
      / (rms.data (i * data_field.xres + j) * krms)

/-- The score field `s` is the field `s0` with the samples of the positions in
`S` overwritten: position `(i, j)` holds `value i j` at index `i*xres + j`, and
every other sample is the one of `s0`. -/
def Written (xres : Int) (value : Int → Int → R) (S : Int → Int → Prop)
    (s0 s : GwyDataField R) : Prop :=
  s.xres = s0.xres ∧ s.yres = s0.yres
    ∧ (∀ i j, S i j → s.data (i * xres + j) = value i j)
    ∧ (∀ k, (∀ i j, S i j → k ≠ i * xres + j) → s.data k = s0.data k)

/-- The state of a spatial correlation job on the fields `data_field`,
`kernel_field` and the score field `score0`, after the initialising call and
`n` further calls of `gwy_data_field_correlate_iteration`: the caches are the
ones of the initialising call, the cursor `(i, j)` is the `n`-th position in
raster order, the state is `Iterate` before the last position and `Finished`
after it, the fraction is `n` over the number of positions, and the score field
is the field filled with -1 with the positions before the cursor overwritten by
`correlate_value`. -/
def correlate_progress (sqrt : R → R) (data_field kernel_field score0 : GwyDataField R)
    (n : Nat) (s : GwyCorrelationState R) : Prop :=
  s.data_field = data_field ∧ s.kernel_field = kernel_field
    ∧ s.avg = (calculate_normalization sqrt data_field data_field
        kernel_field.xres kernel_field.yres).1
    ∧ s.rms = (calculate_normalization sqrt data_field data_field
        kernel_field.xres kernel_field.yres).2
    ∧ s.kavg = gwy_data_field_get_avg kernel_field
    ∧ s.krms = gwy_data_field_get_rms sqrt kernel_field
    ∧ Int.tdiv (kernel_field.yres - 1) 2 ≤ s.i
    ∧ Int.tdiv (kernel_field.xres - 1) 2 ≤ s.j
    ∧ s.j ≤ Int.tdiv (kernel_field.xres - 1) 2 + (data_field.xres - kernel_field.xres)
    ∧ (n : Int) = (s.i - Int.tdiv (kernel_field.yres - 1) 2)
          * (data_field.xres - kernel_field.xres + 1)
        + (s.j - Int.tdiv (kernel_field.xres - 1) 2)
    ∧ s.cs.state
        = (if (n : Int) < (data_field.xres - kernel_field.xres + 1)
              * (data_field.yres - kernel_field.yres + 1)
            then GWY_COMPUTATION_STATE_ITERATE else GWY_COMPUTATION_STATE_FINISHED)
    ∧ s.cs.fraction
        = (n : R) / (((data_field.xres - kernel_field.xres + 1)
              * (data_field.yres - kernel_field.yres + 1) : Int) : R)
    ∧ Written data_field.xres
        (correlate_value data_field kernel_field
          (calculate_normalization sqrt data_field data_field
            kernel_field.xres kernel_field.yres).1
          (calculate_normalization sqrt data_field data_field
            kernel_field.xres kernel_field.yres).2
          (gwy_data_field_get_avg kernel_field) (gwy_data_field_get_rms sqrt kernel_field)
          (Int.tdiv (kernel_field.xres - 1) 2) (Int.tdiv (kernel_field.yres - 1) 2))
        (fun i j => kernel_fits data_field kernel_field i j ∧ (i < s.i ∨ (i = s.i ∧ j < s.j)))
        (gwy_data_field_fill score0 (-1)) s.score

/-- The weighted mean of a window as
`gwy_data_field_get_weighted_correlation_score` computes it (`avg1`, `avg2`):
the weighted sum of the samples over the weight sum. -/
def weighted_window_avg (f weight_field : GwyDataField R) (col row width height : Int) : R :=
  windowLoop width height
      (fun i j => f.data ((i + col) + f.xres * (j + row))
        * weight_field.data (i + weight_field.xres * j)) 0
    / gwy_data_field_get_sum weight_field

/-- The weighted variance of a window as
`gwy_data_field_get_weighted_correlation_score` computes it (`rms1`, `rms2`
before the square root): the weighted sum of the squared deviations from the
weighted mean over the weight sum. -/
def weighted_window_variance (f weight_field : GwyDataField R)
    (col row width height : Int) : R :=
  windowLoop width height
      (fun i j => weight_field.data (i + weight_field.xres * j)
        * (f.data ((i + col) + f.xres * (j + row))
            - weighted_window_avg f weight_field col row width height)
        * (f.data ((i + col) + f.xres * (j + row))
            - weighted_window_avg f weight_field col row width height)) 0
    / gwy_data_field_get_sum weight_field

/-- A field of the given dimensions whose samples are listed in row-major
order (samples outside the list are zero); used for concrete inputs. -/
def fieldOfList (xres yres : Int) (samples : List R) : GwyDataField R :=
  { xres := xres, yres := yres, xreal := 1, yreal := 1
    data := fun k => if 0 ≤ k then samples.getD k.toNat 0 else 0 }

/-- A spatial correlation job in state `Init`, as
`gwy_data_field_correlate_init` returns it for the field 0, 2, 1 and the kernel
1, 5; used for concrete inputs. -/
def sampleCorrelationState : GwyCorrelationState R :=
  { cs := { state := GWY_COMPUTATION_STATE_INIT, fraction := 0 }
    data_field := fieldOfList 3 1 [0, 2, 1]
    kernel_field := fieldOfList 2 1 [1, 5]
    score := fieldOfList 3 1 []
    avg := fieldOfList 0 0 []
    rms := fieldOfList 0 0 []
    kavg := 0
    krms := 0
    i := 0
    j := 0 }

/-- A cross-correlation job in state `Iterate` on two 5 x 5 fields of zeros,
with a score field and no displacement fields, window 1 x 1 and search area
3 x 3, the cursor on the first grid point; used for concrete inputs. -/
def sampleCrossCorrelationState : GwyCrossCorrelationState R :=
  { cs := { state := GWY_COMPUTATION_STATE_ITERATE, fraction := 0 }
    data_field1 := fieldOfList 5 5 []
    data_field2 := fieldOfList 5 5 []
    x_dist := none
    y_dist := none
    score := some (fieldOfList 5 5 [])
    weights := fieldOfList 1 1 [1]
    search_width := 3
    search_height := 3
    window_width := 1
    window_height := 1
    i := 1
    j := 1 }

/-- A field of the given dimensions whose samples all equal `value`; used for
the all-zero and all-ones fields of the scenarios. -/
def constantField (xres yres : Int) (value : R) : GwyDataField R :=
  { xres := xres, yres := yres, xreal := 1, yreal := 1, data := fun _ => value }

/-- The 16 x 16 field of the bright-square scenario: zero except for the 4 x 4
square with top-left corner at column `c`, row `r`, where it is `height`. -/
def brightSquareField (c r : Int) (height : R) : GwyDataField R :=
  { xres := 16, yres := 16, xreal := 1, yreal := 1
    data := fun k =>
      if 0 ≤ k ∧ k < 256 ∧ c ≤ k % 16 ∧ k % 16 < c + 4 ∧ r ≤ k / 16 ∧ k / 16 < r + 4 then height
      else 0 }

/-- The score of the candidate `(n, m)` as the search loops of
`gwy_data_field_crosscorrelate_iteration` compare it (correlation.c, lines
941-955): the weighted score of the block of field 1 around `(col, row)`
against the block of field 2 with top-left corner `(n, m)`, multiplied by
1.0001 under the condition `m == 0 && n == 0`. -/
def crosscorrelate_candidate_score (sqrt : R → R) (state : GwyCrossCorrelationState R)
    (col row n m : Int) : R :=
  let lscore := gwy_data_field_get_weighted_correlation_score sqrt
    state.data_field1 state.data_field2 state.weights
    (col - Int.tdiv state.window_width 2) (row - Int.tdiv state.window_height 2)
    n m state.window_width state.window_height
  if m = 0 ∧ n = 0 then lscore * (10001 / 10000) else lscore

/-- The candidates of the search loops at the grid point `(col, row)`: the
top-left corners `(n, m)` the two loops run over. -/
def crosscorrelate_candidate (state : GwyCrossCorrelationState R) (col row n m : Int) : Prop :=
  max 0 (row - Int.tdiv state.search_height 2 - Int.tdiv state.window_height 2) ≤ m
    ∧ m < min (state.data_field1.yres - state.window_height)
        (row + Int.tdiv state.search_height 2 - Int.tdiv state.window_height 2)
    ∧ max 0 (col - Int.tdiv state.search_width 2 - Int.tdiv state.window_width 2) ≤ n
    ∧ n < min (state.data_field1.xres - state.window_width)
        (col + Int.tdiv state.search_width 2 - Int.tdiv state.window_width 2)

/-- The running maximum of a search: `best` is the start value `init` or the
entry of a candidate in `S`, and its score is at least the score of `init` and
of every candidate in `S`. -/
def BestOf (f : Int → Int → R) (a b : Int → Int) (init : R × Int × Int)
    (S : Int → Int → Prop) (best : R × Int × Int) : Prop :=
  (∀ n m, S n m → f n m ≤ best.1) ∧ init.1 ≤ best.1
    ∧ (best = init ∨ ∃ n m, S n m ∧ best = (f n m, a n, b m))

/-- The glib constant `G_MAXDOUBLE`, the largest finite double. -/
def g_maxdouble : R := (2 - 1 / 2 ^ 52) * 2 ^ 1023

/-- The 5 x 3 field of the self-correlation sample: the sample 2 at column 1
of row 0 and at column 2 of row 1, zero elsewhere, so that the block 0, 2 at
columns 1 and 2 of row 1 occurs again at columns 0 and 1 of row 0. -/
def sampleRepeatingField : GwyDataField R :=
  { xres := 5, yres := 3, xreal := 1, yreal := 1
    data := fun k => if k = 1 ∨ k = 7 then 2 else 0 }

/-- The cross-correlation job of a field `F` against itself, with all three
output fields, window 2 x 1 and search area 3 x 3, as
`gwy_data_field_crosscorrelate_init` and the initialising call leave it: state
`Iterate`, cleared outputs, the default weights, the cursor on `(2, 1)`.  For a
5 x 3 field this is the only grid point. -/
def sampleSelfCorrelationState (F : GwyDataField R) : GwyCrossCorrelationState R :=
  { cs := { state := GWY_COMPUTATION_STATE_ITERATE, fraction := 0 }
    data_field1 := F
    data_field2 := F
    x_dist := some (gwy_data_field_clear (constantField 5 3 0))
    y_dist := some (gwy_data_field_clear (constantField 5 3 0))
    score := some (gwy_data_field_clear (constantField 5 3 0))
    weights := gwy_data_field_fill (gwy_data_field_new 2 1 2 1) 1
    search_width := 3
    search_height := 3
    window_width := 2
    window_height := 1
    i := 2
    j := 1 }

/-- The iterator after `n` calls of `gwy_data_field_crosscorrelate_iteration`,
`none` when one of the calls has no result. -/
def crosscorrelate_calls (sqrt : R → R) (G_MAXDOUBLE : R)
    (gwy_math_refine_maximum : (Int → R) → Bool × R × R) :
    Nat → GwyCrossCorrelationState R → Option (GwyCrossCorrelationState R)
  | 0, state => some state
  | n + 1, state =>
    (crosscorrelate_calls sqrt G_MAXDOUBLE gwy_math_refine_maximum n state).bind
      (gwy_data_field_crosscorrelate_iteration sqrt G_MAXDOUBLE gwy_math_refine_maximum)

/-- The end of a call of `gwy_data_field_crosscorrelate_iteration` in state
`Iterate` (correlation.c, lines 1007-1018): the cursor moves on, the state
becomes `Finished` after the last grid point, and the fraction grows. -/
def crosscorrelate_advance (state : GwyCrossCorrelationState R) : GwyCrossCorrelationState R :=
  let xres := state.data_field1.xres
  let yres := state.data_field1.yres
  let i := state.i + 1
  let wrap : Bool := decide (i = xres - Int.tdiv state.window_width 2 - 1)
  let i := if wrap then Int.tdiv state.window_width 2 + 1 else i
  let j := if wrap then state.j + 1 else state.j
  let st :=
    if wrap ∧ j = yres - Int.tdiv state.window_height 2 - 1 then
      GWY_COMPUTATION_STATE_FINISHED
    else state.cs.state
  let fraction := state.cs.fraction
    + 1 / ((xres - state.window_width - 2 : Int) : R)
      / ((yres - state.window_height - 2 : Int) : R)
  let fraction := min fraction 1
  { state with i := i, j := j, cs := { state := st, fraction := fraction } }

/-- The refined peak position of a call in state `Iterate` (correlation.c,
lines 971-997): `(ipos, jpos)`. -/
def crosscorrelate_refined (sqrt : R → R) (G_MAXDOUBLE : R)
    (gwy_math_refine_maximum : (Int → R) → Bool × R × R)
    (state : GwyCrossCorrelationState R) : R × R :=
  let best := crosscorrelate_search sqrt G_MAXDOUBLE state state.i state.j
  let scores := crosscorrelate_scores sqrt state state.i state.j best.1 best.2.1 best.2.2
  let refined := gwy_math_refine_maximum scores
  (if refined.1 then (best.2.1 : R) + refined.2.1 else (best.2.1 : R),
    if refined.1 then (best.2.2 : R) + refined.2.2 else (best.2.2 : R))

/-- A cross-correlation job in state `Iterate` on two 5 x 5 fields of zeros,
with a score field, window 1 x 1 and search area 1 x 1, the cursor on the grid
point `(1, 1)`; used for concrete inputs. -/
def sampleNarrowSearchState : GwyCrossCorrelationState R :=
  { cs := { state := GWY_COMPUTATION_STATE_ITERATE, fraction := 0 }
    data_field1 := fieldOfList 5 5 []
    data_field2 := fieldOfList 5 5 []
    x_dist := none
    y_dist := none
    score := some (fieldOfList 5 5 [])
    weights := fieldOfList 1 1 [1]
    search_width := 1
    search_height := 1
    window_width := 1
    window_height := 1
    i := 1
    j := 1 }

/-- A cross-correlation job of the 4 x 4 all-zero field against itself without
output fields, with the odd window 1 x 1 and search area 3 x 3, in the given
state, with the given fraction and cursor; its grid points are the columns and
rows 1 and 2. -/
def sampleOddWindowState (st : GwyComputationStateType) (fraction : R) (i j : Int) :
    GwyCrossCorrelationState R :=
  { cs := { state := st, fraction := fraction }
    data_field1 := constantField 4 4 0
    data_field2 := constantField 4 4 0
    x_dist := none
    y_dist := none
    score := none
    weights := gwy_data_field_fill (gwy_data_field_new 1 1 1 1) 1
    search_width := 3
    search_height := 3
    window_width := 1
    window_height := 1
    i := i
    j := j }

/-- The enumeration `GwyOrientation` (libprocess/gwyprocessenums.h, not among
the sources): the direction in which `gwy_fft_window_data_field` applies a
windowing function. -/
inductive GwyOrientation where
  | GWY_ORIENTATION_HORIZONTAL
  | GWY_ORIENTATION_VERTICAL
  deriving DecidableEq, Repr

/-- The enumeration `GwyWindowingType` (libprocess/gwyprocessenums.h, not among
the sources) as the integer it is in C. -/
abbrev GwyWindowingType := Int

/-- The enumeration `GwyCorrelationType`, the `method` argument of
`gwy_data_field_correlate`. -/
inductive GwyCorrelationType where
  | GWY_CORRELATION_NORMAL
  | GWY_CORRELATION_FFT
  | GWY_CORRELATION_POC
  deriving DecidableEq, Repr

/-- The function `gwy_data_field_crosscorrelate_set_weights` (correlation.c,
lines 869-880).  The check `g_return_if_fail(cstate->cs.state ==
GWY_COMPUTATION_STATE_INIT)` returns without touching the job.
`gwy_fft_window_data_field` (libprocess/inttrans.c, not among the sources) is a
parameter: it maps a field, an orientation and a windowing type to the windowed
field. -/
def gwy_data_field_crosscorrelate_set_weights
    (gwy_fft_window_data_field :
      GwyDataField R → GwyOrientation → GwyWindowingType → GwyDataField R)
    (cstate : GwyCrossCorrelationState R) (type : GwyWindowingType) :
    GwyCrossCorrelationState R :=
  if ¬ cstate.cs.state = GWY_COMPUTATION_STATE_INIT then cstate
  else
    let weights := gwy_data_field_fill cstate.weights 1
    let weights := gwy_fft_window_data_field weights
      GwyOrientation.GWY_ORIENTATION_HORIZONTAL type
    let weights := gwy_fft_window_data_field weights
      GwyOrientation.GWY_ORIENTATION_VERTICAL type
    { cstate with weights := weights }

/-- A division of doubles whose divisor the code does not test: `none` when
the divisor is zero, where C yields an infinity or a NaN, which are no elements
of `R`. -/
def gdouble_div (a b : R) : Option R :=
  if b = 0 then none else some (a / b)

/-- What the theorems assume of the C library function `hypot`: it returns the
non-negative square root of the sum of the squares of its arguments. -/
def IsHypot (hypot : R → R → R) : Prop :=
  ∀ x y : R, 0 ≤ hypot x y ∧ hypot x y * hypot x y = x * x + y * y

/-- The body of the loop over the frequency bins in the cases
`GWY_CORRELATION_FFT` and `GWY_CORRELATION_POC` of `gwy_data_field_correlate`
(correlation.c, lines 504-515) at the bin `i`: `fields` is the pair
`(data_in_re, kernel_in_re)` that the loop overwrites, the four other fields
are the outputs of the two forward transforms.  `hypot` is the C library
function.  The result is `none` when a division has a zero divisor. -/
def correlate_spectrum_bin (hypot : R → R → R) (method : GwyCorrelationType)
    (data_out_re data_out_im kernel_out_re kernel_out_im : GwyDataField R)
    (fields : GwyDataField R × GwyDataField R) (i : Int) :
    Option (GwyDataField R × GwyDataField R) :=
  -- now we construct new "complex field" from data and kernel fields
  let data_in_re := fields.1.store i
    (data_out_re.data i * kernel_out_re.data i + data_out_im.data i * kernel_out_im.data i)
  let kernel_in_re := fields.2.store i
    (-data_out_re.data i * kernel_out_im.data i + data_out_im.data i * kernel_out_re.data i)
  if method = GwyCorrelationType.GWY_CORRELATION_POC then
    let norm := hypot (data_in_re.data i) (kernel_in_re.data i)
    (gdouble_div (data_in_re.data i) norm).bind (fun re =>
      (gdouble_div (kernel_in_re.data i) norm).map (fun im =>
        (data_in_re.store i re, kernel_in_re.store i im)))
  else some (data_in_re, kernel_in_re)

/-- The loop `for (i = 0; i < xres*yres; i++)` over the frequency bins in the
cases `GWY_CORRELATION_FFT` and `GWY_CORRELATION_POC` of
`gwy_data_field_correlate` (correlation.c, lines 503-516): the result is the
pair `(data_in_re, kernel_in_re)` that is passed to the backward transform.
The transforms themselves (`gwy_data_field_2dfft`, libprocess/inttrans.c) are
not among the sources; the loop takes their outputs as arguments. -/
def correlate_spectrum (hypot : R → R → R) (method : GwyCorrelationType) (xres yres : Int)
    (data_out_re data_out_im kernel_out_re kernel_out_im : GwyDataField R)
    (data_in_re kernel_in_re : GwyDataField R) :
    Option (GwyDataField R × GwyDataField R) :=
  forRange 0 (xres * yres)
    (fun acc i =>
      acc.bind (fun fields =>
        correlate_spectrum_bin hypot method data_out_re data_out_im kernel_out_re kernel_out_im
          fields i))
    (some (data_in_re, kernel_in_re))

/-- The search loops of the one-shot `gwy_data_field_crosscorrelate`
(correlation.c, lines 713-740) at the point `(i, j)`: the result is
`(cormax, imax, jmax)`. -/
def crosscorrelate_point_search (sqrt : R → R) (data_field1 data_field2 : GwyDataField R)
    (search_width search_height i j : Int) : R × Int × Int :=
  forRange (i - search_width) i
    (fun best m =>
      forRange (j - search_height) j
        (fun best n =>
          let lscore := gwy_data_field_get_correlation_score sqrt data_field1 data_field2
            (i - Int.tdiv search_width 2) (j - Int.tdiv search_height 2)
            m n (m + search_width) (n + search_height)
          -- add a little to score at exactly same point - to prevent problems on flat data
          let lscore :=
            if m = i - Int.tdiv search_width 2 ∧ n = j - Int.tdiv search_height 2 then
              lscore * (10001 / 10000)
            else lscore
          if best.1 < lscore then
            (lscore, m + Int.tdiv search_width 2, n + Int.tdiv search_height 2)
          else best)
        best)
    (-1, i, j)

/-- The body of the two loops over the points of the one-shot
`gwy_data_field_crosscorrelate` (correlation.c, lines 710-785) at the point
`(i, j)`: `out` is the triple `(x_dist, y_dist, score)`.  The result is `none`
when one of the two divisions by `zm + zp - 2*z0` has a zero divisor. -/
def crosscorrelate_point (sqrt : R → R) (data_field1 data_field2 : GwyDataField R)
    (search_width search_height : Int)
    (out : GwyDataField R × GwyDataField R × GwyDataField R) (i j : Int) :
    Option (GwyDataField R × GwyDataField R × GwyDataField R) :=
  let xres := data_field1.xres
  let best := crosscorrelate_point_search sqrt data_field1 data_field2
    search_width search_height i j
  let cormax := best.1
  let imax := best.2.1
  let jmax := best.2.2
  let score := out.2.2.store (i + xres * j) cormax
  let z0 := cormax
  let zm := gwy_data_field_get_correlation_score sqrt data_field1 data_field2
    (i - Int.tdiv search_width 2) (j - Int.tdiv search_height 2)
    (imax - Int.tdiv search_width 2 - 1) (jmax - Int.tdiv search_height 2)
    (imax + Int.tdiv search_width 2 - 1) (jmax + Int.tdiv search_height 2)
  let zp := gwy_data_field_get_correlation_score sqrt data_field1 data_field2
    (i - Int.tdiv search_width 2) (j - Int.tdiv search_height 2)
    (imax - Int.tdiv search_width 2 + 1) (jmax - Int.tdiv search_height 2)
    (imax + Int.tdiv search_width 2 + 1) (jmax + Int.tdiv search_height 2)
  (gdouble_div (zm - zp) (zm + zp - 2 * z0)).bind (fun q =>
    let ipos : R := (imax : R) + q / 2
    let x_dist := out.1.store (i + xres * j)
      ((ipos - (i : R)) * data_field1.xreal / (data_field1.xres : R))
    let zm := gwy_data_field_get_correlation_score sqrt data_field1 data_field2
      (i - Int.tdiv search_width 2) (j - Int.tdiv search_height 2)
      (imax - Int.tdiv search_width 2) (jmax - Int.tdiv search_height 2 - 1)
      (imax + Int.tdiv search_width 2) (jmax + Int.tdiv search_height 2 - 1)
    let zp := gwy_data_field_get_correlation_score sqrt data_field1 data_field2
      (i - Int.tdiv search_width 2) (j - Int.tdiv search_height 2)
      (imax - Int.tdiv search_width 2) (jmax - Int.tdiv search_height 2 + 1)
      (imax + Int.tdiv search_width 2) (jmax + Int.tdiv search_height 2 + 1)
    (gdouble_div (zm - zp) (zm + zp - 2 * z0)).map (fun q =>
      let jpos : R := (jmax : R) + q / 2
      let y_dist := out.2.1.store (i + xres * j)
        ((jpos - (j : R)) * data_field1.yreal / (data_field1.yres : R))
      (x_dist, y_dist, score)))

/-- The function `gwy_data_field_crosscorrelate` (correlation.c, lines
685-792): the result is the triple `(x_dist, y_dist, score)` after the call,
`none` when a division has a zero divisor.  The arguments `window_width` and
`window_height` are unused in C and left out. -/
def gwy_data_field_crosscorrelate (sqrt : R → R) (data_field1 data_field2 : GwyDataField R)
    (x_dist y_dist score : GwyDataField R) (search_width search_height : Int) :
    Option (GwyDataField R × GwyDataField R × GwyDataField R) :=
  let xres := data_field1.xres
  let yres := data_field1.yres
  if ¬ (xres = data_field2.xres ∧ yres = data_field2.yres) then some (x_dist, y_dist, score)
  else
    let x_dist := gwy_data_field_clear x_dist
    let y_dist := gwy_data_field_clear y_dist
    let score := gwy_data_field_clear score
    -- iterate over all the points
    forRange (Int.tdiv search_width 2) (xres - Int.tdiv search_width 2)
      (fun acc i =>
        forRange (Int.tdiv search_height 2) (yres - Int.tdiv search_height 2)
          (fun acc j =>
            acc.bind (fun out =>
              crosscorrelate_point sqrt data_field1 data_field2 search_width search_height
                out i j))
          acc)
      (some (x_dist, y_dist, score))

/-- The grid points of a cross-correlation job: the cursor positions from the
first one, `(window_width/2 + 1, window_height/2 + 1)`, to the last one before
the iterator wraps at `xres - window_width/2 - 1` and finishes at
`yres - window_height/2 - 1` (correlation.c, lines 928-929 and 1007-1013). -/
def crosscorrelate_grid (state : GwyCrossCorrelationState R) (col row : Int) : Prop :=
  Int.tdiv state.window_width 2 + 1 ≤ col
    ∧ col ≤ state.data_field1.xres - Int.tdiv state.window_width 2 - 2
    ∧ Int.tdiv state.window_height 2 + 1 ≤ row
    ∧ row ≤ state.data_field1.yres - Int.tdiv state.window_height 2 - 2

/-- The window sum in closed form: the sum of `term i j` over the columns
`0 ≤ i < width` and the rows `0 ≤ j < height`. -/
def windowSum (width height : Int) (term : Int → Int → R) : R :=
  ∑ p ∈ Finset.range height.toNat ×ˢ Finset.range width.toNat, term (p.2 : Int) (p.1 : Int)

/-! ## Unrolling a counting loop on concrete bounds -/

theorem forRange_done {α : Type} (lo hi : Int) (body : α → Int → α) (init : α)
    (h : hi ≤ lo) : forRange lo hi body init = init := by
  unfold forRange
  have : (hi - lo).toNat = 0 := by omega
  rw [this]
  rfl

theorem forRange_step {α : Type} (lo hi : Int) (body : α → Int → α) (init : α)
    (h : lo < hi) : forRange lo hi body init = forRange (lo + 1) hi body (body init lo) := by
  unfold forRange
  have e : (hi - lo).toNat = (hi - (lo + 1)).toNat + 1 := by omega
  rw [e, List.range_succ_eq_map, List.foldl_cons, List.foldl_map]
  simp only [Nat.cast_zero, add_zero, Nat.succ_eq_add_one, Nat.cast_add, Nat.cast_one]
  congr 1
  funext acc t
  congr 1
  ring

/-! ## Loops as sums -/

theorem forRange_add (lo hi : Int) (f : Int → R) (a : R) :
    forRange lo hi (fun acc i => acc + f i) a
      = a + ∑ t ∈ Finset.range (hi - lo).toNat, f (lo + (t : Int)) := by
  unfold forRange
  generalize (hi - lo).toNat = n
  induction n with
  | zero => simp
  | succ n ih =>
    rw [List.range_succ, List.foldl_append, ih, Finset.sum_range_succ]
    simp [add_assoc]

theorem windowLoop_eq (width height : Int) (term : Int → Int → R) (a : R) :
    windowLoop width height term a = a + windowSum width height term := by
  unfold windowLoop windowSum
  have inner : (fun (acc : R) (j : Int) => forRange 0 width (fun acc i => acc + term i j) acc)
      = fun acc j => acc + ∑ t ∈ Finset.range width.toNat, term (t : Int) j := by
    funext acc j
    rw [forRange_add]
    simp
  rw [inner, forRange_add, Finset.sum_product' _ _ (fun (j i : ℕ) => term (i : Int) (j : Int))]
  simp

theorem windowLoop_zero (width height : Int) (term : Int → Int → R) :
    windowLoop width height term 0 = windowSum width height term := by
  rw [windowLoop_eq, zero_add]

theorem windowSum_one (width height : Int) (hw : 0 ≤ width) (hh : 0 ≤ height) :
    windowSum width height (fun _ _ => (1 : R)) = ((width * height : Int) : R) := by
  unfold windowSum
  simp only [Finset.sum_const, Finset.card_product, Finset.card_range, nsmul_eq_mul, mul_one]
  have h1 : ((width.toNat : Int)) = width := Int.toNat_of_nonneg hw
  have h2 : ((height.toNat : Int)) = height := Int.toNat_of_nonneg hh
  have : ((height.toNat * width.toNat : ℕ) : R) = (((height.toNat : Int) * (width.toNat : Int) : Int) : R) := by
    push_cast
    rfl
  rw [this, h1, h2, mul_comm]

/-! ## The correlation inequality -/

theorem sqrt_zero_of_isSqrt {sqrt : R → R} (hs : IsSqrt sqrt) : sqrt 0 = 0 := by
  have h := (hs 0 le_rfl).2
  exact mul_self_eq_zero.mp h

/-- A weighted covariance divided by the product of the two weighted standard
deviations and the weight sum lies in `[-1, 1]`. -/
theorem weighted_pearson_bound {ι : Type} (s : Finset ι) (w x y : ι → R) (a1 a2 r1 r2 N : R)
    (hw : ∀ p ∈ s, 0 ≤ w p) (hN : 0 < N)
    (h1 : r1 * r1 = (∑ p ∈ s, w p * (x p - a1) * (x p - a1)) / N)
    (h2 : r2 * r2 = (∑ p ∈ s, w p * (y p - a2) * (y p - a2)) / N)
    (hr1 : 0 ≤ r1) (hr2 : 0 ≤ r2) (hr1z : r1 ≠ 0) (hr2z : r2 ≠ 0) :
    -1 ≤ (∑ p ∈ s, w p * (x p - a1) * (y p - a2)) / (r1 * r2 * N)
      ∧ (∑ p ∈ s, w p * (x p - a1) * (y p - a2)) / (r1 * r2 * N) ≤ 1 := by
  have hr1p : 0 < r1 := lt_of_le_of_ne hr1 (Ne.symm hr1z)
  have hr2p : 0 < r2 := lt_of_le_of_ne hr2 (Ne.symm hr2z)
  have hD : 0 < r1 * r2 * N := by positivity
  have cs := Finset.sum_sq_le_sum_mul_sum_of_sq_eq_mul s
    (r := fun p => w p * (x p - a1) * (y p - a2))
    (f := fun p => w p * (x p - a1) * (x p - a1))
    (g := fun p => w p * (y p - a2) * (y p - a2))
    (fun p hp => by
      have e : w p * (x p - a1) * (x p - a1) = w p * ((x p - a1) * (x p - a1)) := by ring
      simp only [e]
      exact mul_nonneg (hw p hp) (mul_self_nonneg _))
    (fun p hp => by
      have e : w p * (y p - a2) * (y p - a2) = w p * ((y p - a2) * (y p - a2)) := by ring
      simp only [e]
      exact mul_nonneg (hw p hp) (mul_self_nonneg _))
    (fun p _ => by ring)
  have hA : (∑ p ∈ s, w p * (x p - a1) * (x p - a1)) = r1 * r1 * N := by
    rw [h1]; field_simp
  have hB : (∑ p ∈ s, w p * (y p - a2) * (y p - a2)) = r2 * r2 * N := by
    rw [h2]; field_simp
  rw [hA, hB] at cs
  have hsq : (∑ p ∈ s, w p * (x p - a1) * (y p - a2)) ^ 2 ≤ (r1 * r2 * N) ^ 2 := by
    calc (∑ p ∈ s, w p * (x p - a1) * (y p - a2)) ^ 2
        ≤ r1 * r1 * N * (r2 * r2 * N) := cs
      _ = (r1 * r2 * N) ^ 2 := by ring
  have hb := abs_le_of_sq_le_sq' hsq hD.le
  constructor
  · rw [le_div_iff₀ hD]
    linarith [hb.1]
  · rw [div_le_one hD]
    exact hb.2

/-! ## The scorer -/

/-- Statement C2: for every geometry that lies outside the data field or the
kernel field, `gwy_data_field_get_correlation_score` returns exactly -1, and it
does so whatever the sample buffers of the two fields hold: no sample is
read. -/
theorem C2_invalid_geometry_returns_minus_one (sqrt : R → R)
    (data_field kernel_field : GwyDataField R)
    (col row kernel_col kernel_row kernel_width kernel_height : Int)
    (hbad : col < 0 ∨ row < 0 ∨ col + kernel_width > data_field.xres
      ∨ row + kernel_height > data_field.yres ∨ kernel_col < 0 ∨ kernel_row < 0
      ∨ kernel_col + kernel_width > kernel_field.xres
      ∨ kernel_row + kernel_height > kernel_field.yres) :
    ∀ data kdata : Int → R,
      gwy_data_field_get_correlation_score sqrt
        { data_field with data := data } { kernel_field with data := kdata }
        col row kernel_col kernel_row kernel_width kernel_height = -1 := by
  intro data kdata
  unfold gwy_data_field_get_correlation_score
  simp only []
  split_ifs with h1 h2 h3
  · rfl
  · rfl
  · rfl
  · exfalso
    rcases hbad with h | h | h | h | h | h | h | h
    · exact h2 (Or.inl h)
    · exact h2 (Or.inr (Or.inl h))
    · exact h2 (Or.inr (Or.inr (Or.inl h)))
    · exact h2 (Or.inr (Or.inr (Or.inr h)))
    · exact h3 (Or.inl h)
    · exact h3 (Or.inr (Or.inl h))
    · exact h3 (Or.inr (Or.inr (Or.inl h)))
    · exact h3 (Or.inr (Or.inr (Or.inr h)))
  all_goals
    exfalso
    rcases hbad with h | h | h | h | h | h | h | h
    · exact h2 (Or.inl h)
    · exact h2 (Or.inr (Or.inl h))
    · exact h2 (Or.inr (Or.inr (Or.inl h)))
    · exact h2 (Or.inr (Or.inr (Or.inr h)))
    · exact h3 (Or.inl h)
    · exact h3 (Or.inr (Or.inl h))
    · exact h3 (Or.inr (Or.inr (Or.inl h)))
    · exact h3 (Or.inr (Or.inr (Or.inr h)))

theorem isSqrt_real : IsSqrt Real.sqrt :=
  fun x hx => ⟨Real.sqrt_nonneg x, Real.mul_self_sqrt hx⟩

theorem cast_window_pos (width height : Int) (hw : 1 ≤ width) (hh : 1 ≤ height) :
    (0 : R) < ((width * height : Int) : R) := by
  have : (0 : Int) < width * height := by positivity
  exact_mod_cast this

theorem windowSum_nonneg (width height : Int) (term : Int → Int → R)
    (h : ∀ i j, 0 ≤ term i j) : 0 ≤ windowSum width height term :=
  Finset.sum_nonneg (fun _ _ => h _ _)

/-- The modelled area rms is non-negative and its square is the mean squared
deviation from the window mean. -/
theorem area_get_rms_spec {sqrt : R → R} (hs : IsSqrt sqrt) (f : GwyDataField R)
    (col row width height : Int) (hw : 1 ≤ width) (hh : 1 ≤ height) :
    0 ≤ gwy_data_field_area_get_rms sqrt f col row width height
      ∧ gwy_data_field_area_get_rms sqrt f col row width height
          * gwy_data_field_area_get_rms sqrt f col row width height
        = windowSum width height
            (fun i j =>
              (f.data ((i + col) + f.xres * (j + row))
                  - gwy_data_field_area_get_avg f col row width height)
                * (f.data ((i + col) + f.xres * (j + row))
                  - gwy_data_field_area_get_avg f col row width height))
          / ((width * height : Int) : R) := by
  unfold gwy_data_field_area_get_rms
  simp only [windowLoop_zero]
  apply hs
  apply div_nonneg
  · exact windowSum_nonneg _ _ _ (fun _ _ => mul_self_nonneg _)
  · exact (cast_window_pos width height hw hh).le

/-- Statement C1: for every geometry that passes the bounds checks, with a
window of at least one sample, `gwy_data_field_get_correlation_score` returns a
value in `[-1, 1]` (exact arithmetic, area avg the window mean and area rms the
population standard deviation of the window). -/
theorem C1_score_in_range (sqrt : R → R) (hs : IsSqrt sqrt)
    (data_field kernel_field : GwyDataField R)
    (col row kernel_col kernel_row kernel_width kernel_height : Int)
    (hw : 1 ≤ kernel_width) (hh : 1 ≤ kernel_height)
    (hcol : 0 ≤ col) (hcolw : col + kernel_width ≤ data_field.xres)
    (hrow : 0 ≤ row) (hrowh : row + kernel_height ≤ data_field.yres)
    (hkcol : 0 ≤ kernel_col) (hkcolw : kernel_col + kernel_width ≤ kernel_field.xres)
    (hkrow : 0 ≤ kernel_row) (hkrowh : kernel_row + kernel_height ≤ kernel_field.yres) :
    -1 ≤ gwy_data_field_get_correlation_score sqrt data_field kernel_field
          col row kernel_col kernel_row kernel_width kernel_height
      ∧ gwy_data_field_get_correlation_score sqrt data_field kernel_field
          col row kernel_col kernel_row kernel_width kernel_height ≤ 1 := by
  have g1 : ¬ (kernel_col > kernel_field.xres ∨ kernel_row > kernel_field.yres) := by omega
  have g2 : ¬ (col < 0 ∨ row < 0 ∨ col + kernel_width > data_field.xres
      ∨ row + kernel_height > data_field.yres) := by omega
  have g3 : ¬ (kernel_col < 0 ∨ kernel_row < 0 ∨ kernel_col + kernel_width > kernel_field.xres
      ∨ kernel_row + kernel_height > kernel_field.yres) := by omega
  unfold gwy_data_field_get_correlation_score
  simp only [g1, g2, g3, if_false]
  split_ifs with z1 z2
  · constructor <;> norm_num
  · constructor <;> norm_num
  · have r1 := area_get_rms_spec hs data_field col row kernel_width kernel_height hw hh
    have r2 := area_get_rms_spec hs kernel_field kernel_col kernel_row
      kernel_width kernel_height hw hh
    have hN := cast_window_pos (R := R) kernel_width kernel_height hw hh
    rw [windowLoop_zero]
    have key := weighted_pearson_bound
      (Finset.range kernel_height.toNat ×ˢ Finset.range kernel_width.toNat)
      (fun _ => (1 : R))
      (fun p => data_field.data (((p.2 : Int) + col) + data_field.xres * ((p.1 : Int) + row)))
      (fun p => kernel_field.data
        (((p.2 : Int) + kernel_col) + kernel_field.xres * ((p.1 : Int) + kernel_row)))
      (gwy_data_field_area_get_avg data_field col row kernel_width kernel_height)
      (gwy_data_field_area_get_avg kernel_field kernel_col kernel_row kernel_width kernel_height)
      (gwy_data_field_area_get_rms sqrt data_field col row kernel_width kernel_height)
      (gwy_data_field_area_get_rms sqrt kernel_field kernel_col kernel_row
        kernel_width kernel_height)
      ((kernel_width * kernel_height : Int) : R)
      (fun _ _ => zero_le_one) hN
      (by rw [r1.2]; simp only [windowSum, one_mul])
      (by rw [r2.2]; simp only [windowSum, one_mul])
      r1.1 r2.1 z1 z2
    simpa only [windowSum, one_mul] using key

/-- A concrete instance of C1 over the real numbers: a 2 x 1 data field with
samples 0, 2 against a 2 x 1 kernel with samples 1, 5. -/
theorem C1_score_in_range_witness :
    IsSqrt Real.sqrt
      ∧ (-1 : ℝ) ≤ gwy_data_field_get_correlation_score Real.sqrt
          (fieldOfList 2 1 [0, 2]) (fieldOfList 2 1 [1, 5]) 0 0 0 0 2 1
      ∧ gwy_data_field_get_correlation_score Real.sqrt
          (fieldOfList 2 1 [0, 2]) (fieldOfList 2 1 [1, 5]) 0 0 0 0 2 1 ≤ (1 : ℝ) :=
  ⟨isSqrt_real,
    C1_score_in_range Real.sqrt isSqrt_real (fieldOfList 2 1 [0, 2]) (fieldOfList 2 1 [1, 5])
      0 0 0 0 2 1 (by decide) (by decide) (by decide) (by decide) (by decide) (by decide)
      (by decide) (by decide) (by decide) (by decide)⟩

/-- Statement C3: for every geometry that passes the bounds checks, if the area
rms of the data window or of the kernel window is zero,
`gwy_data_field_get_correlation_score` returns exactly 0, which differs from
the sentinel -1 of an invalid geometry. -/
theorem C3_zero_variance_returns_zero (sqrt : R → R)
    (data_field kernel_field : GwyDataField R)
    (col row kernel_col kernel_row kernel_width kernel_height : Int)
    (hw : 1 ≤ kernel_width) (hh : 1 ≤ kernel_height)
    (hcol : 0 ≤ col) (hcolw : col + kernel_width ≤ data_field.xres)
    (hrow : 0 ≤ row) (hrowh : row + kernel_height ≤ data_field.yres)
    (hkcol : 0 ≤ kernel_col) (hkcolw : kernel_col + kernel_width ≤ kernel_field.xres)
    (hkrow : 0 ≤ kernel_row) (hkrowh : kernel_row + kernel_height ≤ kernel_field.yres)
    (hzero : gwy_data_field_area_get_rms sqrt data_field col row kernel_width kernel_height = 0
      ∨ gwy_data_field_area_get_rms sqrt kernel_field kernel_col kernel_row
          kernel_width kernel_height = 0) :
    gwy_data_field_get_correlation_score sqrt data_field kernel_field
        col row kernel_col kernel_row kernel_width kernel_height = 0
      ∧ gwy_data_field_get_correlation_score sqrt data_field kernel_field
        col row kernel_col kernel_row kernel_width kernel_height ≠ -1 := by
  have g1 : ¬ (kernel_col > kernel_field.xres ∨ kernel_row > kernel_field.yres) := by omega
  have g2 : ¬ (col < 0 ∨ row < 0 ∨ col + kernel_width > data_field.xres
      ∨ row + kernel_height > data_field.yres) := by omega
  have g3 : ¬ (kernel_col < 0 ∨ kernel_row < 0 ∨ kernel_col + kernel_width > kernel_field.xres
      ∨ kernel_row + kernel_height > kernel_field.yres) := by omega
  have h0 : gwy_data_field_get_correlation_score sqrt data_field kernel_field
        col row kernel_col kernel_row kernel_width kernel_height = 0 := by
    unfold gwy_data_field_get_correlation_score
    simp only [g1, g2, g3, if_false]
    split_ifs with z1 z2
    · rfl
    · rfl
    · rcases hzero with h | h
      · exact absurd h z1
      · exact absurd h z2
  rw [h0]
  exact ⟨rfl, by norm_num⟩

/-- A concrete instance of C2: the window starts one column left of the data
field. -/
theorem C2_invalid_geometry_returns_minus_one_witness :
    ((-1 : Int) < 0) ∧ ∀ data kdata : Int → ℝ,
      gwy_data_field_get_correlation_score Real.sqrt
        { fieldOfList 2 1 [0, 2] with data := data } { fieldOfList 2 1 [1, 5] with data := kdata }
        (-1) 0 0 0 2 1 = -1 :=
  ⟨by decide,
    C2_invalid_geometry_returns_minus_one Real.sqrt (fieldOfList 2 1 [0, 2])
      (fieldOfList 2 1 [1, 5]) (-1) 0 0 0 2 1 (Or.inl (by decide))⟩

/-- A concrete instance of C3: a constant 2 x 1 data window. -/
theorem C3_zero_variance_returns_zero_witness :
    gwy_data_field_area_get_rms Real.sqrt (fieldOfList 2 1 [3, 3]) 0 0 2 1 = 0
      ∧ gwy_data_field_get_correlation_score Real.sqrt
          (fieldOfList 2 1 [3, 3]) (fieldOfList 2 1 [1, 5]) 0 0 0 0 2 1 = 0
      ∧ gwy_data_field_get_correlation_score Real.sqrt
          (fieldOfList 2 1 [3, 3]) (fieldOfList 2 1 [1, 5]) 0 0 0 0 2 1 ≠ -1 :=
  have hz : gwy_data_field_area_get_rms Real.sqrt (fieldOfList 2 1 [3, 3]) 0 0 2 1 = 0 := by
    simp [gwy_data_field_area_get_rms, gwy_data_field_area_get_avg, windowLoop,
      forRange_step, forRange_done, fieldOfList]
  ⟨hz,
    C3_zero_variance_returns_zero Real.sqrt (fieldOfList 2 1 [3, 3]) (fieldOfList 2 1 [1, 5])
      0 0 0 0 2 1 (by decide) (by decide) (by decide) (by decide) (by decide) (by decide)
      (by decide) (by decide) (by decide) (by decide) (Or.inl hz)⟩

/-! ## Loop invariants -/

theorem forRange_induction {α : Type} (lo hi : Int) (body : α → Int → α) (init : α)
    (Inv : Int → α → Prop) (h0 : Inv lo init)
    (hstep : ∀ i a, lo ≤ i → i < hi → Inv i a → Inv (i + 1) (body a i)) :
    Inv (max lo hi) (forRange lo hi body init) := by
  unfold forRange
  have main : ∀ m : ℕ, m ≤ (hi - lo).toNat →
      Inv (lo + (m : Int))
        ((List.range m).foldl (fun acc (t : Nat) => body acc (lo + (t : Int))) init) := by
    intro m
    induction m with
    | zero => intro _; simpa using h0
    | succ m ih =>
      intro hm
      rw [List.range_succ, List.foldl_append]
      have := hstep (lo + (m : Int)) _ (by omega) (by omega) (ih (by omega))
      simpa [add_assoc] using this
  have e : max lo hi = lo + (((hi - lo).toNat : ℕ) : Int) := by omega
  rw [e]
  exact main _ le_rfl

theorem key_inj (xres i j i0 j0 : Int) (hj : 0 ≤ j) (hjx : j < xres) (hj0 : 0 ≤ j0)
    (hj0x : j0 < xres) (h : i * xres + j = i0 * xres + j0) : i = i0 ∧ j = j0 := by
  have hi : i = i0 := by
    rcases lt_trichotomy i i0 with hlt | heq | hgt
    · exfalso
      have : 0 ≤ (i0 - i - 1) * xres := mul_nonneg (by omega) (by omega)
      nlinarith
    · exact heq
    · exfalso
      have : 0 ≤ (i - i0 - 1) * xres := mul_nonneg (by omega) (by omega)
      nlinarith
  subst hi
  exact ⟨rfl, by omega⟩

theorem Written_refl (xres : Int) (value : Int → Int → R) (S : Int → Int → Prop)
    (s0 : GwyDataField R) (hS : ∀ i j, ¬ S i j) : Written xres value S s0 s0 :=
  ⟨rfl, rfl, fun i j h => absurd h (hS i j), fun _ _ => rfl⟩

theorem Written_congr {xres : Int} {value : Int → Int → R} {S S2 : Int → Int → Prop}
    {s0 s : GwyDataField R} (h : Written xres value S s0 s) (hS : ∀ i j, S2 i j ↔ S i j) :
    Written xres value S2 s0 s :=
  ⟨h.1, h.2.1, fun i j hij => h.2.2.1 i j ((hS i j).mp hij),
    fun k hk => h.2.2.2 k (fun i j hij => hk i j ((hS i j).mpr hij))⟩

theorem Written_store {xres : Int} {value : Int → Int → R} {S : Int → Int → Prop}
    {s0 s : GwyDataField R} (h : Written xres value S s0 s)
    (hS : ∀ i j, S i j → 0 ≤ j ∧ j < xres) (i0 j0 : Int) (hj0 : 0 ≤ j0) (hj0x : j0 < xres) :
    Written xres value (fun i j => S i j ∨ (i = i0 ∧ j = j0)) s0
      (s.store (i0 * xres + j0) (value i0 j0)) := by
  refine ⟨h.1, h.2.1, ?_, ?_⟩
  · intro i j hij
    show Function.update s.data (i0 * xres + j0) (value i0 j0) (i * xres + j) = value i j
    by_cases hk : i * xres + j = i0 * xres + j0
    · rw [hk, Function.update_same]
      rcases hij with hij | ⟨h1, h2⟩
      · obtain ⟨e1, e2⟩ := key_inj xres i j i0 j0 (hS i j hij).1 (hS i j hij).2 hj0 hj0x hk
        rw [e1, e2]
      · rw [h1, h2]
    · rw [Function.update_noteq hk]
      rcases hij with hij | ⟨h1, h2⟩
      · exact h.2.2.1 i j hij
      · exact absurd (by rw [h1, h2]) hk
  · intro k hk
    show Function.update s.data (i0 * xres + j0) (value i0 j0) k = s0.data k
    have hne : k ≠ i0 * xres + j0 := hk i0 j0 (Or.inr ⟨rfl, rfl⟩)
    rw [Function.update_noteq hne]
    exact h.2.2.2 k (fun i j hij => hk i j (Or.inl hij))

/-! ## The one-shot correlation map -/

theorem tdiv_two (a : Int) (h : 0 ≤ a) : Int.tdiv a 2 = a / 2 :=
  Int.tdiv_eq_ediv h (by decide)

theorem correlate_pixel_eq (data_field kernel_field avg rms : GwyDataField R) (kavg krms : R)
    (xoff yoff : Int) (score : GwyDataField R) (i j : Int) :
    correlate_pixel data_field kernel_field avg rms kavg krms xoff yoff score i j
      = score.store (i * data_field.xres + j)
          (correlate_value data_field kernel_field avg rms kavg krms xoff yoff i j) := by
  unfold correlate_pixel correlate_value
  simp only []
  split_ifs <;> rfl

theorem kernel_fits_range (data_field kernel_field : GwyDataField R) (i j : Int)
    (hkx : 1 ≤ kernel_field.xres) (hky : 1 ≤ kernel_field.yres)
    (h : kernel_fits data_field kernel_field i j) :
    0 ≤ j ∧ j < data_field.xres ∧ 0 ≤ i ∧ i < data_field.yres := by
  unfold kernel_fits at h
  rw [tdiv_two _ (by omega), tdiv_two _ (by omega)] at h
  omega

/-- The score field after the one-shot call: the positions where the kernel
fits hold `correlate_value`, every other sample is the one of the field filled
with -1. -/
theorem correlate_NORMAL_written (sqrt : R → R) (data_field kernel_field score : GwyDataField R)
    (hkx : 1 ≤ kernel_field.xres) (hky : 1 ≤ kernel_field.yres)
    (hx : kernel_field.xres ≤ data_field.xres) (hy : kernel_field.yres ≤ data_field.yres) :
    Written data_field.xres
      (correlate_value data_field kernel_field
        (calculate_normalization sqrt data_field data_field
          kernel_field.xres kernel_field.yres).1
        (calculate_normalization sqrt data_field data_field
          kernel_field.xres kernel_field.yres).2
        (gwy_data_field_get_avg kernel_field) (gwy_data_field_get_rms sqrt kernel_field)
        (Int.tdiv (kernel_field.xres - 1) 2) (Int.tdiv (kernel_field.yres - 1) 2))
      (kernel_fits data_field kernel_field)
      (gwy_data_field_fill score (-1))
      (gwy_data_field_correlate_NORMAL sqrt data_field kernel_field score) := by
  have g1 : ¬ (kernel_field.xres ≤ 0 ∨ kernel_field.yres ≤ 0) := by omega
  have g2 : ¬ (kernel_field.xres > data_field.xres ∨ kernel_field.yres > data_field.yres) := by
    omega
  have hxo := tdiv_two (kernel_field.xres - 1) (by omega)
  have hyo := tdiv_two (kernel_field.yres - 1) (by omega)
  unfold gwy_data_field_correlate_NORMAL
  simp only [g1, g2, if_false, correlate_pixel_eq]
  have outer := forRange_induction (Int.tdiv (kernel_field.yres - 1) 2)
    (data_field.yres - kernel_field.yres + Int.tdiv (kernel_field.yres - 1) 2 + 1)
    (fun score i =>
      forRange (Int.tdiv (kernel_field.xres - 1) 2)
        (data_field.xres - kernel_field.xres + Int.tdiv (kernel_field.xres - 1) 2 + 1)
        (fun score j =>
          score.store (i * data_field.xres + j)
            (correlate_value data_field kernel_field
              (calculate_normalization sqrt data_field data_field
                kernel_field.xres kernel_field.yres).1
              (calculate_normalization sqrt data_field data_field
                kernel_field.xres kernel_field.yres).2
              (gwy_data_field_get_avg kernel_field) (gwy_data_field_get_rms sqrt kernel_field)
              (Int.tdiv (kernel_field.xres - 1) 2) (Int.tdiv (kernel_field.yres - 1) 2) i j))
        score)
    (gwy_data_field_fill score (-1))
    (fun i s => Written data_field.xres
      (correlate_value data_field kernel_field
        (calculate_normalization sqrt data_field data_field
          kernel_field.xres kernel_field.yres).1
        (calculate_normalization sqrt data_field data_field
          kernel_field.xres kernel_field.yres).2
        (gwy_data_field_get_avg kernel_field) (gwy_data_field_get_rms sqrt kernel_field)
        (Int.tdiv (kernel_field.xres - 1) 2) (Int.tdiv (kernel_field.yres - 1) 2))
      (fun i2 j2 => kernel_fits data_field kernel_field i2 j2 ∧ i2 < i)
      (gwy_data_field_fill score (-1)) s)
    (Written_refl _ _ _ _ (fun i j h => by
      have := h.1
      unfold kernel_fits at this
      omega))
    (by
      intro i s hlo hhi hInv
      have inner := forRange_induction (Int.tdiv (kernel_field.xres - 1) 2)
        (data_field.xres - kernel_field.xres + Int.tdiv (kernel_field.xres - 1) 2 + 1)
        (fun score j =>
          score.store (i * data_field.xres + j)
            (correlate_value data_field kernel_field
              (calculate_normalization sqrt data_field data_field
                kernel_field.xres kernel_field.yres).1
              (calculate_normalization sqrt data_field data_field
                kernel_field.xres kernel_field.yres).2
              (gwy_data_field_get_avg kernel_field) (gwy_data_field_get_rms sqrt kernel_field)
              (Int.tdiv (kernel_field.xres - 1) 2) (Int.tdiv (kernel_field.yres - 1) 2) i j))
        s
        (fun j s => Written data_field.xres
          (correlate_value data_field kernel_field
            (calculate_normalization sqrt data_field data_field
              kernel_field.xres kernel_field.yres).1
            (calculate_normalization sqrt data_field data_field
              kernel_field.xres kernel_field.yres).2
            (gwy_data_field_get_avg kernel_field) (gwy_data_field_get_rms sqrt kernel_field)
            (Int.tdiv (kernel_field.xres - 1) 2) (Int.tdiv (kernel_field.yres - 1) 2))
          (fun i2 j2 => kernel_fits data_field kernel_field i2 j2
            ∧ (i2 < i ∨ (i2 = i ∧ j2 < j)))
          (gwy_data_field_fill score (-1)) s)
        (Written_congr hInv (fun i2 j2 => by
          unfold kernel_fits
          constructor
          · rintro ⟨hf, h | ⟨h1, h2⟩⟩
            · exact ⟨hf, h⟩
            · omega
          · rintro ⟨hf, h⟩
            exact ⟨hf, Or.inl h⟩))
        (by
          intro j s2 hjlo hjhi hInv2
          have st := Written_store hInv2
            (fun i2 j2 h => by
              have := kernel_fits_range data_field kernel_field i2 j2 hkx hky h.1
              omega)
            i j (by omega) (by omega)
          refine Written_congr st (fun i2 j2 => ?_)
          unfold kernel_fits
          constructor
          · rintro ⟨hf, h | ⟨h1, h2⟩⟩
            · exact Or.inl ⟨hf, Or.inl h⟩
            · by_cases hj : j2 = j
              · exact Or.inr ⟨h1, hj⟩
              · exact Or.inl ⟨hf, Or.inr ⟨h1, by omega⟩⟩
          · rintro (⟨hf, h⟩ | ⟨h1, h2⟩)
            · refine ⟨hf, ?_⟩
              rcases h with h | ⟨h1, h2⟩
              · exact Or.inl h
              · exact Or.inr ⟨h1, by omega⟩
            · subst h1 h2
              refine ⟨?_, Or.inr ⟨rfl, by omega⟩⟩
              omega)
      refine Written_congr inner (fun i2 j2 => ?_)
      unfold kernel_fits
      constructor
      · rintro ⟨hf, h⟩
        refine ⟨hf, ?_⟩
        by_cases hi : i2 = i
        · exact Or.inr ⟨hi, by omega⟩
        · exact Or.inl (by omega)
      · rintro ⟨hf, h | ⟨h1, h2⟩⟩
        · exact ⟨hf, by omega⟩
        · exact ⟨hf, by omega⟩)
  refine Written_congr outer (fun i2 j2 => ?_)
  unfold kernel_fits
  constructor
  · intro hf
    exact ⟨hf, by omega⟩
  · rintro ⟨hf, _⟩
    exact hf

/-! ## The normalisation cache -/

theorem idx_div (xres i j : Int) (hj : 0 ≤ j) (hjx : j < xres) : (i * xres + j) / xres = i := by
  have hx : xres ≠ 0 := by omega
  rw [add_comm, Int.add_mul_ediv_right _ _ hx, Int.ediv_eq_zero_of_lt hj hjx, zero_add]

theorem idx_mod (xres i j : Int) (hj : 0 ≤ j) (hjx : j < xres) : (i * xres + j) % xres = j := by
  rw [add_comm, Int.add_mul_emod_self, Int.emod_eq_of_lt hj hjx]

theorem idx_range (xres yres i j : Int) (hj : 0 ≤ j) (hjx : j < xres) (hi : 0 ≤ i)
    (hiy : i < yres) : 0 ≤ i * xres + j ∧ i * xres + j < xres * yres := by
  have h1 : 0 ≤ i * xres := mul_nonneg hi (by omega)
  have h2 : 0 ≤ (yres - 1 - i) * xres := mul_nonneg (by omega) (by omega)
  constructor
  · omega
  · nlinarith

theorem window_card (width height : Int) (hw : 0 ≤ width) (hh : 0 ≤ height) :
    (((Finset.range height.toNat ×ˢ Finset.range width.toNat).card : ℕ) : R)
      = ((width * height : Int) : R) := by
  have h := windowSum_one (R := R) width height hw hh
  unfold windowSum at h
  simpa using h

/-- The mean squared deviation from the mean is the mean of the squares minus
the square of the mean. -/
theorem mean_sq_dev {ι : Type} (s : Finset ι) (x : ι → R) (N : R) (hN : (s.card : R) = N)
    (hpos : 0 < N) :
    (∑ p ∈ s, (x p - (∑ q ∈ s, x q) / N) * (x p - (∑ q ∈ s, x q) / N)) / N
      = (∑ p ∈ s, x p * x p) / N - ((∑ q ∈ s, x q) / N) * ((∑ q ∈ s, x q) / N) := by
  have hne : N ≠ 0 := ne_of_gt hpos
  have expand : ∀ a : R, (∑ p ∈ s, (x p - a) * (x p - a))
      = (∑ p ∈ s, x p * x p) - 2 * a * (∑ p ∈ s, x p) + N * (a * a) := by
    intro a
    have : ∀ p, (x p - a) * (x p - a) = x p * x p - 2 * a * x p + a * a := by intro p; ring
    simp_rw [this, Finset.sum_add_distrib, Finset.sum_sub_distrib, ← Finset.mul_sum,
      Finset.sum_const, nsmul_eq_mul, hN]
    ring
  rw [expand]
  field_simp
  ring

theorem windowSum_congr (width height : Int) (f g : Int → Int → R)
    (h : ∀ i j, 0 ≤ i → i < width → 0 ≤ j → j < height → f i j = g i j) :
    windowSum width height f = windowSum width height g := by
  unfold windowSum
  apply Finset.sum_congr rfl
  intro p hp
  rw [Finset.mem_product, Finset.mem_range, Finset.mem_range] at hp
  exact h _ _ (by omega) (by omega) (by omega) (by omega)

/-- At a position where the kernel fits, the gathered field holds the mean of
the window under the kernel. -/
theorem area_gather_fits (f : GwyDataField R) (hsize vsize i j : Int)
    (hh : 1 ≤ hsize) (hv : 1 ≤ vsize)
    (hj : Int.tdiv (hsize - 1) 2 ≤ j) (hjx : j + hsize - Int.tdiv (hsize - 1) 2 ≤ f.xres)
    (hi : Int.tdiv (vsize - 1) 2 ≤ i) (hiy : i + vsize - Int.tdiv (vsize - 1) 2 ≤ f.yres) :
    (gwy_data_field_area_gather f hsize vsize).data (i * f.xres + j)
      = gwy_data_field_area_get_avg f (j - Int.tdiv (hsize - 1) 2) (i - Int.tdiv (vsize - 1) 2)
          hsize vsize := by
  have hxo := tdiv_two (hsize - 1) (by omega)
  have hyo := tdiv_two (vsize - 1) (by omega)
  have hj0 : 0 ≤ j := by omega
  have hjr : j < f.xres := by omega
  have hi0 : 0 ≤ i := by omega
  have hir : i < f.yres := by omega
  have hr := idx_range f.xres f.yres i j hj0 hjr hi0 hir
  unfold gwy_data_field_area_gather
  simp only [hr.1, hr.2, and_self, if_true, idx_div f.xres i j hj0 hjr,
    idx_mod f.xres i j hj0 hjr]
  have e1 : max 0 (j - Int.tdiv (hsize - 1) 2) = j - Int.tdiv (hsize - 1) 2 :=
    max_eq_right (by omega)
  have e2 : min f.xres (j - Int.tdiv (hsize - 1) 2 + hsize) = j - Int.tdiv (hsize - 1) 2 + hsize :=
    min_eq_right (by omega)
  have e3 : max 0 (i - Int.tdiv (vsize - 1) 2) = i - Int.tdiv (vsize - 1) 2 :=
    max_eq_right (by omega)
  have e4 : min f.yres (i - Int.tdiv (vsize - 1) 2 + vsize) = i - Int.tdiv (vsize - 1) 2 + vsize :=
    min_eq_right (by omega)
  rw [e1, e2, e3, e4]
  congr 1 <;> ring

theorem normalization_avg (sqrt : R → R) (f : GwyDataField R) (kw kh i j : Int)
    (hh : 1 ≤ kw) (hv : 1 ≤ kh)
    (hj : Int.tdiv (kw - 1) 2 ≤ j) (hjx : j + kw - Int.tdiv (kw - 1) 2 ≤ f.xres)
    (hi : Int.tdiv (kh - 1) 2 ≤ i) (hiy : i + kh - Int.tdiv (kh - 1) 2 ≤ f.yres) :
    (calculate_normalization sqrt f f kw kh).1.data (i * f.xres + j)
      = gwy_data_field_area_get_avg f (j - Int.tdiv (kw - 1) 2) (i - Int.tdiv (kh - 1) 2)
          kw kh := by
  unfold calculate_normalization
  simp only [and_self, not_true_eq_false, if_false]
  exact area_gather_fits f kw kh i j hh hv hj hjx hi hiy

theorem normalization_rms (sqrt : R → R) (f : GwyDataField R) (kw kh i j : Int)
    (hh : 1 ≤ kw) (hv : 1 ≤ kh)
    (hj : Int.tdiv (kw - 1) 2 ≤ j) (hjx : j + kw - Int.tdiv (kw - 1) 2 ≤ f.xres)
    (hi : Int.tdiv (kh - 1) 2 ≤ i) (hiy : i + kh - Int.tdiv (kh - 1) 2 ≤ f.yres) :
    (calculate_normalization sqrt f f kw kh).2.data (i * f.xres + j)
      = gwy_data_field_area_get_rms sqrt f (j - Int.tdiv (kw - 1) 2) (i - Int.tdiv (kh - 1) 2)
          kw kh := by
  have hxo := tdiv_two (kw - 1) (by omega)
  have hyo := tdiv_two (kh - 1) (by omega)
  have hr := idx_range f.xres f.yres i j (by omega) (by omega) (by omega) (by omega)
  have hN := cast_window_pos (R := R) kw kh hh hv
  have ga := area_gather_fits f kw kh i j hh hv hj hjx hi hiy
  have gs := area_gather_fits
    ({ f with
        data := fun i => if 0 ≤ i ∧ i < f.xres * f.yres then f.data i * f.data i else f.data i } :
      GwyDataField R)
    kw kh i j hh hv hj hjx hi hiy
  dsimp only at gs
  unfold calculate_normalization
  simp only [and_self, not_true_eq_false, if_false, hr.1, hr.2, if_true]
  rw [ga, gs]
  unfold gwy_data_field_area_get_rms gwy_data_field_area_get_avg
  simp only [windowLoop_zero]
  congr 1
  have sq : windowSum kw kh (fun i2 j2 =>
        if 0 ≤ i2 + (j - Int.tdiv (kw - 1) 2) + f.xres * (j2 + (i - Int.tdiv (kh - 1) 2))
            ∧ i2 + (j - Int.tdiv (kw - 1) 2) + f.xres * (j2 + (i - Int.tdiv (kh - 1) 2))
              < f.xres * f.yres then
          f.data (i2 + (j - Int.tdiv (kw - 1) 2) + f.xres * (j2 + (i - Int.tdiv (kh - 1) 2)))
            * f.data (i2 + (j - Int.tdiv (kw - 1) 2) + f.xres * (j2 + (i - Int.tdiv (kh - 1) 2)))
        else
          f.data (i2 + (j - Int.tdiv (kw - 1) 2) + f.xres * (j2 + (i - Int.tdiv (kh - 1) 2))))
      = windowSum kw kh (fun i2 j2 =>
          f.data (i2 + (j - Int.tdiv (kw - 1) 2) + f.xres * (j2 + (i - Int.tdiv (kh - 1) 2)))
            * f.data (i2 + (j - Int.tdiv (kw - 1) 2)
                + f.xres * (j2 + (i - Int.tdiv (kh - 1) 2)))) := by
    apply windowSum_congr
    intro i2 j2 h1 h2 h3 h4
    have := idx_range f.xres f.yres (j2 + (i - Int.tdiv (kh - 1) 2))
      (i2 + (j - Int.tdiv (kw - 1) 2)) (by omega) (by omega) (by omega) (by omega)
    have e : i2 + (j - Int.tdiv (kw - 1) 2) + f.xres * (j2 + (i - Int.tdiv (kh - 1) 2))
        = (j2 + (i - Int.tdiv (kh - 1) 2)) * f.xres + (i2 + (j - Int.tdiv (kw - 1) 2)) := by
      ring
    rw [e]
    simp only [this.1, this.2, and_self, if_true]
  rw [sq]
  have msd := mean_sq_dev
    (Finset.range kh.toNat ×ˢ Finset.range kw.toNat)
    (fun p => f.data ((p.2 : Int) + (j - Int.tdiv (kw - 1) 2)
      + f.xres * ((p.1 : Int) + (i - Int.tdiv (kh - 1) 2))))
    ((kw * kh : Int) : R) (window_card kw kh (by omega) (by omega)) hN
  simp only [windowSum]
  rw [← msd]
  apply max_eq_left
  apply div_nonneg _ hN.le
  exact Finset.sum_nonneg (fun _ _ => mul_self_nonneg _)

/-- At a position where the kernel fits, the value the one-shot map stores is
the score of `gwy_data_field_get_correlation_score` for the kernel placed with
its top-left corner `(xoff, yoff)` up and left of the position. -/
theorem correlate_value_eq_score (sqrt : R → R) (data_field kernel_field : GwyDataField R)
    (i j : Int) (hkx : 1 ≤ kernel_field.xres) (hky : 1 ≤ kernel_field.yres)
    (hfit : kernel_fits data_field kernel_field i j) :
    correlate_value data_field kernel_field
        (calculate_normalization sqrt data_field data_field
          kernel_field.xres kernel_field.yres).1
        (calculate_normalization sqrt data_field data_field
          kernel_field.xres kernel_field.yres).2
        (gwy_data_field_get_avg kernel_field) (gwy_data_field_get_rms sqrt kernel_field)
        (Int.tdiv (kernel_field.xres - 1) 2) (Int.tdiv (kernel_field.yres - 1) 2) i j
      = gwy_data_field_get_correlation_score sqrt data_field kernel_field
          (j - Int.tdiv (kernel_field.xres - 1) 2) (i - Int.tdiv (kernel_field.yres - 1) 2)
          0 0 kernel_field.xres kernel_field.yres := by
  have hxo := tdiv_two (kernel_field.xres - 1) (by omega)
  have hyo := tdiv_two (kernel_field.yres - 1) (by omega)
  obtain ⟨f1, f2, f3, f4⟩ := hfit
  have g1 : ¬ ((0 : Int) > kernel_field.xres ∨ (0 : Int) > kernel_field.yres) := by omega
  have g2 : ¬ (j - Int.tdiv (kernel_field.xres - 1) 2 < 0
      ∨ i - Int.tdiv (kernel_field.yres - 1) 2 < 0
      ∨ j - Int.tdiv (kernel_field.xres - 1) 2 + kernel_field.xres > data_field.xres
      ∨ i - Int.tdiv (kernel_field.yres - 1) 2 + kernel_field.yres > data_field.yres) := by
    omega
  have g3 : ¬ ((0 : Int) < 0 ∨ (0 : Int) < 0 ∨ 0 + kernel_field.xres > kernel_field.xres
      ∨ 0 + kernel_field.yres > kernel_field.yres) := by omega
  unfold correlate_value
  rw [normalization_avg sqrt data_field _ _ i j hkx hky f3 f4 f1 f2,
    normalization_rms sqrt data_field _ _ i j hkx hky f3 f4 f1 f2]
  unfold gwy_data_field_get_correlation_score gwy_data_field_get_raw_correlation_score
    gwy_data_field_get_rms gwy_data_field_get_avg
  simp only [g1, g2, g3, if_false]
  by_cases hd : gwy_data_field_area_get_rms sqrt data_field
      (j - Int.tdiv (kernel_field.xres - 1) 2) (i - Int.tdiv (kernel_field.yres - 1) 2)
      kernel_field.xres kernel_field.yres = 0
  · simp [hd]
  · by_cases hk : gwy_data_field_area_get_rms sqrt kernel_field 0 0
        kernel_field.xres kernel_field.yres = 0
    · simp [hk]
    · simp only [hd, hk, or_self, if_false]
      rw [div_div]
      congr 1
      ring

/-- The one-shot map at a position where the kernel fits. -/
theorem correlate_NORMAL_at_fit (sqrt : R → R) (data_field kernel_field score : GwyDataField R)
    (hkx : 1 ≤ kernel_field.xres) (hky : 1 ≤ kernel_field.yres)
    (hx : kernel_field.xres ≤ data_field.xres) (hy : kernel_field.yres ≤ data_field.yres)
    (i j : Int) (hfit : kernel_fits data_field kernel_field i j) :
    (gwy_data_field_correlate_NORMAL sqrt data_field kernel_field score).data
        (i * data_field.xres + j)
      = gwy_data_field_get_correlation_score sqrt data_field kernel_field
          (j - Int.tdiv (kernel_field.xres - 1) 2) (i - Int.tdiv (kernel_field.yres - 1) 2)
          0 0 kernel_field.xres kernel_field.yres := by
  have w := correlate_NORMAL_written sqrt data_field kernel_field score hkx hky hx hy
  rw [w.2.2.1 i j hfit]
  exact correlate_value_eq_score sqrt data_field kernel_field i j hkx hky hfit

/-- The one-shot map away from the positions where the kernel fits. -/
theorem correlate_NORMAL_off_fit (sqrt : R → R) (data_field kernel_field score : GwyDataField R)
    (hkx : 1 ≤ kernel_field.xres) (hky : 1 ≤ kernel_field.yres)
    (hsx : score.xres = data_field.xres) (hsy : score.yres = data_field.yres)
    (i j : Int) (hi : 0 ≤ i) (hiy : i < data_field.yres) (hj : 0 ≤ j) (hjx : j < data_field.xres)
    (hfit : ¬ kernel_fits data_field kernel_field i j) :
    (gwy_data_field_correlate_NORMAL sqrt data_field kernel_field score).data
        (i * data_field.xres + j) = -1 := by
  have hr := idx_range data_field.xres data_field.yres i j hj hjx hi hiy
  have hfill : (gwy_data_field_fill score (-1)).data (i * data_field.xres + j) = -1 := by
    unfold gwy_data_field_fill
    simp only [hsx, hsy, hr.1, hr.2, and_self, if_true]
  by_cases hdim : kernel_field.xres ≤ data_field.xres ∧ kernel_field.yres ≤ data_field.yres
  · have w := correlate_NORMAL_written sqrt data_field kernel_field score hkx hky hdim.1 hdim.2
    rw [w.2.2.2 _ (fun i2 j2 h2 heq => ?_)]
    · exact hfill
    · have r2 := kernel_fits_range data_field kernel_field i2 j2 hkx hky h2
      obtain ⟨e1, e2⟩ := key_inj data_field.xres i j i2 j2 hj hjx r2.1 r2.2.1 heq
      rw [e1, e2] at hfit
      exact hfit h2
  · have g1 : ¬ (kernel_field.xres ≤ 0 ∨ kernel_field.yres ≤ 0) := by omega
    have g2 : kernel_field.xres > data_field.xres ∨ kernel_field.yres > data_field.yres := by
      omega
    unfold gwy_data_field_correlate_NORMAL
    simp only [g1, g2, if_false, if_true]
    exact hfill

/-! ## A kernel cut out of the data field -/

theorem area_get_avg_congr (f g : GwyDataField R) (col row gcol grow width height : Int)
    (h : ∀ i j, 0 ≤ i → i < width → 0 ≤ j → j < height →
      g.data ((i + gcol) + g.xres * (j + grow)) = f.data ((i + col) + f.xres * (j + row))) :
    gwy_data_field_area_get_avg g gcol grow width height
      = gwy_data_field_area_get_avg f col row width height := by
  unfold gwy_data_field_area_get_avg
  rw [windowLoop_zero, windowLoop_zero, windowSum_congr width height _ _ h]

theorem area_get_rms_congr (sqrt : R → R) (f g : GwyDataField R)
    (col row gcol grow width height : Int)
    (h : ∀ i j, 0 ≤ i → i < width → 0 ≤ j → j < height →
      g.data ((i + gcol) + g.xres * (j + grow)) = f.data ((i + col) + f.xres * (j + row))) :
    gwy_data_field_area_get_rms sqrt g gcol grow width height
      = gwy_data_field_area_get_rms sqrt f col row width height := by
  unfold gwy_data_field_area_get_rms
  simp only [windowLoop_zero]
  rw [area_get_avg_congr f g col row gcol grow width height h]
  congr 2
  apply windowSum_congr
  intro i j h1 h2 h3 h4
  rw [h i j h1 h2 h3 h4]

/-- The score of a data window against a kernel window that holds the same
samples is 1, unless the window has zero rms, when it is 0. -/
theorem score_of_copy (sqrt : R → R) (hs : IsSqrt sqrt)
    (data_field kernel_field : GwyDataField R)
    (col row kernel_col kernel_row kernel_width kernel_height : Int)
    (hw : 1 ≤ kernel_width) (hh : 1 ≤ kernel_height)
    (hcol : 0 ≤ col) (hcolw : col + kernel_width ≤ data_field.xres)
    (hrow : 0 ≤ row) (hrowh : row + kernel_height ≤ data_field.yres)
    (hkcol : 0 ≤ kernel_col) (hkcolw : kernel_col + kernel_width ≤ kernel_field.xres)
    (hkrow : 0 ≤ kernel_row) (hkrowh : kernel_row + kernel_height ≤ kernel_field.yres)
    (hcopy : ∀ i j, 0 ≤ i → i < kernel_width → 0 ≤ j → j < kernel_height →
      kernel_field.data ((i + kernel_col) + kernel_field.xres * (j + kernel_row))
        = data_field.data ((i + col) + data_field.xres * (j + row))) :
    gwy_data_field_get_correlation_score sqrt data_field kernel_field
        col row kernel_col kernel_row kernel_width kernel_height
      = if gwy_data_field_area_get_rms sqrt data_field col row kernel_width kernel_height = 0
        then 0 else 1 := by
  have g1 : ¬ (kernel_col > kernel_field.xres ∨ kernel_row > kernel_field.yres) := by omega
  have g2 : ¬ (col < 0 ∨ row < 0 ∨ col + kernel_width > data_field.xres
      ∨ row + kernel_height > data_field.yres) := by omega
  have g3 : ¬ (kernel_col < 0 ∨ kernel_row < 0 ∨ kernel_col + kernel_width > kernel_field.xres
      ∨ kernel_row + kernel_height > kernel_field.yres) := by omega
  have ea := area_get_avg_congr data_field kernel_field col row kernel_col kernel_row
    kernel_width kernel_height hcopy
  have er := area_get_rms_congr sqrt data_field kernel_field col row kernel_col kernel_row
    kernel_width kernel_height hcopy
  have r1 := area_get_rms_spec hs data_field col row kernel_width kernel_height hw hh
  have hN := cast_window_pos (R := R) kernel_width kernel_height hw hh
  unfold gwy_data_field_get_correlation_score
  simp only [g1, g2, g3, if_false, ea, er]
  by_cases hz : gwy_data_field_area_get_rms sqrt data_field col row kernel_width kernel_height = 0
  · simp only [hz, if_true]
  · simp only [hz, if_false]
    rw [windowLoop_zero]
    have e : windowSum kernel_width kernel_height (fun i j =>
          (data_field.data ((i + col) + data_field.xres * (j + row))
              - gwy_data_field_area_get_avg data_field col row kernel_width kernel_height)
            * (kernel_field.data ((i + kernel_col) + kernel_field.xres * (j + kernel_row))
              - gwy_data_field_area_get_avg data_field col row kernel_width kernel_height))
        = windowSum kernel_width kernel_height (fun i j =>
          (data_field.data ((i + col) + data_field.xres * (j + row))
              - gwy_data_field_area_get_avg data_field col row kernel_width kernel_height)
            * (data_field.data ((i + col) + data_field.xres * (j + row))
              - gwy_data_field_area_get_avg data_field col row kernel_width kernel_height)) := by
      apply windowSum_congr
      intro i j h1 h2 h3 h4
      rw [hcopy i j h1 h2 h3 h4]
    rw [e]
    have hsum : windowSum kernel_width kernel_height (fun i j =>
          (data_field.data ((i + col) + data_field.xres * (j + row))
              - gwy_data_field_area_get_avg data_field col row kernel_width kernel_height)
            * (data_field.data ((i + col) + data_field.xres * (j + row))
              - gwy_data_field_area_get_avg data_field col row kernel_width kernel_height))
        = gwy_data_field_area_get_rms sqrt data_field col row kernel_width kernel_height
          * gwy_data_field_area_get_rms sqrt data_field col row kernel_width kernel_height
          * ((kernel_width * kernel_height : Int) : R) := by
      rw [r1.2]
      field_simp
    rw [hsum]
    exact div_self (mul_ne_zero (mul_ne_zero hz hz) (ne_of_gt hN))

/-! ## Statements C4, C5, C6 -/

/-- Statement C4, as amended: when the kernel is a copy of the `w x h`
sub-window of the data field with top-left corner `(c, r)`, the score at the
matching offset, both `gwy_data_field_get_correlation_score(D, K, c, r, 0, 0,
w, h)` and the sample of the one-shot map at row `r + (h-1)/2`, column
`c + (w-1)/2`, is 1 when the area rms of the window is non-zero and 0 when it
is zero (exact arithmetic). -/
theorem C4_copy_scores_one_unless_constant (sqrt : R → R) (hs : IsSqrt sqrt)
    (data_field kernel_field score : GwyDataField R) (c r w h : Int)
    (hw : 1 ≤ w) (hh : 1 ≤ h)
    (hc : 0 ≤ c) (hcw : c + w ≤ data_field.xres) (hr : 0 ≤ r) (hrh : r + h ≤ data_field.yres)
    (hKx : kernel_field.xres = w) (hKy : kernel_field.yres = h)
    (hcopy : ∀ i j, 0 ≤ i → i < w → 0 ≤ j → j < h →
      kernel_field.data (i + w * j) = data_field.data ((i + c) + data_field.xres * (j + r)))
    (hsx : score.xres = data_field.xres) (hsy : score.yres = data_field.yres) :
    gwy_data_field_get_correlation_score sqrt data_field kernel_field c r 0 0 w h
        = (if gwy_data_field_area_get_rms sqrt data_field c r w h = 0 then 0 else 1)
      ∧ (gwy_data_field_correlate_NORMAL sqrt data_field kernel_field score).data
          ((r + Int.tdiv (h - 1) 2) * score.xres + (c + Int.tdiv (w - 1) 2))
        = (if gwy_data_field_area_get_rms sqrt data_field c r w h = 0 then 0 else 1) := by
  subst hKx hKy
  have hxo := tdiv_two (kernel_field.xres - 1) (by omega)
  have hyo := tdiv_two (kernel_field.yres - 1) (by omega)
  have sc := score_of_copy sqrt hs data_field kernel_field c r 0 0
    kernel_field.xres kernel_field.yres hw hh hc hcw hr hrh le_rfl (by omega) le_rfl (by omega)
    (fun i j h1 h2 h3 h4 => by simpa using hcopy i j h1 h2 h3 h4)
  refine ⟨sc, ?_⟩
  rw [hsx, correlate_NORMAL_at_fit sqrt data_field kernel_field score hw hh (by omega) (by omega)
    _ _ (by unfold kernel_fits; omega)]
  rw [add_sub_cancel_right, add_sub_cancel_right]
  exact sc

/-- A concrete instance of the amended C4: the kernel 1, 3 cut out of the
field 0, 1, 3 at column 1. -/
theorem C4_copy_scores_one_unless_constant_witness :
    gwy_data_field_get_correlation_score Real.sqrt
        (fieldOfList 3 1 [0, 1, 3]) (fieldOfList 2 1 [1, 3]) 1 0 0 0 2 1
        = (if gwy_data_field_area_get_rms Real.sqrt (fieldOfList 3 1 [0, 1, 3]) 1 0 2 1 = 0
            then 0 else (1 : ℝ))
      ∧ (gwy_data_field_correlate_NORMAL Real.sqrt
          (fieldOfList 3 1 [0, 1, 3]) (fieldOfList 2 1 [1, 3]) (fieldOfList 3 1 [])).data
          ((0 + Int.tdiv (1 - 1) 2) * (fieldOfList 3 1 ([] : List ℝ)).xres
            + (1 + Int.tdiv (2 - 1) 2))
        = (if gwy_data_field_area_get_rms Real.sqrt (fieldOfList 3 1 [0, 1, 3]) 1 0 2 1 = 0
            then 0 else (1 : ℝ)) :=
  C4_copy_scores_one_unless_constant Real.sqrt isSqrt_real
    (fieldOfList 3 1 [0, 1, 3]) (fieldOfList 2 1 [1, 3]) (fieldOfList 3 1 []) 1 0 2 1
    (by decide) (by decide) (by decide) (by decide) (by decide) (by decide) rfl rfl
    (fun i j h1 h2 h3 h4 => by
      have hj : j = 0 := by omega
      have hi : i = 0 ∨ i = 1 := by omega
      subst hj
      rcases hi with hi | hi <;> subst hi <;> simp [fieldOfList])
    rfl rfl

/-- The claim C4 fails on a constant window: the kernel 3, 3 is a copy of the
whole field 3, 3, and the score at the matching offset is 0, not 1, both from
the scorer and in the one-shot map. -/
theorem C4_counterexample :
    (∀ i j : Int, 0 ≤ i → i < 2 → 0 ≤ j → j < 1 →
        (fieldOfList 2 1 [(3 : ℝ), 3]).data (i + 2 * j)
          = (fieldOfList 2 1 [(3 : ℝ), 3]).data ((i + 0) + 2 * (j + 0)))
      ∧ gwy_data_field_get_correlation_score Real.sqrt
          (fieldOfList 2 1 [3, 3]) (fieldOfList 2 1 [3, 3]) 0 0 0 0 2 1 = 0
      ∧ gwy_data_field_get_correlation_score Real.sqrt
          (fieldOfList 2 1 [3, 3]) (fieldOfList 2 1 [3, 3]) 0 0 0 0 2 1 ≠ 1
      ∧ (gwy_data_field_correlate_NORMAL Real.sqrt
          (fieldOfList 2 1 [3, 3]) (fieldOfList 2 1 [3, 3]) (fieldOfList 2 1 [])).data 0 = 0 := by
  have hz : gwy_data_field_area_get_rms Real.sqrt (fieldOfList 2 1 [3, 3]) 0 0 2 1 = 0 := by
    simp [gwy_data_field_area_get_rms, gwy_data_field_area_get_avg, windowLoop,
      forRange_step, forRange_done, fieldOfList]
  have sc : gwy_data_field_get_correlation_score Real.sqrt
      (fieldOfList 2 1 [3, 3]) (fieldOfList 2 1 [3, 3]) 0 0 0 0 2 1 = 0 := by
    rw [score_of_copy Real.sqrt isSqrt_real (fieldOfList 2 1 [3, 3]) (fieldOfList 2 1 [3, 3])
      0 0 0 0 2 1 (by decide) (by decide) (by decide) (by decide) (by decide) (by decide)
      (by decide) (by decide) (by decide) (by decide) (fun _ _ _ _ _ _ => rfl), if_pos hz]
  refine ⟨fun i j _ _ _ _ => by simp, sc, by rw [sc]; norm_num, ?_⟩
  have h := correlate_NORMAL_at_fit Real.sqrt (fieldOfList 2 1 [3, 3]) (fieldOfList 2 1 [3, 3])
    (fieldOfList 2 1 []) (by decide) (by decide) (by decide) (by decide) 0 0
    (by unfold kernel_fits; decide)
  exact h.trans sc

/-- Statement C5: after the one-shot `gwy_data_field_correlate` with the NORMAL
method (kernel of positive size that fits into the data field), the score
sample at every position (row `i`, column `j`) where the kernel fits equals
`gwy_data_field_get_correlation_score(data, kernel, j - (kxres-1)/2,
i - (kyres-1)/2, 0, 0, kxres, kyres)`; in particular the sample at row
`(kyres-1)/2`, column `(kxres-1)/2` is the score of the kernel placed on the
top-left corner of the data field. -/
theorem C5_correlate_matches_score (sqrt : R → R)
    (data_field kernel_field score : GwyDataField R)
    (hkx : 1 ≤ kernel_field.xres) (hky : 1 ≤ kernel_field.yres)
    (hx : kernel_field.xres ≤ data_field.xres) (hy : kernel_field.yres ≤ data_field.yres)
    (hsx : score.xres = data_field.xres) (hsy : score.yres = data_field.yres) :
    (∀ i j : Int,
        Int.tdiv (kernel_field.yres - 1) 2 ≤ i →
        i ≤ data_field.yres - kernel_field.yres + Int.tdiv (kernel_field.yres - 1) 2 →
        Int.tdiv (kernel_field.xres - 1) 2 ≤ j →
        j ≤ data_field.xres - kernel_field.xres + Int.tdiv (kernel_field.xres - 1) 2 →
        (gwy_data_field_correlate_NORMAL sqrt data_field kernel_field score).data
            (i * score.xres + j)
          = gwy_data_field_get_correlation_score sqrt data_field kernel_field
              (j - Int.tdiv (kernel_field.xres - 1) 2) (i - Int.tdiv (kernel_field.yres - 1) 2)
              0 0 kernel_field.xres kernel_field.yres)
      ∧ (gwy_data_field_correlate_NORMAL sqrt data_field kernel_field score).data
            (Int.tdiv (kernel_field.yres - 1) 2 * score.xres
              + Int.tdiv (kernel_field.xres - 1) 2)
          = gwy_data_field_get_correlation_score sqrt data_field kernel_field
              0 0 0 0 kernel_field.xres kernel_field.yres := by
  have main : ∀ i j : Int,
      Int.tdiv (kernel_field.yres - 1) 2 ≤ i →
      i ≤ data_field.yres - kernel_field.yres + Int.tdiv (kernel_field.yres - 1) 2 →
      Int.tdiv (kernel_field.xres - 1) 2 ≤ j →
      j ≤ data_field.xres - kernel_field.xres + Int.tdiv (kernel_field.xres - 1) 2 →
      (gwy_data_field_correlate_NORMAL sqrt data_field kernel_field score).data
          (i * score.xres + j)
        = gwy_data_field_get_correlation_score sqrt data_field kernel_field
            (j - Int.tdiv (kernel_field.xres - 1) 2) (i - Int.tdiv (kernel_field.yres - 1) 2)
            0 0 kernel_field.xres kernel_field.yres := by
    intro i j h1 h2 h3 h4
    rw [hsx]
    exact correlate_NORMAL_at_fit sqrt data_field kernel_field score hkx hky hx hy i j
      (by unfold kernel_fits; omega)
  refine ⟨main, ?_⟩
  have h := main (Int.tdiv (kernel_field.yres - 1) 2) (Int.tdiv (kernel_field.xres - 1) 2)
    le_rfl (by omega) le_rfl (by omega)
  rw [sub_self, sub_self] at h
  exact h

/-- A concrete instance of C5: the field 0, 2, 1 against the kernel 1, 5; the
sample at row 0, column 0 is the score of the kernel on the top-left corner. -/
theorem C5_correlate_matches_score_witness :
    (gwy_data_field_correlate_NORMAL Real.sqrt
        (fieldOfList 3 1 [0, 2, 1]) (fieldOfList 2 1 [1, 5]) (fieldOfList 3 1 [])).data
        (Int.tdiv ((fieldOfList 2 1 [(1 : ℝ), 5]).yres - 1) 2 * (fieldOfList 3 1 ([] : List ℝ)).xres
          + Int.tdiv ((fieldOfList 2 1 [(1 : ℝ), 5]).xres - 1) 2)
      = gwy_data_field_get_correlation_score Real.sqrt
          (fieldOfList 3 1 [0, 2, 1]) (fieldOfList 2 1 [1, 5]) 0 0 0 0
          (fieldOfList 2 1 [(1 : ℝ), 5]).xres (fieldOfList 2 1 [(1 : ℝ), 5]).yres :=
  (C5_correlate_matches_score Real.sqrt (fieldOfList 3 1 [0, 2, 1]) (fieldOfList 2 1 [1, 5])
    (fieldOfList 3 1 []) (by decide) (by decide) (by decide) (by decide) rfl rfl).2

/-- Statement C6: after the one-shot `gwy_data_field_correlate` with the NORMAL
method (kernel of positive size), every score sample at a position where the
kernel does not fit completely inside the data field equals -1; in particular
the whole score field is -1 when the kernel is wider or taller than the data
field. -/
theorem C6_correlate_outside_is_minus_one (sqrt : R → R)
    (data_field kernel_field score : GwyDataField R)
    (hkx : 1 ≤ kernel_field.xres) (hky : 1 ≤ kernel_field.yres)
    (hsx : score.xres = data_field.xres) (hsy : score.yres = data_field.yres) :
    (∀ i j : Int, 0 ≤ i → i < score.yres → 0 ≤ j → j < score.xres →
        (i < Int.tdiv (kernel_field.yres - 1) 2
          ∨ i + kernel_field.yres - Int.tdiv (kernel_field.yres - 1) 2 > data_field.yres
          ∨ j < Int.tdiv (kernel_field.xres - 1) 2
          ∨ j + kernel_field.xres - Int.tdiv (kernel_field.xres - 1) 2 > data_field.xres) →
        (gwy_data_field_correlate_NORMAL sqrt data_field kernel_field score).data
          (i * score.xres + j) = -1)
      ∧ ((kernel_field.xres > data_field.xres ∨ kernel_field.yres > data_field.yres) →
          ∀ i j : Int, 0 ≤ i → i < score.yres → 0 ≤ j → j < score.xres →
            (gwy_data_field_correlate_NORMAL sqrt data_field kernel_field score).data
              (i * score.xres + j) = -1) := by
  have hxo := tdiv_two (kernel_field.xres - 1) (by omega)
  have hyo := tdiv_two (kernel_field.yres - 1) (by omega)
  constructor
  · intro i j h1 h2 h3 h4 hbad
    rw [hsx]
    exact correlate_NORMAL_off_fit sqrt data_field kernel_field score hkx hky hsx hsy i j
      h1 (by omega) h3 (by omega) (by unfold kernel_fits; omega)
  · intro hbig i j h1 h2 h3 h4
    rw [hsx]
    exact correlate_NORMAL_off_fit sqrt data_field kernel_field score hkx hky hsx hsy i j
      h1 (by omega) h3 (by omega) (by unfold kernel_fits; omega)

/-- A concrete instance of C6: a 2 x 1 kernel on a 3 x 1 field does not fit at
column 2, and the sample there is -1. -/
theorem C6_correlate_outside_is_minus_one_witness :
    (gwy_data_field_correlate_NORMAL Real.sqrt
        (fieldOfList 3 1 [0, 2, 1]) (fieldOfList 2 1 [1, 5]) (fieldOfList 3 1 [])).data
        (0 * (fieldOfList 3 1 ([] : List ℝ)).xres + 2) = -1 :=
  (C6_correlate_outside_is_minus_one Real.sqrt (fieldOfList 3 1 [0, 2, 1])
    (fieldOfList 2 1 [1, 5]) (fieldOfList 3 1 []) (by decide) (by decide) rfl rfl).1 0 2
    (by decide) (by decide) (by decide) (by decide)
    (Or.inr (Or.inr (Or.inr (by decide))))

/-! ## The spatial iterator -/

theorem correlate_iteration_init (sqrt : R → R) (s : GwyCorrelationState R)
    (h : s.cs.state = GWY_COMPUTATION_STATE_INIT) :
    gwy_data_field_correlate_iteration sqrt s
      = { s with
          score := gwy_data_field_fill s.score (-1)
          kavg := gwy_data_field_get_avg s.kernel_field
          krms := gwy_data_field_get_rms sqrt s.kernel_field
          avg := (calculate_normalization sqrt s.data_field s.data_field
            s.kernel_field.xres s.kernel_field.yres).1
          rms := (calculate_normalization sqrt s.data_field s.data_field
            s.kernel_field.xres s.kernel_field.yres).2
          cs := { state := GWY_COMPUTATION_STATE_ITERATE, fraction := 0 }
          i := Int.tdiv (s.kernel_field.yres - 1) 2
          j := Int.tdiv (s.kernel_field.xres - 1) 2 } := by
  unfold gwy_data_field_correlate_iteration
  simp only [h]

theorem correlate_iteration_finished (sqrt : R → R) (s : GwyCorrelationState R)
    (h : s.cs.state = GWY_COMPUTATION_STATE_FINISHED) :
    gwy_data_field_correlate_iteration sqrt s = s := by
  unfold gwy_data_field_correlate_iteration
  simp only [h]

theorem correlate_iteration_iterate (sqrt : R → R) (s : GwyCorrelationState R)
    (h : s.cs.state = GWY_COMPUTATION_STATE_ITERATE) :
    gwy_data_field_correlate_iteration sqrt s
      = { s with
          score := s.score.store (s.i * s.data_field.xres + s.j)
            (correlate_value s.data_field s.kernel_field s.avg s.rms s.kavg s.krms
              (Int.tdiv (s.kernel_field.xres - 1) 2) (Int.tdiv (s.kernel_field.yres - 1) 2)
              s.i s.j)
          i := if s.j + 1 + s.kernel_field.xres - Int.tdiv (s.kernel_field.xres - 1) 2
                > s.data_field.xres then s.i + 1 else s.i
          j := if s.j + 1 + s.kernel_field.xres - Int.tdiv (s.kernel_field.xres - 1) 2
                > s.data_field.xres then Int.tdiv (s.kernel_field.xres - 1) 2 else s.j + 1
          cs :=
            { state :=
                if s.j + 1 + s.kernel_field.xres - Int.tdiv (s.kernel_field.xres - 1) 2
                    > s.data_field.xres
                  ∧ s.i + 1 + s.kernel_field.yres - Int.tdiv (s.kernel_field.yres - 1) 2
                    > s.data_field.yres
                then GWY_COMPUTATION_STATE_FINISHED else GWY_COMPUTATION_STATE_ITERATE
              fraction := min (s.cs.fraction
                + 1 / (((s.data_field.xres - s.kernel_field.xres + 1)
                    * (s.data_field.yres - s.kernel_field.yres + 1) : Int) : R)) 1 } } := by
  unfold gwy_data_field_correlate_iteration
  simp only [h]
  have hscore : (if s.rms.data (s.i * s.data_field.xres + s.j) ≠ 0 ∧ s.krms ≠ 0 then
        s.score.store (s.i * s.data_field.xres + s.j)
          (gwy_data_field_get_raw_correlation_score s.data_field s.kernel_field
              (s.j - Int.tdiv (s.kernel_field.xres - 1) 2)
              (s.i - Int.tdiv (s.kernel_field.yres - 1) 2) 0 0
              s.kernel_field.xres s.kernel_field.yres
              (s.avg.data (s.i * s.data_field.xres + s.j)) s.kavg
            / (s.rms.data (s.i * s.data_field.xres + s.j) * s.krms))
      else s.score.store (s.i * s.data_field.xres + s.j) 0)
      = s.score.store (s.i * s.data_field.xres + s.j)
          (correlate_value s.data_field s.kernel_field s.avg s.rms s.kavg s.krms
            (Int.tdiv (s.kernel_field.xres - 1) 2) (Int.tdiv (s.kernel_field.yres - 1) 2)
            s.i s.j) := by
    unfold correlate_value
    by_cases h1 : s.rms.data (s.i * s.data_field.xres + s.j) = 0
    · simp [h1]
    · by_cases h2 : s.krms = 0
      · simp [h2]
      · simp [h1, h2]
  rw [hscore]
  by_cases hwrap : s.j + 1 + s.kernel_field.xres - Int.tdiv (s.kernel_field.xres - 1) 2
      > s.data_field.xres
  · simp [hwrap]
  · simp [hwrap]

/-- The initialising call establishes the progress invariant at `n = 0`. -/
theorem correlate_progress_init (sqrt : R → R) (s : GwyCorrelationState R)
    (hkx : 1 ≤ s.kernel_field.xres) (hky : 1 ≤ s.kernel_field.yres)
    (hx : s.kernel_field.xres ≤ s.data_field.xres)
    (hy : s.kernel_field.yres ≤ s.data_field.yres)
    (h : s.cs.state = GWY_COMPUTATION_STATE_INIT) :
    correlate_progress sqrt s.data_field s.kernel_field s.score 0
      (gwy_data_field_correlate_iteration sqrt s) := by
  have hxo := tdiv_two (s.kernel_field.xres - 1) (by omega)
  have hyo := tdiv_two (s.kernel_field.yres - 1) (by omega)
  rw [correlate_iteration_init sqrt s h]
  unfold correlate_progress
  refine ⟨rfl, rfl, rfl, rfl, rfl, rfl, le_rfl, le_rfl, by simp only []; omega, by simp, ?_,
    by simp, ?_⟩
  · have hpos : (0 : Int) < (s.data_field.xres - s.kernel_field.xres + 1)
        * (s.data_field.yres - s.kernel_field.yres + 1) :=
      mul_pos (by omega) (by omega)
    simp only [Nat.cast_zero, hpos, if_true]
  · exact Written_refl _ _ _ _ (fun i j hf => by
      have := hf.1
      unfold kernel_fits at this
      simp only [] at hf
      omega)

/-- One call in state `Iterate` advances the progress invariant from `n` to
`n + 1`. -/
theorem correlate_progress_step (sqrt : R → R) (data_field kernel_field score0 : GwyDataField R)
    (n : Nat) (s : GwyCorrelationState R)
    (hkx : 1 ≤ kernel_field.xres) (hky : 1 ≤ kernel_field.yres)
    (hx : kernel_field.xres ≤ data_field.xres) (hy : kernel_field.yres ≤ data_field.yres)
    (hInv : correlate_progress sqrt data_field kernel_field score0 n s)
    (hn : (n : Int) < (data_field.xres - kernel_field.xres + 1)
      * (data_field.yres - kernel_field.yres + 1)) :
    correlate_progress sqrt data_field kernel_field score0 (n + 1)
      (gwy_data_field_correlate_iteration sqrt s) := by
  obtain ⟨hD, hK, havg, hrms, hkavg, hkrms, hi, hj, hjW, hcount, hstate, hfrac, hW⟩ := hInv
  subst hD hK
  have hxo := tdiv_two (s.kernel_field.xres - 1) (by omega)
  have hyo := tdiv_two (s.kernel_field.yres - 1) (by omega)
  have hst : s.cs.state = GWY_COMPUTATION_STATE_ITERATE := by rw [hstate, if_pos hn]
  have hWpos : (0 : Int) < s.data_field.xres - s.kernel_field.xres + 1 := by omega
  have hrow : s.i - Int.tdiv (s.kernel_field.yres - 1) 2
      ≤ s.data_field.yres - s.kernel_field.yres := by
    by_contra hc
    have hc2 : s.data_field.yres - s.kernel_field.yres + 1
        ≤ s.i - Int.tdiv (s.kernel_field.yres - 1) 2 := by omega
    have := mul_le_mul_of_nonneg_right hc2 hWpos.le
    nlinarith
  have hfit : kernel_fits s.data_field s.kernel_field s.i s.j := by
    unfold kernel_fits
    omega
  have hrange := kernel_fits_range s.data_field s.kernel_field s.i s.j hkx hky hfit
  have st := Written_store hW
    (fun i2 j2 h =>
      ⟨(kernel_fits_range s.data_field s.kernel_field i2 j2 hkx hky h.1).1,
        (kernel_fits_range s.data_field s.kernel_field i2 j2 hkx hky h.1).2.1⟩)
    s.i s.j hrange.1 hrange.2.1
  have hTpos : (0 : R) < (((s.data_field.xres - s.kernel_field.xres + 1)
      * (s.data_field.yres - s.kernel_field.yres + 1) : Int) : R) := by
    have : (0 : Int) < (s.data_field.xres - s.kernel_field.xres + 1)
        * (s.data_field.yres - s.kernel_field.yres + 1) := mul_pos hWpos (by omega)
    exact_mod_cast this
  have hfr : min (s.cs.fraction
        + 1 / (((s.data_field.xres - s.kernel_field.xres + 1)
            * (s.data_field.yres - s.kernel_field.yres + 1) : Int) : R)) 1
      = ((n + 1 : ℕ) : R) / (((s.data_field.xres - s.kernel_field.xres + 1)
            * (s.data_field.yres - s.kernel_field.yres + 1) : Int) : R) := by
    rw [hfrac, ← add_div]
    have hle : ((n : R) + 1) ≤ (((s.data_field.xres - s.kernel_field.xres + 1)
            * (s.data_field.yres - s.kernel_field.yres + 1) : Int) : R) := by
      have : (n : Int) + 1 ≤ (s.data_field.xres - s.kernel_field.xres + 1)
            * (s.data_field.yres - s.kernel_field.yres + 1) := by omega
      exact_mod_cast this
    rw [min_eq_left ((div_le_one hTpos).mpr hle)]
    push_cast
    rfl
  rw [correlate_iteration_iterate sqrt s hst, havg, hrms, hkavg, hkrms]
  unfold correlate_progress
  by_cases hwrap : s.j + 1 + s.kernel_field.xres - Int.tdiv (s.kernel_field.xres - 1) 2
      > s.data_field.xres
  · have hjlast : s.j = Int.tdiv (s.kernel_field.xres - 1) 2
        + (s.data_field.xres - s.kernel_field.xres) := by omega
    have hcount2 : ((n + 1 : ℕ) : Int) = (s.i + 1 - Int.tdiv (s.kernel_field.yres - 1) 2)
          * (s.data_field.xres - s.kernel_field.xres + 1) := by
      push_cast
      rw [hcount, hjlast]
      ring
    simp only [hwrap, if_true, true_and]
    refine ⟨by omega, le_rfl, by omega, ?_, ?_, hfr, ?_⟩
    · rw [hcount2]; ring
    · rw [hcount2]
      by_cases hlast : s.i + 1 + s.kernel_field.yres - Int.tdiv (s.kernel_field.yres - 1) 2
          > s.data_field.yres
      · have hge : s.data_field.yres - s.kernel_field.yres + 1
            ≤ s.i + 1 - Int.tdiv (s.kernel_field.yres - 1) 2 := by omega
        have := mul_le_mul_of_nonneg_right hge hWpos.le
        have hnot : ¬ ((s.i + 1 - Int.tdiv (s.kernel_field.yres - 1) 2)
            * (s.data_field.xres - s.kernel_field.xres + 1)
            < (s.data_field.xres - s.kernel_field.xres + 1)
              * (s.data_field.yres - s.kernel_field.yres + 1)) := by
          nlinarith
        simp only [hlast, hnot, if_true, if_false]
      · have hle : s.i + 1 - Int.tdiv (s.kernel_field.yres - 1) 2
            ≤ s.data_field.yres - s.kernel_field.yres := by omega
        have := mul_le_mul_of_nonneg_right hle hWpos.le
        have hyes : (s.i + 1 - Int.tdiv (s.kernel_field.yres - 1) 2)
            * (s.data_field.xres - s.kernel_field.xres + 1)
            < (s.data_field.xres - s.kernel_field.xres + 1)
              * (s.data_field.yres - s.kernel_field.yres + 1) := by
          nlinarith
        simp only [hlast, hyes, if_true, if_false]
    · refine Written_congr st (fun i2 j2 => ?_)
      unfold kernel_fits
      constructor
      · rintro ⟨hf, h | ⟨h1, h2⟩⟩
        · by_cases e1 : i2 = s.i
          · by_cases e2 : j2 = s.j
            · exact Or.inr ⟨e1, e2⟩
            · exact Or.inl ⟨hf, Or.inr ⟨e1, by omega⟩⟩
          · exact Or.inl ⟨hf, Or.inl (by omega)⟩
        · omega
      · rintro (⟨hf, h⟩ | ⟨h1, h2⟩)
        · exact ⟨hf, Or.inl (by omega)⟩
        · subst h1 h2
          exact ⟨hfit, Or.inl (by omega)⟩
  · have hcount2 : ((n + 1 : ℕ) : Int) = (s.i - Int.tdiv (s.kernel_field.yres - 1) 2)
          * (s.data_field.xres - s.kernel_field.xres + 1)
          + (s.j + 1 - Int.tdiv (s.kernel_field.xres - 1) 2) := by
      push_cast
      rw [hcount]
      ring
    simp only [hwrap, if_false, false_and, true_and]
    refine ⟨hi, by omega, by omega, hcount2, ?_, hfr, ?_⟩
    · have := mul_le_mul_of_nonneg_right hrow hWpos.le
      have hyes : ((n + 1 : ℕ) : Int)
          < (s.data_field.xres - s.kernel_field.xres + 1)
            * (s.data_field.yres - s.kernel_field.yres + 1) := by
        rw [hcount2]
        nlinarith
      simp only [hyes, if_true]
    · refine Written_congr st (fun i2 j2 => ?_)
      constructor
      · rintro ⟨hf, h | ⟨h1, h2⟩⟩
        · exact Or.inl ⟨hf, Or.inl h⟩
        · by_cases e2 : j2 = s.j
          · exact Or.inr ⟨h1, e2⟩
          · exact Or.inl ⟨hf, Or.inr ⟨h1, by omega⟩⟩
      · rintro (⟨hf, h⟩ | ⟨h1, h2⟩)
        · refine ⟨hf, ?_⟩
          rcases h with h | ⟨h1, h2⟩
          · exact Or.inl h
          · exact Or.inr ⟨h1, by omega⟩
        · subst h1 h2
          exact ⟨hfit, Or.inr ⟨rfl, by omega⟩⟩

/-- After the initialising call and `n` further calls, `n` at most the number
of positions, the progress invariant holds at `n`. -/
theorem correlate_progress_iterate (sqrt : R → R) (s : GwyCorrelationState R)
    (hkx : 1 ≤ s.kernel_field.xres) (hky : 1 ≤ s.kernel_field.yres)
    (hx : s.kernel_field.xres ≤ s.data_field.xres)
    (hy : s.kernel_field.yres ≤ s.data_field.yres)
    (h : s.cs.state = GWY_COMPUTATION_STATE_INIT) (n : ℕ)
    (hn : (n : Int) ≤ (s.data_field.xres - s.kernel_field.xres + 1)
      * (s.data_field.yres - s.kernel_field.yres + 1)) :
    correlate_progress sqrt s.data_field s.kernel_field s.score n
      ((gwy_data_field_correlate_iteration sqrt)^[n + 1] s) := by
  induction n with
  | zero => exact correlate_progress_init sqrt s hkx hky hx hy h
  | succ n ih =>
    rw [Function.iterate_succ_apply']
    have hn2 : (n : Int) < (s.data_field.xres - s.kernel_field.xres + 1)
        * (s.data_field.yres - s.kernel_field.yres + 1) := by
      push_cast at hn
      omega
    exact correlate_progress_step sqrt s.data_field s.kernel_field s.score n _ hkx hky hx hy
      (ih hn2.le) hn2

theorem Written_unique {xres : Int} {value : Int → Int → R} {S : Int → Int → Prop}
    {s0 a b : GwyDataField R} (ha : Written xres value S s0 a) (hb : Written xres value S s0 b) :
    a.xres = b.xres ∧ a.yres = b.yres ∧ ∀ k, a.data k = b.data k := by
  refine ⟨ha.1.trans hb.1.symm, ha.2.1.trans hb.2.1.symm, fun k => ?_⟩
  by_cases hk : ∃ i j, S i j ∧ k = i * xres + j
  · obtain ⟨i, j, hS, rfl⟩ := hk
    rw [ha.2.2.1 i j hS, hb.2.2.1 i j hS]
  · have hk2 : ∀ i j, S i j → k ≠ i * xres + j := fun i j hS e => hk ⟨i, j, hS, e⟩
    rw [ha.2.2.2 k hk2, hb.2.2.2 k hk2]

/-- The caller's loop returns the iterator after `N + 1` calls when that is
the first call after which the state is `Finished`. -/
theorem correlate_run_eq (sqrt : R → R) (N : ℕ) :
    ∀ (fuel : ℕ) (s : GwyCorrelationState R), N + 1 ≤ fuel →
      (∀ m, m < N → ((gwy_data_field_correlate_iteration sqrt)^[m + 1] s).cs.state
        ≠ GWY_COMPUTATION_STATE_FINISHED) →
      ((gwy_data_field_correlate_iteration sqrt)^[N + 1] s).cs.state
        = GWY_COMPUTATION_STATE_FINISHED →
      correlate_run sqrt fuel s = (gwy_data_field_correlate_iteration sqrt)^[N + 1] s := by
  induction N with
  | zero =>
    intro fuel s hf _ hfin
    obtain ⟨f, rfl⟩ : ∃ f, fuel = f + 1 := ⟨fuel - 1, by omega⟩
    simp only [zero_add, Function.iterate_one] at hfin ⊢
    unfold correlate_run
    simp only [hfin, if_true]
  | succ N ih =>
    intro fuel s hf hnot hfin
    obtain ⟨f, rfl⟩ : ∃ f, fuel = f + 1 := ⟨fuel - 1, by omega⟩
    have h0 := hnot 0 (by omega)
    simp only [zero_add, Function.iterate_one] at h0
    unfold correlate_run
    simp only [h0, if_false]
    rw [Function.iterate_succ_apply]
    apply ih f _ (by omega)
    · intro m hm
      have := hnot (m + 1) (by omega)
      rwa [Function.iterate_succ_apply] at this
    · rwa [Function.iterate_succ_apply] at hfin

/-- The iterator after the initialising call and one call per position: the
state is `Finished` and the score field is the one-shot map. -/
theorem correlate_iterate_total (sqrt : R → R) (s : GwyCorrelationState R)
    (hkx : 1 ≤ s.kernel_field.xres) (hky : 1 ≤ s.kernel_field.yres)
    (hx : s.kernel_field.xres ≤ s.data_field.xres)
    (hy : s.kernel_field.yres ≤ s.data_field.yres)
    (h : s.cs.state = GWY_COMPUTATION_STATE_INIT) :
    ((gwy_data_field_correlate_iteration sqrt)^[
        ((s.data_field.xres - s.kernel_field.xres + 1)
          * (s.data_field.yres - s.kernel_field.yres + 1)).toNat + 1] s).cs.state
        = GWY_COMPUTATION_STATE_FINISHED
      ∧ Written s.data_field.xres
        (correlate_value s.data_field s.kernel_field
          (calculate_normalization sqrt s.data_field s.data_field
            s.kernel_field.xres s.kernel_field.yres).1
          (calculate_normalization sqrt s.data_field s.data_field
            s.kernel_field.xres s.kernel_field.yres).2
          (gwy_data_field_get_avg s.kernel_field) (gwy_data_field_get_rms sqrt s.kernel_field)
          (Int.tdiv (s.kernel_field.xres - 1) 2) (Int.tdiv (s.kernel_field.yres - 1) 2))
        (kernel_fits s.data_field s.kernel_field)
        (gwy_data_field_fill s.score (-1))
        ((gwy_data_field_correlate_iteration sqrt)^[
          ((s.data_field.xres - s.kernel_field.xres + 1)
            * (s.data_field.yres - s.kernel_field.yres + 1)).toNat + 1] s).score := by
  have hWpos : (0 : Int) < s.data_field.xres - s.kernel_field.xres + 1 := by omega
  have hTpos : (0 : Int) < (s.data_field.xres - s.kernel_field.xres + 1)
      * (s.data_field.yres - s.kernel_field.yres + 1) := mul_pos hWpos (by omega)
  have hT : ((((s.data_field.xres - s.kernel_field.xres + 1)
      * (s.data_field.yres - s.kernel_field.yres + 1)).toNat : ℕ) : Int)
      = (s.data_field.xres - s.kernel_field.xres + 1)
        * (s.data_field.yres - s.kernel_field.yres + 1) := Int.toNat_of_nonneg hTpos.le
  have p := correlate_progress_iterate sqrt s hkx hky hx hy h
    ((s.data_field.xres - s.kernel_field.xres + 1)
      * (s.data_field.yres - s.kernel_field.yres + 1)).toNat (by rw [hT])
  obtain ⟨-, -, -, -, -, -, hi, hj, hjW, hcount, hstate, -, hW⟩ := p
  rw [hT] at hcount hstate
  refine ⟨by rw [hstate, if_neg (lt_irrefl _)], ?_⟩
  have hyo := tdiv_two (s.kernel_field.yres - 1) (by omega)
  have hrow : ((gwy_data_field_correlate_iteration sqrt)^[
        ((s.data_field.xres - s.kernel_field.xres + 1)
          * (s.data_field.yres - s.kernel_field.yres + 1)).toNat + 1] s).i
        - Int.tdiv (s.kernel_field.yres - 1) 2
      = s.data_field.yres - s.kernel_field.yres + 1 := by
    rcases lt_trichotomy
      (((gwy_data_field_correlate_iteration sqrt)^[
        ((s.data_field.xres - s.kernel_field.xres + 1)
          * (s.data_field.yres - s.kernel_field.yres + 1)).toNat + 1] s).i
        - Int.tdiv (s.kernel_field.yres - 1) 2)
      (s.data_field.yres - s.kernel_field.yres + 1) with hlt | heq | hgt
    · exfalso
      have hle : ((gwy_data_field_correlate_iteration sqrt)^[
            ((s.data_field.xres - s.kernel_field.xres + 1)
              * (s.data_field.yres - s.kernel_field.yres + 1)).toNat + 1] s).i
            - Int.tdiv (s.kernel_field.yres - 1) 2
          ≤ s.data_field.yres - s.kernel_field.yres := by omega
      have := mul_le_mul_of_nonneg_right hle hWpos.le
      nlinarith
    · exact heq
    · exfalso
      have hge : s.data_field.yres - s.kernel_field.yres + 1 + 1
          ≤ ((gwy_data_field_correlate_iteration sqrt)^[
            ((s.data_field.xres - s.kernel_field.xres + 1)
              * (s.data_field.yres - s.kernel_field.yres + 1)).toNat + 1] s).i
            - Int.tdiv (s.kernel_field.yres - 1) 2 := by omega
      have := mul_le_mul_of_nonneg_right hge hWpos.le
      nlinarith
  refine Written_congr hW (fun i2 j2 => ?_)
  constructor
  · intro hf
    refine ⟨hf, Or.inl ?_⟩
    unfold kernel_fits at hf
    omega
  · rintro ⟨hf, _⟩
    exact hf

theorem correlate_init_some (data_field kernel_field score : GwyDataField R)
    (hx : kernel_field.xres ≤ data_field.xres) (hy : kernel_field.yres ≤ data_field.yres) :
    ∃ s0, gwy_data_field_correlate_init data_field kernel_field score = some s0
      ∧ s0.data_field = data_field ∧ s0.kernel_field = kernel_field ∧ s0.score = score
      ∧ s0.cs.state = GWY_COMPUTATION_STATE_INIT := by
  unfold gwy_data_field_correlate_init
  simp only [hx, hy, and_self, not_true_eq_false, if_false]
  exact ⟨_, rfl, rfl, rfl, rfl, rfl⟩

/-! ## Statements C7, C8, C9 -/

/-- Statement C7: for a kernel of positive size that fits into the data field,
driving the spatial iterator (init, then iteration until the state is
`Finished`) ends in state `Finished` and leaves in the score field exactly the
value of the one-shot NORMAL map at every sample. -/
theorem C7_iterator_matches_one_shot (sqrt : R → R)
    (data_field kernel_field score : GwyDataField R)
    (hkx : 1 ≤ kernel_field.xres) (hky : 1 ≤ kernel_field.yres)
    (hx : kernel_field.xres ≤ data_field.xres) (hy : kernel_field.yres ≤ data_field.yres)
    (fuel : ℕ)
    (hfuel : ((data_field.xres - kernel_field.xres + 1)
      * (data_field.yres - kernel_field.yres + 1)).toNat + 1 ≤ fuel) :
    ∃ s0, gwy_data_field_correlate_init data_field kernel_field score = some s0
      ∧ (correlate_run sqrt fuel s0).cs.state = GWY_COMPUTATION_STATE_FINISHED
      ∧ (correlate_run sqrt fuel s0).score.xres
          = (gwy_data_field_correlate_NORMAL sqrt data_field kernel_field score).xres
      ∧ (correlate_run sqrt fuel s0).score.yres
          = (gwy_data_field_correlate_NORMAL sqrt data_field kernel_field score).yres
      ∧ ∀ k, (correlate_run sqrt fuel s0).score.data k
          = (gwy_data_field_correlate_NORMAL sqrt data_field kernel_field score).data k := by
  obtain ⟨s0, hs0, hd, hk, hsc, hst⟩ := correlate_init_some data_field kernel_field score hx hy
  subst hd hk hsc
  refine ⟨s0, hs0, ?_⟩
  have hTpos : (0 : Int) < (s0.data_field.xres - s0.kernel_field.xres + 1)
      * (s0.data_field.yres - s0.kernel_field.yres + 1) := mul_pos (by omega) (by omega)
  have tot := correlate_iterate_total sqrt s0 hkx hky hx hy hst
  have hrun := correlate_run_eq sqrt
    ((s0.data_field.xres - s0.kernel_field.xres + 1)
      * (s0.data_field.yres - s0.kernel_field.yres + 1)).toNat fuel s0 hfuel
    (fun m hm => by
      have hm2 : (m : Int) < (s0.data_field.xres - s0.kernel_field.xres + 1)
          * (s0.data_field.yres - s0.kernel_field.yres + 1) := by omega
      have p := correlate_progress_iterate sqrt s0 hkx hky hx hy hst m hm2.le
      obtain ⟨-, -, -, -, -, -, -, -, -, -, hstate, -, -⟩ := p
      rw [hstate, if_pos hm2]
      decide)
    tot.1
  rw [hrun]
  have u := Written_unique tot.2
    (correlate_NORMAL_written sqrt s0.data_field s0.kernel_field s0.score hkx hky hx hy)
  exact ⟨tot.1, u.1, u.2.1, u.2.2⟩

/-- A concrete instance of C7: the field 0, 2, 1 and the kernel 1, 5, two valid
positions, three calls. -/
theorem C7_iterator_matches_one_shot_witness :
    ∃ s0, gwy_data_field_correlate_init
          (fieldOfList 3 1 [(0 : ℝ), 2, 1]) (fieldOfList 2 1 [1, 5]) (fieldOfList 3 1 [])
        = some s0
      ∧ (correlate_run Real.sqrt 3 s0).cs.state = GWY_COMPUTATION_STATE_FINISHED
      ∧ (correlate_run Real.sqrt 3 s0).score.xres
          = (gwy_data_field_correlate_NORMAL Real.sqrt
              (fieldOfList 3 1 [0, 2, 1]) (fieldOfList 2 1 [1, 5]) (fieldOfList 3 1 [])).xres
      ∧ (correlate_run Real.sqrt 3 s0).score.yres
          = (gwy_data_field_correlate_NORMAL Real.sqrt
              (fieldOfList 3 1 [0, 2, 1]) (fieldOfList 2 1 [1, 5]) (fieldOfList 3 1 [])).yres
      ∧ ∀ k, (correlate_run Real.sqrt 3 s0).score.data k
          = (gwy_data_field_correlate_NORMAL Real.sqrt
              (fieldOfList 3 1 [0, 2, 1]) (fieldOfList 2 1 [1, 5]) (fieldOfList 3 1 [])).data k :=
  C7_iterator_matches_one_shot Real.sqrt (fieldOfList 3 1 [0, 2, 1]) (fieldOfList 2 1 [1, 5])
    (fieldOfList 3 1 []) (by decide) (by decide) (by decide) (by decide) 3 (by decide)

/-- Statement C9: for a spatial correlation job with `total = (xres-kxres+1) *
(yres-kyres+1)` valid pixels, after the initialising call and `n` further calls
(`n ≤ total`) the fraction equals `n/total`, it lies in `[0, 1]` and is at
least the fraction after any smaller number of calls, and the state is
`Finished` exactly when `n = total`; before the initialising call the state is
`Init`. -/
theorem C9_fraction_and_termination (sqrt : R → R)
    (data_field kernel_field score : GwyDataField R)
    (hkx : 1 ≤ kernel_field.xres) (hky : 1 ≤ kernel_field.yres)
    (hx : kernel_field.xres ≤ data_field.xres) (hy : kernel_field.yres ≤ data_field.yres) :
    ∃ s0, gwy_data_field_correlate_init data_field kernel_field score = some s0
      ∧ s0.cs.state = GWY_COMPUTATION_STATE_INIT
      ∧ ∀ n : ℕ, (n : Int) ≤ (data_field.xres - kernel_field.xres + 1)
            * (data_field.yres - kernel_field.yres + 1) →
          ((gwy_data_field_correlate_iteration sqrt)^[n + 1] s0).cs.fraction
              = (n : R) / (((data_field.xres - kernel_field.xres + 1)
                  * (data_field.yres - kernel_field.yres + 1) : Int) : R)
            ∧ 0 ≤ ((gwy_data_field_correlate_iteration sqrt)^[n + 1] s0).cs.fraction
            ∧ ((gwy_data_field_correlate_iteration sqrt)^[n + 1] s0).cs.fraction ≤ 1
            ∧ (((gwy_data_field_correlate_iteration sqrt)^[n + 1] s0).cs.state
                = GWY_COMPUTATION_STATE_FINISHED
              ↔ (n : Int) = (data_field.xres - kernel_field.xres + 1)
                  * (data_field.yres - kernel_field.yres + 1))
            ∧ ∀ m : ℕ, m ≤ n →
                ((gwy_data_field_correlate_iteration sqrt)^[m + 1] s0).cs.fraction
                  ≤ ((gwy_data_field_correlate_iteration sqrt)^[n + 1] s0).cs.fraction := by
  obtain ⟨s0, hs0, hd, hk, hsc, hst⟩ := correlate_init_some data_field kernel_field score hx hy
  subst hd hk hsc
  refine ⟨s0, hs0, hst, fun n hn => ?_⟩
  have hTposI : (0 : Int) < (s0.data_field.xres - s0.kernel_field.xres + 1)
      * (s0.data_field.yres - s0.kernel_field.yres + 1) := mul_pos (by omega) (by omega)
  have hTpos : (0 : R) < (((s0.data_field.xres - s0.kernel_field.xres + 1)
      * (s0.data_field.yres - s0.kernel_field.yres + 1) : Int) : R) := by
    exact_mod_cast hTposI
  have frac : ∀ m : ℕ, (m : Int) ≤ (s0.data_field.xres - s0.kernel_field.xres + 1)
        * (s0.data_field.yres - s0.kernel_field.yres + 1) →
      ((gwy_data_field_correlate_iteration sqrt)^[m + 1] s0).cs.fraction
        = (m : R) / (((s0.data_field.xres - s0.kernel_field.xres + 1)
            * (s0.data_field.yres - s0.kernel_field.yres + 1) : Int) : R) := by
    intro m hm
    have p := correlate_progress_iterate sqrt s0 hkx hky hx hy hst m hm
    exact p.2.2.2.2.2.2.2.2.2.2.2.1
  have p := correlate_progress_iterate sqrt s0 hkx hky hx hy hst n hn
  obtain ⟨-, -, -, -, -, -, -, -, -, -, hstate, hfrac, -⟩ := p
  have hnR : (n : R) ≤ (((s0.data_field.xres - s0.kernel_field.xres + 1)
      * (s0.data_field.yres - s0.kernel_field.yres + 1) : Int) : R) := by
    exact_mod_cast hn
  refine ⟨hfrac, ?_, ?_, ?_, ?_⟩
  · rw [hfrac]
    exact div_nonneg (Nat.cast_nonneg n) hTpos.le
  · rw [hfrac]
    exact (div_le_one hTpos).mpr hnR
  · rw [hstate]
    constructor
    · intro h
      by_contra hne
      have hlt : (n : Int) < (s0.data_field.xres - s0.kernel_field.xres + 1)
          * (s0.data_field.yres - s0.kernel_field.yres + 1) := lt_of_le_of_ne hn hne
      rw [if_pos hlt] at h
      exact absurd h (by decide)
    · intro h
      rw [if_neg (by rw [h]; exact lt_irrefl _)]
  · intro m hm
    have hmI : (m : Int) ≤ (s0.data_field.xres - s0.kernel_field.xres + 1)
        * (s0.data_field.yres - s0.kernel_field.yres + 1) := by
      have : (m : Int) ≤ (n : Int) := by exact_mod_cast hm
      omega
    rw [frac m hmI, hfrac]
    apply div_le_div_of_nonneg_right _ hTpos.le
    exact_mod_cast hm

/-- A concrete instance of C9: a 2 x 1 kernel on a 3 x 1 field has two valid
pixels. -/
theorem C9_fraction_and_termination_witness :
    ∃ s0, gwy_data_field_correlate_init
          (fieldOfList 3 1 [(0 : ℝ), 2, 1]) (fieldOfList 2 1 [1, 5]) (fieldOfList 3 1 [])
        = some s0
      ∧ s0.cs.state = GWY_COMPUTATION_STATE_INIT
      ∧ ((gwy_data_field_correlate_iteration Real.sqrt)^[1 + 1] s0).cs.fraction
          = ((1 : ℕ) : ℝ) / ((((3 : Int) - 2 + 1) * ((1 : Int) - 1 + 1) : Int) : ℝ)
      ∧ (((gwy_data_field_correlate_iteration Real.sqrt)^[2 + 1] s0).cs.state
            = GWY_COMPUTATION_STATE_FINISHED
          ↔ ((2 : ℕ) : Int) = ((3 : Int) - 2 + 1) * ((1 : Int) - 1 + 1)) := by
  obtain ⟨s0, h1, h2, h3⟩ := C9_fraction_and_termination Real.sqrt
    (fieldOfList 3 1 [(0 : ℝ), 2, 1]) (fieldOfList 2 1 [1, 5]) (fieldOfList 3 1 [])
    (by decide) (by decide) (by decide) (by decide)
  exact ⟨s0, h1, h2, (h3 1 (by decide)).1, (h3 2 (by decide)).2.2.2.1⟩

/-- A call of the cross-correlation iterator in state `Iterate` with `x_dist`
present and `y_dist` NULL has no result: the condition `state->x_dist ||
state->x_dist` lets the call reach the store through `state->y_dist`. -/
theorem crosscorrelate_iteration_null_y_dist (sqrt : R → R) (G_MAXDOUBLE : R)
    (gwy_math_refine_maximum : (Int → R) → Bool × R × R)
    (c : GwyCrossCorrelationState R) (xd : GwyDataField R)
    (h : c.cs.state = GWY_COMPUTATION_STATE_ITERATE)
    (hx : c.x_dist = some xd) (hy : c.y_dist = none) :
    gwy_data_field_crosscorrelate_iteration sqrt G_MAXDOUBLE gwy_math_refine_maximum c
      = none := by
  unfold gwy_data_field_crosscorrelate_iteration
  simp only [h, hx, hy]

/-- The transitions of the two iterators on the calls that return: a call in
state `Init` ends in `Iterate`, a call in state `Iterate` that returns ends in
`Iterate` or `Finished`, and a call in state `Finished` returns the iterator
unchanged (state, fraction, cursor and every field).  The spatial iterator
always returns; the cross-correlation iterator in state `Iterate` returns
whenever `y_dist` is present or `x_dist` is absent. -/
theorem iterator_state_moves_forward (sqrt : R → R) (G_MAXDOUBLE : R)
    (gwy_math_refine_maximum : (Int → R) → Bool × R × R)
    (s : GwyCorrelationState R) (c : GwyCrossCorrelationState R) :
    (s.cs.state = GWY_COMPUTATION_STATE_INIT →
        (gwy_data_field_correlate_iteration sqrt s).cs.state = GWY_COMPUTATION_STATE_ITERATE)
      ∧ (s.cs.state = GWY_COMPUTATION_STATE_ITERATE →
        (gwy_data_field_correlate_iteration sqrt s).cs.state = GWY_COMPUTATION_STATE_ITERATE
          ∨ (gwy_data_field_correlate_iteration sqrt s).cs.state
            = GWY_COMPUTATION_STATE_FINISHED)
      ∧ (s.cs.state = GWY_COMPUTATION_STATE_FINISHED →
        gwy_data_field_correlate_iteration sqrt s = s)
      ∧ (c.cs.state = GWY_COMPUTATION_STATE_INIT →
        ∃ c2, gwy_data_field_crosscorrelate_iteration sqrt G_MAXDOUBLE
              gwy_math_refine_maximum c = some c2
          ∧ c2.cs.state = GWY_COMPUTATION_STATE_ITERATE)
      ∧ (c.cs.state = GWY_COMPUTATION_STATE_ITERATE →
        (∀ c2, gwy_data_field_crosscorrelate_iteration sqrt G_MAXDOUBLE
              gwy_math_refine_maximum c = some c2 →
            c2.cs.state = GWY_COMPUTATION_STATE_ITERATE
              ∨ c2.cs.state = GWY_COMPUTATION_STATE_FINISHED)
          ∧ ((c.x_dist = none ∨ c.y_dist ≠ none) →
            ∃ c2, gwy_data_field_crosscorrelate_iteration sqrt G_MAXDOUBLE
              gwy_math_refine_maximum c = some c2))
      ∧ (c.cs.state = GWY_COMPUTATION_STATE_FINISHED →
        gwy_data_field_crosscorrelate_iteration sqrt G_MAXDOUBLE
          gwy_math_refine_maximum c = some c) := by
  refine ⟨?_, ?_, ?_, ?_, ?_, ?_⟩
  · intro h
    rw [correlate_iteration_init sqrt s h]
  · intro h
    rw [correlate_iteration_iterate sqrt s h]
    simp only []
    split_ifs
    · exact Or.inr rfl
    · exact Or.inl rfl
  · intro h
    exact correlate_iteration_finished sqrt s h
  · intro h
    unfold gwy_data_field_crosscorrelate_iteration
    simp only [h]
    exact ⟨_, rfl, rfl⟩
  · intro h
    constructor
    · intro c2 hc2
      unfold gwy_data_field_crosscorrelate_iteration at hc2
      simp only [h] at hc2
      rcases hx : c.x_dist with _ | xd
      · simp only [hx, Option.some.injEq] at hc2
        subst hc2
        simp only []
        split_ifs <;> simp
      · rcases hy : c.y_dist with _ | yd
        · simp only [hx, hy] at hc2
          exact absurd hc2 (by simp)
        · simp only [hx, hy, Option.some.injEq] at hc2
          subst hc2
          simp only []
          split_ifs <;> simp
    · intro hcfg
      unfold gwy_data_field_crosscorrelate_iteration
      simp only [h]
      rcases hx : c.x_dist with _ | xd
      · exact ⟨_, rfl⟩
      · rcases hy : c.y_dist with _ | yd
        · rcases hcfg with h1 | h1
          · rw [hx] at h1
            exact absurd h1 (by simp)
          · exact absurd hy h1
        · exact ⟨_, rfl⟩
  · intro h
    unfold gwy_data_field_crosscorrelate_iteration
    simp only [h]

/-! ## The weighted scorer -/

/-- On a valid geometry with a weight field of the window's dimensions, the
weighted scorer returns 0 when one of the two standard deviations is zero and
the weighted covariance over their product and the weight sum otherwise. -/
theorem weighted_score_unfold (sqrt : R → R)
    (data_field kernel_field weight_field : GwyDataField R)
    (col row kernel_col kernel_row kernel_width kernel_height : Int)
    (hw : 1 ≤ kernel_width) (hh : 1 ≤ kernel_height)
    (hcol : 0 ≤ col) (hcolw : col + kernel_width ≤ data_field.xres)
    (hrow : 0 ≤ row) (hrowh : row + kernel_height ≤ data_field.yres)
    (hkcol : 0 ≤ kernel_col) (hkcolw : kernel_col + kernel_width ≤ kernel_field.xres)
    (hkrow : 0 ≤ kernel_row) (hkrowh : kernel_row + kernel_height ≤ kernel_field.yres)
    (hwx : kernel_width = weight_field.xres) (hwy : kernel_height = weight_field.yres) :
    gwy_data_field_get_weighted_correlation_score sqrt data_field kernel_field weight_field
        col row kernel_col kernel_row kernel_width kernel_height
      = if sqrt (weighted_window_variance data_field weight_field col row
            kernel_width kernel_height) = 0 then 0
        else if sqrt (weighted_window_variance kernel_field weight_field kernel_col kernel_row
            kernel_width kernel_height) = 0 then 0
        else
          windowSum kernel_width kernel_height
              (fun i j => weight_field.data (i + weight_field.xres * j)
                * (data_field.data ((i + col) + data_field.xres * (j + row))
                    - weighted_window_avg data_field weight_field col row
                        kernel_width kernel_height)
                * (kernel_field.data ((i + kernel_col) + kernel_field.xres * (j + kernel_row))
                    - weighted_window_avg kernel_field weight_field kernel_col kernel_row
                        kernel_width kernel_height))
            / (sqrt (weighted_window_variance data_field weight_field col row
                  kernel_width kernel_height)
                * sqrt (weighted_window_variance kernel_field weight_field kernel_col kernel_row
                  kernel_width kernel_height)
                * gwy_data_field_get_sum weight_field) := by
  have g0 : ¬ ¬ (kernel_width = weight_field.xres ∧ kernel_height = weight_field.yres) :=
    not_not.mpr ⟨hwx, hwy⟩
  have g1 : ¬ (kernel_col > kernel_field.xres ∨ kernel_row > kernel_field.yres) := by omega
  have g2 : ¬ (col < 0 ∨ row < 0 ∨ col + kernel_width > data_field.xres
      ∨ row + kernel_height > data_field.yres) := by omega
  have g3 : ¬ (kernel_col < 0 ∨ kernel_row < 0 ∨ kernel_col + kernel_width > kernel_field.xres
      ∨ kernel_row + kernel_height > kernel_field.yres) := by omega
  unfold gwy_data_field_get_weighted_correlation_score weighted_window_variance
    weighted_window_avg
  simp only [g0, g1, g2, g3, if_false, windowLoop_zero]

theorem weighted_window_variance_nonneg (f weight_field : GwyDataField R)
    (col row width height : Int)
    (hnn : ∀ i j, 0 ≤ i → i < width → 0 ≤ j → j < height →
      0 ≤ weight_field.data (i + weight_field.xres * j))
    (hsum : 0 < gwy_data_field_get_sum weight_field) :
    0 ≤ weighted_window_variance f weight_field col row width height := by
  unfold weighted_window_variance
  rw [windowLoop_zero]
  apply div_nonneg _ hsum.le
  unfold windowSum
  apply Finset.sum_nonneg
  intro p hp
  rw [Finset.mem_product, Finset.mem_range, Finset.mem_range] at hp
  have hwp := hnn (p.2 : Int) (p.1 : Int) (by omega) (by omega) (by omega) (by omega)
  beta_reduce
  rw [mul_assoc]
  exact mul_nonneg hwp (mul_self_nonneg _)

/-- Statement C10: on a valid geometry, with a weight field of the window's
dimensions whose weights are non-negative and whose sum is positive,
`gwy_data_field_get_weighted_correlation_score` returns a value in `[-1, 1]`,
and it returns 0 when the weighted variance of either window is zero (exact
arithmetic). -/
theorem C10_weighted_score_in_range (sqrt : R → R) (hs : IsSqrt sqrt)
    (data_field kernel_field weight_field : GwyDataField R)
    (col row kernel_col kernel_row kernel_width kernel_height : Int)
    (hw : 1 ≤ kernel_width) (hh : 1 ≤ kernel_height)
    (hcol : 0 ≤ col) (hcolw : col + kernel_width ≤ data_field.xres)
    (hrow : 0 ≤ row) (hrowh : row + kernel_height ≤ data_field.yres)
    (hkcol : 0 ≤ kernel_col) (hkcolw : kernel_col + kernel_width ≤ kernel_field.xres)
    (hkrow : 0 ≤ kernel_row) (hkrowh : kernel_row + kernel_height ≤ kernel_field.yres)
    (hwx : weight_field.xres = kernel_width) (hwy : weight_field.yres = kernel_height)
    (hnn : ∀ i j, 0 ≤ i → i < kernel_width → 0 ≤ j → j < kernel_height →
      0 ≤ weight_field.data (i + weight_field.xres * j))
    (hsum : 0 < gwy_data_field_get_sum weight_field) :
    (-1 ≤ gwy_data_field_get_weighted_correlation_score sqrt data_field kernel_field
            weight_field col row kernel_col kernel_row kernel_width kernel_height
        ∧ gwy_data_field_get_weighted_correlation_score sqrt data_field kernel_field
            weight_field col row kernel_col kernel_row kernel_width kernel_height ≤ 1)
      ∧ ((weighted_window_variance data_field weight_field col row
              kernel_width kernel_height = 0
            ∨ weighted_window_variance kernel_field weight_field kernel_col kernel_row
              kernel_width kernel_height = 0) →
          gwy_data_field_get_weighted_correlation_score sqrt data_field kernel_field
            weight_field col row kernel_col kernel_row kernel_width kernel_height = 0) := by
  rw [weighted_score_unfold sqrt data_field kernel_field weight_field col row kernel_col
    kernel_row kernel_width kernel_height hw hh hcol hcolw hrow hrowh hkcol hkcolw hkrow hkrowh
    hwx.symm hwy.symm]
  have v1 := weighted_window_variance_nonneg data_field weight_field col row
    kernel_width kernel_height hnn hsum
  have v2 := weighted_window_variance_nonneg kernel_field weight_field kernel_col kernel_row
    kernel_width kernel_height hnn hsum
  have s1 := hs _ v1
  have s2 := hs _ v2
  constructor
  · split_ifs with z1 z2
    · constructor <;> norm_num
    · constructor <;> norm_num
    · have key := weighted_pearson_bound
        (Finset.range kernel_height.toNat ×ˢ Finset.range kernel_width.toNat)
        (fun p => weight_field.data ((p.2 : Int) + weight_field.xres * (p.1 : Int)))
        (fun p => data_field.data (((p.2 : Int) + col) + data_field.xres * ((p.1 : Int) + row)))
        (fun p => kernel_field.data
          (((p.2 : Int) + kernel_col) + kernel_field.xres * ((p.1 : Int) + kernel_row)))
        (weighted_window_avg data_field weight_field col row kernel_width kernel_height)
        (weighted_window_avg kernel_field weight_field kernel_col kernel_row
          kernel_width kernel_height)
        (sqrt (weighted_window_variance data_field weight_field col row
          kernel_width kernel_height))
        (sqrt (weighted_window_variance kernel_field weight_field kernel_col kernel_row
          kernel_width kernel_height))
        (gwy_data_field_get_sum weight_field)
        (fun p hp => by
          rw [Finset.mem_product, Finset.mem_range, Finset.mem_range] at hp
          exact hnn (p.2 : Int) (p.1 : Int) (by omega) (by omega) (by omega) (by omega))
        hsum
        (by
          rw [s1.2]
          unfold weighted_window_variance
          rw [windowLoop_zero]
          rfl)
        (by
          rw [s2.2]
          unfold weighted_window_variance
          rw [windowLoop_zero]
          rfl)
        s1.1 s2.1 z1 z2
      exact key
  · rintro (hz | hz)
    · rw [hz, sqrt_zero_of_isSqrt hs, if_pos rfl]
    · rw [hz, sqrt_zero_of_isSqrt hs]
      split_ifs with a b
      · rfl
      · rfl
      · exact absurd rfl b

/-- A concrete instance of C10: the windows 0, 2 and 1, 5 under the weights
1, 3. -/
theorem C10_weighted_score_in_range_witness :
    (-1 ≤ gwy_data_field_get_weighted_correlation_score Real.sqrt
            (fieldOfList 2 1 [0, 2]) (fieldOfList 2 1 [1, 5]) (fieldOfList 2 1 [1, 3])
            0 0 0 0 2 1
        ∧ gwy_data_field_get_weighted_correlation_score Real.sqrt
            (fieldOfList 2 1 [0, 2]) (fieldOfList 2 1 [1, 5]) (fieldOfList 2 1 [1, 3])
            0 0 0 0 2 1 ≤ (1 : ℝ)) :=
  (C10_weighted_score_in_range Real.sqrt isSqrt_real
    (fieldOfList 2 1 [0, 2]) (fieldOfList 2 1 [1, 5]) (fieldOfList 2 1 [1, 3])
    0 0 0 0 2 1 (by decide) (by decide) (by decide) (by decide) (by decide) (by decide)
    (by decide) (by decide) (by decide) (by decide) rfl rfl
    (fun i j h1 h2 h3 h4 => by
      have hj : j = 0 := by omega
      have hi : i = 0 ∨ i = 1 := by omega
      subst hj
      rcases hi with hi | hi <;> subst hi <;> simp [fieldOfList])
    (by
      simp [gwy_data_field_get_sum, windowLoop, forRange_step, forRange_done, fieldOfList]
      norm_num)).1

/-- A concrete instance of the transitions: the initialising call of a spatial
job ends in `Iterate`, and a call of a cross-correlation job in state `Iterate`
without displacement fields returns. -/
theorem iterator_state_moves_forward_sample :
    (gwy_data_field_correlate_iteration Real.sqrt
        (sampleCorrelationState : GwyCorrelationState ℝ)).cs.state
        = GWY_COMPUTATION_STATE_ITERATE
      ∧ ∃ c2, gwy_data_field_crosscorrelate_iteration Real.sqrt 1000 (fun _ => (false, 0, 0))
          (sampleCrossCorrelationState : GwyCrossCorrelationState ℝ) = some c2 :=
  ⟨(iterator_state_moves_forward Real.sqrt 1000 (fun _ => (false, 0, 0))
      sampleCorrelationState sampleCrossCorrelationState).1 rfl,
    ((iterator_state_moves_forward Real.sqrt 1000 (fun _ => (false, 0, 0))
      sampleCorrelationState sampleCrossCorrelationState).2.2.2.2.1 rfl).2 (Or.inl rfl)⟩

/-! ## Statements C11, C12: the sentinels of the weighted scorer -/

/-- On a geometry outside the data field or the kernel field, with a weight
field of the window's dimensions, the weighted scorer returns -2, -3 or -4. -/
theorem weighted_invalid_geometry (sqrt : R → R)
    (data_field kernel_field weight_field : GwyDataField R)
    (col row kernel_col kernel_row kernel_width kernel_height : Int)
    (hwx : kernel_width = weight_field.xres) (hwy : kernel_height = weight_field.yres)
    (hbad : col < 0 ∨ row < 0 ∨ col + kernel_width > data_field.xres
      ∨ row + kernel_height > data_field.yres ∨ kernel_col < 0 ∨ kernel_row < 0
      ∨ kernel_col + kernel_width > kernel_field.xres
      ∨ kernel_row + kernel_height > kernel_field.yres) :
    gwy_data_field_get_weighted_correlation_score sqrt data_field kernel_field weight_field
        col row kernel_col kernel_row kernel_width kernel_height = -2
      ∨ gwy_data_field_get_weighted_correlation_score sqrt data_field kernel_field weight_field
        col row kernel_col kernel_row kernel_width kernel_height = -3
      ∨ gwy_data_field_get_weighted_correlation_score sqrt data_field kernel_field weight_field
        col row kernel_col kernel_row kernel_width kernel_height = -4 := by
  have g0 : ¬ ¬ (kernel_width = weight_field.xres ∧ kernel_height = weight_field.yres) :=
    not_not.mpr ⟨hwx, hwy⟩
  unfold gwy_data_field_get_weighted_correlation_score
  simp only [g0, if_false]
  by_cases h1 : kernel_col > kernel_field.xres ∨ kernel_row > kernel_field.yres
  · simp [h1]
  · by_cases h2 : col < 0 ∨ row < 0 ∨ col + kernel_width > data_field.xres
        ∨ row + kernel_height > data_field.yres
    · simp [h1, h2]
    · by_cases h3 : kernel_col < 0 ∨ kernel_row < 0
          ∨ kernel_col + kernel_width > kernel_field.xres
          ∨ kernel_row + kernel_height > kernel_field.yres
      · simp [h1, h2, h3]
      · exfalso
        rcases hbad with h | h | h | h | h | h | h | h
        · exact h2 (Or.inl h)
        · exact h2 (Or.inr (Or.inl h))
        · exact h2 (Or.inr (Or.inr (Or.inl h)))
        · exact h2 (Or.inr (Or.inr (Or.inr h)))
        · exact h3 (Or.inl h)
        · exact h3 (Or.inr (Or.inl h))
        · exact h3 (Or.inr (Or.inr (Or.inl h)))
        · exact h3 (Or.inr (Or.inr (Or.inr h)))

/-- Statement C11, the code at a failing input: with the window one column left
of the data field, the weighted scorer returns -3, where the claim and the
documentation of the function say -1 and the unweighted scorer returns -1. -/
theorem C11_weighted_invalid_geometry_is_not_minus_one :
    gwy_data_field_get_weighted_correlation_score Real.sqrt
        (fieldOfList 2 1 [0, 2]) (fieldOfList 2 1 [1, 5]) (fieldOfList 2 1 [1, 1])
        (-1) 0 0 0 2 1 = -3
      ∧ gwy_data_field_get_weighted_correlation_score Real.sqrt
        (fieldOfList 2 1 [0, 2]) (fieldOfList 2 1 [1, 5]) (fieldOfList 2 1 [1, 1])
        (-1) 0 0 0 2 1 ≠ -1
      ∧ gwy_data_field_get_correlation_score Real.sqrt
        (fieldOfList 2 1 [0, 2]) (fieldOfList 2 1 [1, 5]) (-1) 0 0 0 2 1 = -1 := by
  have h : gwy_data_field_get_weighted_correlation_score Real.sqrt
      (fieldOfList 2 1 [0, 2]) (fieldOfList 2 1 [1, 5]) (fieldOfList 2 1 [1, 1])
      (-1) 0 0 0 2 1 = -3 := by
    simp [gwy_data_field_get_weighted_correlation_score, fieldOfList]
  refine ⟨h, ?_, ?_⟩
  · rw [h]
    norm_num
  · simp [gwy_data_field_get_correlation_score, fieldOfList]

theorem weighted_window_variance_nonneg_of_nonpos (f weight_field : GwyDataField R)
    (col row width height : Int)
    (hnp : ∀ i j, 0 ≤ i → i < width → 0 ≤ j → j < height →
      weight_field.data (i + weight_field.xres * j) ≤ 0)
    (hsum : gwy_data_field_get_sum weight_field < 0) :
    0 ≤ weighted_window_variance f weight_field col row width height := by
  unfold weighted_window_variance
  rw [windowLoop_zero]
  apply div_nonneg_of_nonpos _ hsum.le
  unfold windowSum
  apply Finset.sum_nonpos
  intro p hp
  rw [Finset.mem_product, Finset.mem_range, Finset.mem_range] at hp
  have hwp := hnp (p.2 : Int) (p.1 : Int) (by omega) (by omega) (by omega) (by omega)
  beta_reduce
  rw [mul_assoc]
  exact mul_nonpos_of_nonpos_of_nonneg hwp (mul_self_nonneg _)

/-- Statement C12, as amended: the weighted scorer does not test the weight
sum.  On a valid geometry, with a weight field of the window's dimensions whose
weights are all non-positive and whose sum is negative, it computes a score as
it does for positive weights: a value in `[-1, 1]`, 0 when the weighted
variance of either window is zero, and none of the sentinels -13, -2, -3,
-4. -/
theorem C12_negative_weight_sum_computes_score (sqrt : R → R) (hs : IsSqrt sqrt)
    (data_field kernel_field weight_field : GwyDataField R)
    (col row kernel_col kernel_row kernel_width kernel_height : Int)
    (hw : 1 ≤ kernel_width) (hh : 1 ≤ kernel_height)
    (hcol : 0 ≤ col) (hcolw : col + kernel_width ≤ data_field.xres)
    (hrow : 0 ≤ row) (hrowh : row + kernel_height ≤ data_field.yres)
    (hkcol : 0 ≤ kernel_col) (hkcolw : kernel_col + kernel_width ≤ kernel_field.xres)
    (hkrow : 0 ≤ kernel_row) (hkrowh : kernel_row + kernel_height ≤ kernel_field.yres)
    (hwx : weight_field.xres = kernel_width) (hwy : weight_field.yres = kernel_height)
    (hnp : ∀ i j, 0 ≤ i → i < kernel_width → 0 ≤ j → j < kernel_height →
      weight_field.data (i + weight_field.xres * j) ≤ 0)
    (hsum : gwy_data_field_get_sum weight_field < 0) :
    (-1 ≤ gwy_data_field_get_weighted_correlation_score sqrt data_field kernel_field
            weight_field col row kernel_col kernel_row kernel_width kernel_height
        ∧ gwy_data_field_get_weighted_correlation_score sqrt data_field kernel_field
            weight_field col row kernel_col kernel_row kernel_width kernel_height ≤ 1)
      ∧ ((weighted_window_variance data_field weight_field col row
              kernel_width kernel_height = 0
            ∨ weighted_window_variance kernel_field weight_field kernel_col kernel_row
              kernel_width kernel_height = 0) →
          gwy_data_field_get_weighted_correlation_score sqrt data_field kernel_field
            weight_field col row kernel_col kernel_row kernel_width kernel_height = 0) := by
  rw [weighted_score_unfold sqrt data_field kernel_field weight_field col row kernel_col
    kernel_row kernel_width kernel_height hw hh hcol hcolw hrow hrowh hkcol hkcolw hkrow hkrowh
    hwx.symm hwy.symm]
  have v1 := weighted_window_variance_nonneg_of_nonpos data_field weight_field col row
    kernel_width kernel_height hnp hsum
  have v2 := weighted_window_variance_nonneg_of_nonpos kernel_field weight_field
    kernel_col kernel_row kernel_width kernel_height hnp hsum
  have s1 := hs _ v1
  have s2 := hs _ v2
  constructor
  · split_ifs with z1 z2
    · constructor <;> norm_num
    · constructor <;> norm_num
    · have key := weighted_pearson_bound
        (Finset.range kernel_height.toNat ×ˢ Finset.range kernel_width.toNat)
        (fun p => -weight_field.data ((p.2 : Int) + weight_field.xres * (p.1 : Int)))
        (fun p => data_field.data (((p.2 : Int) + col) + data_field.xres * ((p.1 : Int) + row)))
        (fun p => kernel_field.data
          (((p.2 : Int) + kernel_col) + kernel_field.xres * ((p.1 : Int) + kernel_row)))
        (weighted_window_avg data_field weight_field col row kernel_width kernel_height)
        (weighted_window_avg kernel_field weight_field kernel_col kernel_row
          kernel_width kernel_height)
        (sqrt (weighted_window_variance data_field weight_field col row
          kernel_width kernel_height))
        (sqrt (weighted_window_variance kernel_field weight_field kernel_col kernel_row
          kernel_width kernel_height))
        (-gwy_data_field_get_sum weight_field)
        (fun p hp => by
          rw [Finset.mem_product, Finset.mem_range, Finset.mem_range] at hp
          have := hnp (p.2 : Int) (p.1 : Int) (by omega) (by omega) (by omega) (by omega)
          exact neg_nonneg.mpr this)
        (by linarith)
        (by
          rw [s1.2]
          unfold weighted_window_variance
          rw [windowLoop_zero]
          unfold windowSum
          simp only [neg_mul, Finset.sum_neg_distrib, neg_div_neg_eq])
        (by
          rw [s2.2]
          unfold weighted_window_variance
          rw [windowLoop_zero]
          unfold windowSum
          simp only [neg_mul, Finset.sum_neg_distrib, neg_div_neg_eq])
        s1.1 s2.1 z1 z2
      simp only [neg_mul, Finset.sum_neg_distrib, mul_neg, neg_div_neg_eq] at key
      exact key
  · rintro (hz | hz)
    · rw [hz, sqrt_zero_of_isSqrt hs, if_pos rfl]
    · rw [hz, sqrt_zero_of_isSqrt hs]
      split_ifs with a b
      · rfl
      · rfl
      · exact absurd rfl b

/-- A concrete instance of the amended C12: the windows 0, 2 and 1, 5 under the
weights -1, -3. -/
theorem C12_negative_weight_sum_computes_score_witness :
    (-1 ≤ gwy_data_field_get_weighted_correlation_score Real.sqrt
            (fieldOfList 2 1 [0, 2]) (fieldOfList 2 1 [1, 5]) (fieldOfList 2 1 [-1, -3])
            0 0 0 0 2 1
        ∧ gwy_data_field_get_weighted_correlation_score Real.sqrt
            (fieldOfList 2 1 [0, 2]) (fieldOfList 2 1 [1, 5]) (fieldOfList 2 1 [-1, -3])
            0 0 0 0 2 1 ≤ (1 : ℝ)) :=
  (C12_negative_weight_sum_computes_score Real.sqrt isSqrt_real
    (fieldOfList 2 1 [0, 2]) (fieldOfList 2 1 [1, 5]) (fieldOfList 2 1 [-1, -3])
    0 0 0 0 2 1 (by decide) (by decide) (by decide) (by decide) (by decide) (by decide)
    (by decide) (by decide) (by decide) (by decide) rfl rfl
    (fun i j h1 h2 h3 h4 => by
      have hj : j = 0 := by omega
      have hi : i = 0 ∨ i = 1 := by omega
      subst hj
      rcases hi with hi | hi <;> subst hi <;> simp [fieldOfList])
    (by
      simp [gwy_data_field_get_sum, windowLoop, forRange_step, forRange_done, fieldOfList]
      norm_num)).1

/-- The claim C12 fails on the weights -1, -1, whose sum -2 is not greater than
0: on the windows 0, 2 and 1, 3 the weighted scorer returns the computed score
1, which is not negative. -/
theorem C12_counterexample :
    gwy_data_field_get_sum (fieldOfList 2 1 [(-1 : ℝ), -1]) = -2
      ∧ gwy_data_field_get_weighted_correlation_score Real.sqrt
          (fieldOfList 2 1 [0, 2]) (fieldOfList 2 1 [1, 3]) (fieldOfList 2 1 [-1, -1])
          0 0 0 0 2 1 = 1 := by
  constructor
  · simp [gwy_data_field_get_sum, windowLoop, forRange_step, forRange_done, fieldOfList]
    norm_num
  · simp [gwy_data_field_get_weighted_correlation_score, gwy_data_field_get_sum, windowLoop,
      forRange_step, forRange_done, fieldOfList]
    norm_num

/-! ## Statement C13: the raw score -/

/-- With the true window means and non-zero window rms values, the raw score is
the score times the two rms values. -/
theorem raw_score_eq (sqrt : R → R) (data_field kernel_field : GwyDataField R)
    (col row kernel_col kernel_row kernel_width kernel_height : Int)
    (hw : 1 ≤ kernel_width) (hh : 1 ≤ kernel_height)
    (hcol : 0 ≤ col) (hcolw : col + kernel_width ≤ data_field.xres)
    (hrow : 0 ≤ row) (hrowh : row + kernel_height ≤ data_field.yres)
    (hkcol : 0 ≤ kernel_col) (hkcolw : kernel_col + kernel_width ≤ kernel_field.xres)
    (hkrow : 0 ≤ kernel_row) (hkrowh : kernel_row + kernel_height ≤ kernel_field.yres)
    (hr1 : gwy_data_field_area_get_rms sqrt data_field col row kernel_width kernel_height ≠ 0)
    (hr2 : gwy_data_field_area_get_rms sqrt kernel_field kernel_col kernel_row
      kernel_width kernel_height ≠ 0) :
    gwy_data_field_get_raw_correlation_score data_field kernel_field
        col row kernel_col kernel_row kernel_width kernel_height
        (gwy_data_field_area_get_avg data_field col row kernel_width kernel_height)
        (gwy_data_field_area_get_avg kernel_field kernel_col kernel_row
          kernel_width kernel_height)
      = gwy_data_field_get_correlation_score sqrt data_field kernel_field
          col row kernel_col kernel_row kernel_width kernel_height
        * gwy_data_field_area_get_rms sqrt data_field col row kernel_width kernel_height
        * gwy_data_field_area_get_rms sqrt kernel_field kernel_col kernel_row
            kernel_width kernel_height := by
  have g1 : ¬ (kernel_col > kernel_field.xres ∨ kernel_row > kernel_field.yres) := by omega
  have g2 : ¬ (col < 0 ∨ row < 0 ∨ col + kernel_width > data_field.xres
      ∨ row + kernel_height > data_field.yres) := by omega
  have g3 : ¬ (kernel_col < 0 ∨ kernel_row < 0 ∨ kernel_col + kernel_width > kernel_field.xres
      ∨ kernel_row + kernel_height > kernel_field.yres) := by omega
  have hN := cast_window_pos (R := R) kernel_width kernel_height hw hh
  unfold gwy_data_field_get_raw_correlation_score gwy_data_field_get_correlation_score
  simp only [g1, g2, g3, hr1, hr2, if_false]
  field_simp
  ring

/-- Statement C13, as amended: on a valid geometry, when `data_avg` and
`kernel_avg` are the means of the two windows and both window rms values are
non-zero, `gwy_data_field_get_raw_correlation_score` returns
`score * rms1 * rms2` (the covariance of the two windows, without the factor
`N`), so that dividing it by `rms1 * rms2` gives the score. -/
theorem C13_raw_score_is_score_times_rms (sqrt : R → R)
    (data_field kernel_field : GwyDataField R)
    (col row kernel_col kernel_row kernel_width kernel_height : Int)
    (hw : 1 ≤ kernel_width) (hh : 1 ≤ kernel_height)
    (hcol : 0 ≤ col) (hcolw : col + kernel_width ≤ data_field.xres)
    (hrow : 0 ≤ row) (hrowh : row + kernel_height ≤ data_field.yres)
    (hkcol : 0 ≤ kernel_col) (hkcolw : kernel_col + kernel_width ≤ kernel_field.xres)
    (hkrow : 0 ≤ kernel_row) (hkrowh : kernel_row + kernel_height ≤ kernel_field.yres)
    (hr1 : gwy_data_field_area_get_rms sqrt data_field col row kernel_width kernel_height ≠ 0)
    (hr2 : gwy_data_field_area_get_rms sqrt kernel_field kernel_col kernel_row
      kernel_width kernel_height ≠ 0) :
    gwy_data_field_get_raw_correlation_score data_field kernel_field
          col row kernel_col kernel_row kernel_width kernel_height
          (gwy_data_field_area_get_avg data_field col row kernel_width kernel_height)
          (gwy_data_field_area_get_avg kernel_field kernel_col kernel_row
            kernel_width kernel_height)
        = gwy_data_field_get_correlation_score sqrt data_field kernel_field
            col row kernel_col kernel_row kernel_width kernel_height
          * gwy_data_field_area_get_rms sqrt data_field col row kernel_width kernel_height
          * gwy_data_field_area_get_rms sqrt kernel_field kernel_col kernel_row
              kernel_width kernel_height
      ∧ gwy_data_field_get_raw_correlation_score data_field kernel_field
            col row kernel_col kernel_row kernel_width kernel_height
            (gwy_data_field_area_get_avg data_field col row kernel_width kernel_height)
            (gwy_data_field_area_get_avg kernel_field kernel_col kernel_row
              kernel_width kernel_height)
          / (gwy_data_field_area_get_rms sqrt data_field col row kernel_width kernel_height
            * gwy_data_field_area_get_rms sqrt kernel_field kernel_col kernel_row
                kernel_width kernel_height)
        = gwy_data_field_get_correlation_score sqrt data_field kernel_field
            col row kernel_col kernel_row kernel_width kernel_height := by
  have e := raw_score_eq sqrt data_field kernel_field col row kernel_col kernel_row
    kernel_width kernel_height hw hh hcol hcolw hrow hrowh hkcol hkcolw hkrow hkrowh hr1 hr2
  refine ⟨e, ?_⟩
  rw [e]
  field_simp
  ring

theorem sample_rms_one :
    gwy_data_field_area_get_rms Real.sqrt (fieldOfList 2 1 [0, 2]) 0 0 2 1 = 1
      ∧ gwy_data_field_area_get_rms Real.sqrt (fieldOfList 2 1 [1, 3]) 0 0 2 1 = 1 := by
  constructor <;>
    norm_num [gwy_data_field_area_get_rms, gwy_data_field_area_get_avg, windowLoop,
      forRange_step, forRange_done, fieldOfList]

/-- A concrete instance of the amended C13: the windows 0, 2 and 1, 3, both of
rms 1. -/
theorem C13_raw_score_is_score_times_rms_witness :
    gwy_data_field_get_raw_correlation_score (fieldOfList 2 1 [0, 2]) (fieldOfList 2 1 [1, 3])
          0 0 0 0 2 1
          (gwy_data_field_area_get_avg (fieldOfList 2 1 [0, 2]) 0 0 2 1)
          (gwy_data_field_area_get_avg (fieldOfList 2 1 [1, 3]) 0 0 2 1)
        = gwy_data_field_get_correlation_score Real.sqrt
            (fieldOfList 2 1 [0, 2]) (fieldOfList 2 1 [1, 3]) 0 0 0 0 2 1
          * gwy_data_field_area_get_rms Real.sqrt (fieldOfList 2 1 [0, 2]) 0 0 2 1
          * gwy_data_field_area_get_rms Real.sqrt (fieldOfList 2 1 [1, 3]) 0 0 2 1 :=
  (C13_raw_score_is_score_times_rms Real.sqrt (fieldOfList 2 1 [0, 2]) (fieldOfList 2 1 [1, 3])
    0 0 0 0 2 1 (by decide) (by decide) (by decide) (by decide) (by decide) (by decide)
    (by decide) (by decide) (by decide) (by decide)
    (by rw [sample_rms_one.1]; exact one_ne_zero)
    (by rw [sample_rms_one.2]; exact one_ne_zero)).1

/-- The claim C13 fails on the windows 0, 2 and 1, 3 (`N = 2`, both rms values
1, the averages the true means 1 and 2): the raw score is 1 and the score is 1,
so the raw score is not `score * rms1 * rms2 * N = 2`. -/
theorem C13_counterexample :
    gwy_data_field_area_get_avg (fieldOfList 2 1 [(0 : ℝ), 2]) 0 0 2 1 = 1
      ∧ gwy_data_field_area_get_avg (fieldOfList 2 1 [(1 : ℝ), 3]) 0 0 2 1 = 2
      ∧ gwy_data_field_area_get_rms Real.sqrt (fieldOfList 2 1 [0, 2]) 0 0 2 1 = 1
      ∧ gwy_data_field_area_get_rms Real.sqrt (fieldOfList 2 1 [1, 3]) 0 0 2 1 = 1
      ∧ gwy_data_field_get_raw_correlation_score
          (fieldOfList 2 1 [(0 : ℝ), 2]) (fieldOfList 2 1 [1, 3]) 0 0 0 0 2 1 1 2 = 1
      ∧ gwy_data_field_get_correlation_score Real.sqrt
          (fieldOfList 2 1 [0, 2]) (fieldOfList 2 1 [1, 3]) 0 0 0 0 2 1 = 1
      ∧ gwy_data_field_get_raw_correlation_score
          (fieldOfList 2 1 [(0 : ℝ), 2]) (fieldOfList 2 1 [1, 3]) 0 0 0 0 2 1 1 2
        ≠ gwy_data_field_get_correlation_score Real.sqrt
            (fieldOfList 2 1 [0, 2]) (fieldOfList 2 1 [1, 3]) 0 0 0 0 2 1
          * gwy_data_field_area_get_rms Real.sqrt (fieldOfList 2 1 [0, 2]) 0 0 2 1
          * gwy_data_field_area_get_rms Real.sqrt (fieldOfList 2 1 [1, 3]) 0 0 2 1
          * (((2 * 1 : Int)) : ℝ) := by
  have a1 : gwy_data_field_area_get_avg (fieldOfList 2 1 [(0 : ℝ), 2]) 0 0 2 1 = 1 := by
    norm_num [gwy_data_field_area_get_avg, windowLoop, forRange_step, forRange_done,
      fieldOfList]
  have a2 : gwy_data_field_area_get_avg (fieldOfList 2 1 [(1 : ℝ), 3]) 0 0 2 1 = 2 := by
    norm_num [gwy_data_field_area_get_avg, windowLoop, forRange_step, forRange_done,
      fieldOfList]
  have raw : gwy_data_field_get_raw_correlation_score
      (fieldOfList 2 1 [(0 : ℝ), 2]) (fieldOfList 2 1 [1, 3]) 0 0 0 0 2 1 1 2 = 1 := by
    norm_num [gwy_data_field_get_raw_correlation_score, windowLoop, forRange_step,
      forRange_done, fieldOfList]
  have sc : gwy_data_field_get_correlation_score Real.sqrt
      (fieldOfList 2 1 [0, 2]) (fieldOfList 2 1 [1, 3]) 0 0 0 0 2 1 = 1 := by
    have h := raw_score_eq Real.sqrt (fieldOfList 2 1 [0, 2]) (fieldOfList 2 1 [1, 3])
      0 0 0 0 2 1 (by decide) (by decide) (by decide) (by decide) (by decide) (by decide)
      (by decide) (by decide) (by decide) (by decide)
      (by rw [sample_rms_one.1]; exact one_ne_zero)
      (by rw [sample_rms_one.2]; exact one_ne_zero)
    rw [a1, a2, raw, sample_rms_one.1, sample_rms_one.2] at h
    linarith
  refine ⟨a1, a2, sample_rms_one.1, sample_rms_one.2, raw, sc, ?_⟩
  rw [raw, sc, sample_rms_one.1, sample_rms_one.2]
  norm_num

/-! ## Statement C14: the degenerate-variance path of the one-shot map -/

theorem windowSum_const (width height : Int) (hw : 0 ≤ width) (hh : 0 ≤ height) (c : R) :
    windowSum width height (fun _ _ => c) = ((width * height : Int) : R) * c := by
  unfold windowSum
  rw [Finset.sum_const, nsmul_eq_mul, window_card width height hw hh]

/-- The area rms of a window whose samples are all equal is zero. -/
theorem area_get_rms_of_const {sqrt : R → R} (hs : IsSqrt sqrt) (f : GwyDataField R)
    (col row width height : Int) (hw : 1 ≤ width) (hh : 1 ≤ height) (c : R)
    (hc : ∀ i j, 0 ≤ i → i < width → 0 ≤ j → j < height →
      f.data ((i + col) + f.xres * (j + row)) = c) :
    gwy_data_field_area_get_rms sqrt f col row width height = 0 := by
  have hN := cast_window_pos (R := R) width height hw hh
  have havg : gwy_data_field_area_get_avg f col row width height = c := by
    unfold gwy_data_field_area_get_avg
    rw [windowLoop_zero, windowSum_congr width height _ (fun _ _ => c) hc,
      windowSum_const width height (by omega) (by omega)]
    field_simp
  unfold gwy_data_field_area_get_rms
  simp only [windowLoop_zero, havg]
  rw [windowSum_congr width height _ (fun _ _ => (0 : R))
    (fun i j h1 h2 h3 h4 => by rw [hc i j h1 h2 h3 h4]; ring),
    windowSum_const width height (by omega) (by omega), mul_zero, zero_div]
  exact sqrt_zero_of_isSqrt hs

/-- On a valid geometry the scorer returns 0 when the area rms of either window
is zero. -/
theorem score_zero_of_rms_zero (sqrt : R → R) (data_field kernel_field : GwyDataField R)
    (col row kernel_col kernel_row kernel_width kernel_height : Int)
    (hw : 1 ≤ kernel_width) (hh : 1 ≤ kernel_height)
    (hcol : 0 ≤ col) (hcolw : col + kernel_width ≤ data_field.xres)
    (hrow : 0 ≤ row) (hrowh : row + kernel_height ≤ data_field.yres)
    (hkcol : 0 ≤ kernel_col) (hkcolw : kernel_col + kernel_width ≤ kernel_field.xres)
    (hkrow : 0 ≤ kernel_row) (hkrowh : kernel_row + kernel_height ≤ kernel_field.yres)
    (hzero : gwy_data_field_area_get_rms sqrt data_field col row kernel_width kernel_height = 0
      ∨ gwy_data_field_area_get_rms sqrt kernel_field kernel_col kernel_row
          kernel_width kernel_height = 0) :
    gwy_data_field_get_correlation_score sqrt data_field kernel_field
        col row kernel_col kernel_row kernel_width kernel_height = 0 := by
  have g1 : ¬ (kernel_col > kernel_field.xres ∨ kernel_row > kernel_field.yres) := by omega
  have g2 : ¬ (col < 0 ∨ row < 0 ∨ col + kernel_width > data_field.xres
      ∨ row + kernel_height > data_field.yres) := by omega
  have g3 : ¬ (kernel_col < 0 ∨ kernel_row < 0 ∨ kernel_col + kernel_width > kernel_field.xres
      ∨ kernel_row + kernel_height > kernel_field.yres) := by omega
  unfold gwy_data_field_get_correlation_score
  simp only [g1, g2, g3, if_false]
  split_ifs with z1 z2
  · rfl
  · rfl
  · rcases hzero with h | h
    · exact absurd h z1
    · exact absurd h z2

/-- The one-shot map holds 0 at a position where the kernel fits and the rms of
the kernel or of the data window under it is zero. -/
theorem correlate_NORMAL_zero_rms (sqrt : R → R)
    (data_field kernel_field score : GwyDataField R)
    (hkx : 1 ≤ kernel_field.xres) (hky : 1 ≤ kernel_field.yres)
    (hx : kernel_field.xres ≤ data_field.xres) (hy : kernel_field.yres ≤ data_field.yres)
    (i j : Int) (hfit : kernel_fits data_field kernel_field i j)
    (hzero : gwy_data_field_get_rms sqrt kernel_field = 0
      ∨ gwy_data_field_area_get_rms sqrt data_field
          (j - Int.tdiv (kernel_field.xres - 1) 2) (i - Int.tdiv (kernel_field.yres - 1) 2)
          kernel_field.xres kernel_field.yres = 0) :
    (gwy_data_field_correlate_NORMAL sqrt data_field kernel_field score).data
        (i * data_field.xres + j) = 0 := by
  have hxo := tdiv_two (kernel_field.xres - 1) (by omega)
  have hyo := tdiv_two (kernel_field.yres - 1) (by omega)
  rw [correlate_NORMAL_at_fit sqrt data_field kernel_field score hkx hky hx hy i j hfit]
  unfold kernel_fits at hfit
  apply score_zero_of_rms_zero sqrt data_field kernel_field _ _ 0 0 _ _ hkx hky
    (by omega) (by omega) (by omega) (by omega) le_rfl (by omega) le_rfl (by omega)
  rcases hzero with h | h
  · exact Or.inr h
  · exact Or.inl h

/-- Statement C14: for a kernel of positive size that fits into the data field,
the one-shot NORMAL map holds exactly 0 at every position where the kernel fits
and the kernel's global rms is zero or the rms of the data window under the
kernel is zero; and the 8 x 8 all-zero field correlated with the 3 x 3
all-zero kernel gives 0 at each of the 36 valid positions (rows and columns 1
to 6). -/
theorem C14_degenerate_positions_hold_zero (sqrt : R → R) (hs : IsSqrt sqrt)
    (data_field kernel_field score : GwyDataField R)
    (hkx : 1 ≤ kernel_field.xres) (hky : 1 ≤ kernel_field.yres)
    (hx : kernel_field.xres ≤ data_field.xres) (hy : kernel_field.yres ≤ data_field.yres)
    (hsx : score.xres = data_field.xres) (hsy : score.yres = data_field.yres) :
    (∀ i j : Int,
        Int.tdiv (kernel_field.yres - 1) 2 ≤ i →
        i ≤ data_field.yres - kernel_field.yres + Int.tdiv (kernel_field.yres - 1) 2 →
        Int.tdiv (kernel_field.xres - 1) 2 ≤ j →
        j ≤ data_field.xres - kernel_field.xres + Int.tdiv (kernel_field.xres - 1) 2 →
        (gwy_data_field_get_rms sqrt kernel_field = 0
          ∨ gwy_data_field_area_get_rms sqrt data_field
              (j - Int.tdiv (kernel_field.xres - 1) 2) (i - Int.tdiv (kernel_field.yres - 1) 2)
              kernel_field.xres kernel_field.yres = 0) →
        (gwy_data_field_correlate_NORMAL sqrt data_field kernel_field score).data
          (i * score.xres + j) = 0)
      ∧ (∀ (score8 : GwyDataField R) (i j : Int), 1 ≤ i → i ≤ 6 → 1 ≤ j → j ≤ 6 →
          (gwy_data_field_correlate_NORMAL sqrt (constantField 8 8 0) (constantField 3 3 0)
            score8).data (i * 8 + j) = 0) := by
  constructor
  · intro i j h1 h2 h3 h4 hzero
    rw [hsx]
    exact correlate_NORMAL_zero_rms sqrt data_field kernel_field score hkx hky hx hy i j
      (by unfold kernel_fits; omega) hzero
  · intro score8 i j h1 h2 h3 h4
    have hfit : kernel_fits (constantField 8 8 (0 : R)) (constantField 3 3 (0 : R)) i j := by
      have e : Int.tdiv ((3 : Int) - 1) 2 = 1 := by decide
      unfold kernel_fits
      show Int.tdiv ((3 : Int) - 1) 2 ≤ i ∧ i + 3 - Int.tdiv ((3 : Int) - 1) 2 ≤ 8
        ∧ Int.tdiv ((3 : Int) - 1) 2 ≤ j ∧ j + 3 - Int.tdiv ((3 : Int) - 1) 2 ≤ 8
      rw [e]
      omega
    have hk : gwy_data_field_get_rms sqrt (constantField 3 3 (0 : R)) = 0 := by
      unfold gwy_data_field_get_rms
      exact area_get_rms_of_const hs (constantField 3 3 (0 : R)) 0 0 3 3 (by decide) (by decide)
        0 (fun _ _ _ _ _ _ => rfl)
    exact correlate_NORMAL_zero_rms sqrt (constantField 8 8 (0 : R)) (constantField 3 3 (0 : R))
      score8 (by simp [constantField]) (by simp [constantField]) (by simp [constantField])
      (by simp [constantField]) i j hfit (Or.inl hk)

/-- A concrete instance of C14 over the real numbers: the 8 x 8 all-zero field
and the 3 x 3 all-zero kernel, at row 1, column 1. -/
theorem C14_degenerate_positions_hold_zero_witness :
    (gwy_data_field_correlate_NORMAL Real.sqrt (constantField 8 8 0) (constantField 3 3 0)
      (constantField 8 8 (5 : ℝ))).data (1 * 8 + 1) = 0 :=
  (C14_degenerate_positions_hold_zero Real.sqrt isSqrt_real (constantField 8 8 0)
    (constantField 3 3 0) (constantField 8 8 5) (by decide) (by decide) (by decide) (by decide)
    rfl rfl).2 (constantField 8 8 5) 1 1 (by decide) (by decide) (by decide) (by decide)

/-! ## Statement C15: the bright square against the all-ones kernel -/

/-- The one-shot map of any 16 x 16 field against the 4 x 4 all-ones kernel:
0 where the kernel fits (rows and columns 1 to 13), -1 elsewhere. -/
theorem correlate_NORMAL_ones_kernel {sqrt : R → R} (hs : IsSqrt sqrt)
    (data_field score : GwyDataField R)
    (hdx : data_field.xres = 16) (hdy : data_field.yres = 16)
    (hsx : score.xres = 16) (hsy : score.yres = 16)
    (i j : Int) (hi : 0 ≤ i) (hi2 : i < 16) (hj : 0 ≤ j) (hj2 : j < 16) :
    (gwy_data_field_correlate_NORMAL sqrt data_field (constantField 4 4 1) score).data
        (i * 16 + j)
      = if 1 ≤ i ∧ i ≤ 13 ∧ 1 ≤ j ∧ j ≤ 13 then 0 else -1 := by
  have e : Int.tdiv ((4 : Int) - 1) 2 = 1 := by decide
  have hfit : kernel_fits data_field (constantField 4 4 (1 : R)) i j
      ↔ (1 ≤ i ∧ i ≤ 13 ∧ 1 ≤ j ∧ j ≤ 13) := by
    unfold kernel_fits
    show (Int.tdiv ((4 : Int) - 1) 2 ≤ i ∧ i + 4 - Int.tdiv ((4 : Int) - 1) 2 ≤ data_field.yres
      ∧ Int.tdiv ((4 : Int) - 1) 2 ≤ j ∧ j + 4 - Int.tdiv ((4 : Int) - 1) 2 ≤ data_field.xres)
      ↔ _
    rw [e, hdx, hdy]
    omega
  have hk : gwy_data_field_get_rms sqrt (constantField 4 4 (1 : R)) = 0 := by
    unfold gwy_data_field_get_rms
    exact area_get_rms_of_const hs (constantField 4 4 (1 : R)) 0 0 4 4 (by decide) (by decide)
      1 (fun _ _ _ _ _ _ => rfl)
  have h16 : i * 16 + j = i * data_field.xres + j := by rw [hdx]
  rw [h16]
  by_cases hv : 1 ≤ i ∧ i ≤ 13 ∧ 1 ≤ j ∧ j ≤ 13
  · rw [if_pos hv]
    exact correlate_NORMAL_zero_rms sqrt data_field (constantField 4 4 (1 : R)) score
      (by simp [constantField]) (by simp [constantField])
      (by simp [constantField, hdx]) (by simp [constantField, hdy]) i j (hfit.mpr hv)
      (Or.inl hk)
  · rw [if_neg hv]
    exact correlate_NORMAL_off_fit sqrt data_field (constantField 4 4 (1 : R)) score
      (by simp [constantField]) (by simp [constantField])
      (by rw [hsx, hdx]) (by rw [hsy, hdy]) i j hi (by omega) hj (by omega)
      (fun h => hv (hfit.mp h))

/-- Statement C15, as amended: for the 16 x 16 field that is zero except for a
4 x 4 square of constant height with top-left corner `(c, r)`, the one-shot
NORMAL map against the 4 x 4 all-ones kernel is 0 at every position where the
kernel fits (rows and columns 1 to 13), because the all-ones kernel has zero
rms, and -1 at every other sample; its maximum 0 is attained at `(c+1, r+1)`
and equally at all other fitting positions, so it does not locate the
square. -/
theorem C15_ones_kernel_map_is_flat (sqrt : R → R) (hs : IsSqrt sqrt)
    (c r : Int) (height : R) (score : GwyDataField R)
    (hc : 0 ≤ c) (hc2 : c ≤ 12) (hr : 0 ≤ r) (hr2 : r ≤ 12)
    (hsx : score.xres = 16) (hsy : score.yres = 16) :
    (∀ i j : Int, 1 ≤ i → i ≤ 13 → 1 ≤ j → j ≤ 13 →
        (gwy_data_field_correlate_NORMAL sqrt (brightSquareField c r height)
          (constantField 4 4 1) score).data (i * 16 + j) = 0)
      ∧ (∀ i j : Int, 0 ≤ i → i < 16 → 0 ≤ j → j < 16 →
          ¬ (1 ≤ i ∧ i ≤ 13 ∧ 1 ≤ j ∧ j ≤ 13) →
          (gwy_data_field_correlate_NORMAL sqrt (brightSquareField c r height)
            (constantField 4 4 1) score).data (i * 16 + j) = -1)
      ∧ (∀ i j : Int, 0 ≤ i → i < 16 → 0 ≤ j → j < 16 →
          (gwy_data_field_correlate_NORMAL sqrt (brightSquareField c r height)
            (constantField 4 4 1) score).data (i * 16 + j)
          ≤ (gwy_data_field_correlate_NORMAL sqrt (brightSquareField c r height)
            (constantField 4 4 1) score).data ((r + 1) * 16 + (c + 1))) := by
  have key := fun (i j : Int) (h1 : 0 ≤ i) (h2 : i < 16) (h3 : 0 ≤ j) (h4 : j < 16) =>
    correlate_NORMAL_ones_kernel hs (brightSquareField c r height) score rfl rfl hsx hsy
      i j h1 h2 h3 h4
  refine ⟨?_, ?_, ?_⟩
  · intro i j h1 h2 h3 h4
    rw [key i j (by omega) (by omega) (by omega) (by omega), if_pos ⟨h1, h2, h3, h4⟩]
  · intro i j h1 h2 h3 h4 hv
    rw [key i j h1 h2 h3 h4, if_neg hv]
  · intro i j h1 h2 h3 h4
    have hsq := key (r + 1) (c + 1) (by omega) (by omega) (by omega) (by omega)
    rw [if_pos ⟨by omega, by omega, by omega, by omega⟩] at hsq
    rw [hsq, key i j h1 h2 h3 h4]
    split_ifs
    · exact le_rfl
    · norm_num

/-- A concrete instance of the amended C15: the square of height 2 at column 3,
row 5. -/
theorem C15_ones_kernel_map_is_flat_witness :
    (gwy_data_field_correlate_NORMAL Real.sqrt (brightSquareField 3 5 2)
      (constantField 4 4 1) (constantField 16 16 0)).data (9 * 16 + 9) = 0 :=
  (C15_ones_kernel_map_is_flat Real.sqrt isSqrt_real 3 5 2 (constantField 16 16 0)
    (by decide) (by decide) (by decide) (by decide) rfl rfl).1 9 9
    (by decide) (by decide) (by decide) (by decide)

/-- The claim C15 fails for the square of height 1 at column 0, row 0: the
sample at row 13, column 13, twelve pixels away from the sample (1, 1) that
represents the square, holds the same value 0 as the sample (1, 1) and is a
maximum of the score map. -/
theorem C15_counterexample :
    (gwy_data_field_correlate_NORMAL Real.sqrt (brightSquareField 0 0 1)
        (constantField 4 4 1) (constantField 16 16 0)).data (1 * 16 + 1) = 0
      ∧ (gwy_data_field_correlate_NORMAL Real.sqrt (brightSquareField 0 0 1)
        (constantField 4 4 1) (constantField 16 16 0)).data (13 * 16 + 13) = 0
      ∧ ∀ i j : Int, 0 ≤ i → i < 16 → 0 ≤ j → j < 16 →
          (gwy_data_field_correlate_NORMAL Real.sqrt (brightSquareField 0 0 1)
            (constantField 4 4 1) (constantField 16 16 0)).data (i * 16 + j)
          ≤ (gwy_data_field_correlate_NORMAL Real.sqrt (brightSquareField 0 0 1)
            (constantField 4 4 1) (constantField 16 16 0)).data (13 * 16 + 13) := by
  have key := fun (i j : Int) (h1 : 0 ≤ i) (h2 : i < 16) (h3 : 0 ≤ j) (h4 : j < 16) =>
    correlate_NORMAL_ones_kernel isSqrt_real (brightSquareField 0 0 (1 : ℝ))
      (constantField 16 16 0) rfl rfl rfl rfl i j h1 h2 h3 h4
  have h13 := key 13 13 (by decide) (by decide) (by decide) (by decide)
  rw [if_pos (by decide)] at h13
  have h1 := key 1 1 (by decide) (by decide) (by decide) (by decide)
  rw [if_pos (by decide)] at h1
  refine ⟨h1, h13, ?_⟩
  intro i j a b c d
  rw [h13, key i j a b c d]
  split_ifs
  · exact le_rfl
  · norm_num

/-! ## Statement C20: the initialising call of the cross-correlation iterator -/

theorem clear_spec (f : GwyDataField R) :
    (gwy_data_field_clear f).xres = f.xres ∧ (gwy_data_field_clear f).yres = f.yres
      ∧ ∀ k, 0 ≤ k → k < f.xres * f.yres → (gwy_data_field_clear f).data k = 0 := by
  refine ⟨rfl, rfl, fun k h1 h2 => ?_⟩
  unfold gwy_data_field_clear gwy_data_field_fill
  simp only [h1, h2, and_self, if_true]

/-- The call of the cross-correlation iterator in state `Init`. -/
theorem crosscorrelate_iteration_init (sqrt : R → R) (G_MAXDOUBLE : R)
    (gwy_math_refine_maximum : (Int → R) → Bool × R × R)
    (c : GwyCrossCorrelationState R) (h : c.cs.state = GWY_COMPUTATION_STATE_INIT) :
    gwy_data_field_crosscorrelate_iteration sqrt G_MAXDOUBLE gwy_math_refine_maximum c
      = some
        { c with
          x_dist := c.x_dist.map gwy_data_field_clear
          y_dist := c.y_dist.map gwy_data_field_clear
          score := c.score.map gwy_data_field_clear
          cs := { state := GWY_COMPUTATION_STATE_ITERATE, fraction := 0 }
          i := Int.tdiv c.window_width 2 + 1
          j := Int.tdiv c.window_height 2 + 1 } := by
  unfold gwy_data_field_crosscorrelate_iteration
  simp only [h]

/-- Statement C20: for every cross-correlation job created by
`gwy_data_field_crosscorrelate_init`, the first iteration call returns with
every provided output field cleared (same dimensions, every sample zero) and
nothing else stored in it, the state `Iterate`, the fraction 0, the cursor
`(window_width/2 + 1, window_height/2 + 1)`, and the input fields, the weights
and the geometry unchanged. -/
theorem C20_cross_init_call (sqrt : R → R) (G_MAXDOUBLE : R)
    (gwy_math_refine_maximum : (Int → R) → Bool × R × R)
    (data_field1 data_field2 : GwyDataField R)
    (x_dist y_dist score : Option (GwyDataField R))
    (search_width search_height window_width window_height : Int)
    (hdx : data_field1.xres = data_field2.xres) (hdy : data_field1.yres = data_field2.yres) :
    ∃ c0 c1,
      gwy_data_field_crosscorrelate_init data_field1 data_field2 x_dist y_dist score
          search_width search_height window_width window_height = some c0
        ∧ c0.cs.state = GWY_COMPUTATION_STATE_INIT
        ∧ gwy_data_field_crosscorrelate_iteration sqrt G_MAXDOUBLE gwy_math_refine_maximum c0
          = some c1
        ∧ c1.cs.state = GWY_COMPUTATION_STATE_ITERATE
        ∧ c1.cs.fraction = 0
        ∧ c1.i = Int.tdiv window_width 2 + 1
        ∧ c1.j = Int.tdiv window_height 2 + 1
        ∧ c1.x_dist = x_dist.map gwy_data_field_clear
        ∧ c1.y_dist = y_dist.map gwy_data_field_clear
        ∧ c1.score = score.map gwy_data_field_clear
        ∧ (∀ f : GwyDataField R,
            (gwy_data_field_clear f).xres = f.xres ∧ (gwy_data_field_clear f).yres = f.yres
              ∧ ∀ k, 0 ≤ k → k < f.xres * f.yres → (gwy_data_field_clear f).data k = 0)
        ∧ c1.data_field1 = data_field1 ∧ c1.data_field2 = data_field2
        ∧ c1.weights = c0.weights
        ∧ c1.search_width = search_width ∧ c1.search_height = search_height
        ∧ c1.window_width = window_width ∧ c1.window_height = window_height := by
  have hinit : gwy_data_field_crosscorrelate_init data_field1 data_field2 x_dist y_dist score
      search_width search_height window_width window_height
      = some
        { cs := { state := GWY_COMPUTATION_STATE_INIT, fraction := 0 }
          data_field1 := data_field1
          data_field2 := data_field2
          x_dist := x_dist
          y_dist := y_dist
          score := score
          search_width := search_width
          search_height := search_height
          window_width := window_width
          window_height := window_height
          weights :=
            gwy_data_field_fill
              (gwy_data_field_new window_width window_height (window_width : R)
                (window_height : R))
              1
          i := 0
          j := 0 } := by
    unfold gwy_data_field_crosscorrelate_init
    simp only [hdx, hdy, and_self, not_true_eq_false, if_false]
  refine ⟨_, _, hinit, rfl, crosscorrelate_iteration_init sqrt G_MAXDOUBLE
    gwy_math_refine_maximum _ rfl, rfl, rfl, rfl, rfl, rfl, rfl, rfl, clear_spec, rfl, rfl, rfl,
    rfl, rfl, rfl, rfl⟩

/-- A concrete instance of C20: two 5 x 5 fields, a score field and no
displacement fields. -/
theorem C20_cross_init_call_witness :
    ∃ c0 c1,
      gwy_data_field_crosscorrelate_init (fieldOfList 5 5 ([] : List ℝ)) (fieldOfList 5 5 [])
          none none (some (fieldOfList 5 5 [7])) 3 3 1 1 = some c0
        ∧ gwy_data_field_crosscorrelate_iteration Real.sqrt 1000 (fun _ => (false, 0, 0)) c0
          = some c1
        ∧ c1.cs.state = GWY_COMPUTATION_STATE_ITERATE
        ∧ c1.i = Int.tdiv 1 2 + 1
        ∧ c1.score = (some (fieldOfList 5 5 [7])).map gwy_data_field_clear := by
  obtain ⟨c0, c1, h1, -, h3, h4, -, h6, -, -, -, h10, -⟩ :=
    C20_cross_init_call Real.sqrt 1000 (fun _ => (false, 0, 0))
      (fieldOfList 5 5 ([] : List ℝ)) (fieldOfList 5 5 []) none none
      (some (fieldOfList 5 5 [7])) 3 3 1 1 rfl rfl
  exact ⟨c0, c1, h1, h3, h4, h6, h10⟩
/-! ## The call of the cross-correlation iterator in state `Iterate` -/

theorem crosscorrelate_iteration_iterate_no_dist (sqrt : R → R) (G_MAXDOUBLE : R)
    (gwy_math_refine_maximum : (Int → R) → Bool × R × R)
    (c : GwyCrossCorrelationState R) (h : c.cs.state = GWY_COMPUTATION_STATE_ITERATE)
    (hx : c.x_dist = none) :
    gwy_data_field_crosscorrelate_iteration sqrt G_MAXDOUBLE gwy_math_refine_maximum c
      = some
        { crosscorrelate_advance c with
          score := c.score.map (fun f => f.store (c.i + c.data_field1.xres * c.j)
            (crosscorrelate_search sqrt G_MAXDOUBLE c c.i c.j).1) } := by
  unfold gwy_data_field_crosscorrelate_iteration crosscorrelate_advance
  simp only [h, hx]

theorem crosscorrelate_iteration_iterate_dist (sqrt : R → R) (G_MAXDOUBLE : R)
    (gwy_math_refine_maximum : (Int → R) → Bool × R × R)
    (c : GwyCrossCorrelationState R) (xd yd : GwyDataField R)
    (h : c.cs.state = GWY_COMPUTATION_STATE_ITERATE)
    (hx : c.x_dist = some xd) (hy : c.y_dist = some yd) :
    gwy_data_field_crosscorrelate_iteration sqrt G_MAXDOUBLE gwy_math_refine_maximum c
      = some
        { crosscorrelate_advance c with
          score := c.score.map (fun f => f.store (c.i + c.data_field1.xres * c.j)
            (crosscorrelate_search sqrt G_MAXDOUBLE c c.i c.j).1)
          x_dist := some (xd.store (c.i + c.data_field1.xres * c.j)
            (((crosscorrelate_refined sqrt G_MAXDOUBLE gwy_math_refine_maximum c).1 - (c.i : R))
              * c.data_field1.xreal / (c.data_field1.xres : R)))
          y_dist := some (yd.store (c.i + c.data_field1.xres * c.j)
            (((crosscorrelate_refined sqrt G_MAXDOUBLE gwy_math_refine_maximum c).2 - (c.j : R))
              * c.data_field1.yreal / (c.data_field1.yres : R))) } := by
  unfold gwy_data_field_crosscorrelate_iteration crosscorrelate_advance crosscorrelate_refined
  simp only [h, hx, hy]

theorem crosscorrelate_search_eq (sqrt : R → R) (G_MAXDOUBLE : R)
    (c : GwyCrossCorrelationState R) (col row : Int) :
    crosscorrelate_search sqrt G_MAXDOUBLE c col row
      = forRange
        (max 0 (row - Int.tdiv c.search_height 2 - Int.tdiv c.window_height 2))
        (min (c.data_field1.yres - c.window_height)
          (row + Int.tdiv c.search_height 2 - Int.tdiv c.window_height 2))
        (fun best m =>
          forRange
            (max 0 (col - Int.tdiv c.search_width 2 - Int.tdiv c.window_width 2))
            (min (c.data_field1.xres - c.window_width)
              (col + Int.tdiv c.search_width 2 - Int.tdiv c.window_width 2))
            (fun best n =>
              if crosscorrelate_candidate_score sqrt c col row n m > best.1 then
                (crosscorrelate_candidate_score sqrt c col row n m,
                  n + Int.tdiv c.window_width 2, m + Int.tdiv c.window_height 2)
              else best)
            best)
        (-G_MAXDOUBLE, col, row) := rfl

/-! ## The running maximum of the search -/

theorem BestOf_init (f : Int → Int → R) (a b : Int → Int) (init : R × Int × Int)
    (S : Int → Int → Prop) (hS : ∀ n m, ¬ S n m) : BestOf f a b init S init :=
  ⟨fun n m h => absurd h (hS n m), le_rfl, Or.inl rfl⟩

theorem BestOf_congr {f : Int → Int → R} {a b : Int → Int} {init best : R × Int × Int}
    {S S2 : Int → Int → Prop} (h : BestOf f a b init S best) (hS : ∀ n m, S2 n m ↔ S n m) :
    BestOf f a b init S2 best := by
  refine ⟨fun n m hnm => h.1 n m ((hS n m).mp hnm), h.2.1, ?_⟩
  rcases h.2.2 with h0 | ⟨n, m, hnm, e⟩
  · exact Or.inl h0
  · exact Or.inr ⟨n, m, (hS n m).mpr hnm, e⟩

theorem BestOf_step {f : Int → Int → R} {a b : Int → Int} {init best : R × Int × Int}
    {S : Int → Int → Prop} (h : BestOf f a b init S best) (n0 m0 : Int) :
    BestOf f a b init (fun n m => S n m ∨ (n = n0 ∧ m = m0))
      (if f n0 m0 > best.1 then (f n0 m0, a n0, b m0) else best) := by
  by_cases hgt : f n0 m0 > best.1
  · rw [if_pos hgt]
    refine ⟨?_, ?_, Or.inr ⟨n0, m0, Or.inr ⟨rfl, rfl⟩, rfl⟩⟩
    · rintro n m (hnm | ⟨e1, e2⟩)
      · exact le_trans (h.1 n m hnm) hgt.le
      · rw [e1, e2]
    · exact le_trans h.2.1 hgt.le
  · rw [if_neg hgt]
    refine ⟨?_, h.2.1, ?_⟩
    · rintro n m (hnm | ⟨e1, e2⟩)
      · exact h.1 n m hnm
      · rw [e1, e2]
        exact not_lt.mp hgt
    · rcases h.2.2 with h0 | ⟨n, m, hnm, e⟩
      · exact Or.inl h0
      · exact Or.inr ⟨n, m, Or.inl hnm, e⟩

/-- The result of the search loops is the running maximum over all
candidates. -/
theorem crosscorrelate_search_bestOf (sqrt : R → R) (G_MAXDOUBLE : R)
    (c : GwyCrossCorrelationState R) (col row : Int) :
    BestOf (crosscorrelate_candidate_score sqrt c col row)
      (fun n => n + Int.tdiv c.window_width 2) (fun m => m + Int.tdiv c.window_height 2)
      (-G_MAXDOUBLE, col, row) (crosscorrelate_candidate c col row)
      (crosscorrelate_search sqrt G_MAXDOUBLE c col row) := by
  rw [crosscorrelate_search_eq]
  generalize hmlo : max 0 (row - Int.tdiv c.search_height 2 - Int.tdiv c.window_height 2)
    = mlo
  generalize hmhi : min (c.data_field1.yres - c.window_height)
    (row + Int.tdiv c.search_height 2 - Int.tdiv c.window_height 2) = mhi
  generalize hnlo : max 0 (col - Int.tdiv c.search_width 2 - Int.tdiv c.window_width 2)
    = nlo
  generalize hnhi : min (c.data_field1.xres - c.window_width)
    (col + Int.tdiv c.search_width 2 - Int.tdiv c.window_width 2) = nhi
  have hcand : ∀ n m, crosscorrelate_candidate c col row n m
      ↔ (mlo ≤ m ∧ m < mhi ∧ nlo ≤ n ∧ n < nhi) := by
    intro n m
    unfold crosscorrelate_candidate
    rw [hmlo, hmhi, hnlo, hnhi]
  have outer := forRange_induction mlo mhi
    (fun best m =>
      forRange nlo nhi
        (fun best n =>
          if crosscorrelate_candidate_score sqrt c col row n m > best.1 then
            (crosscorrelate_candidate_score sqrt c col row n m,
              n + Int.tdiv c.window_width 2, m + Int.tdiv c.window_height 2)
          else best)
        best)
    (-G_MAXDOUBLE, col, row)
    (fun m best => BestOf (crosscorrelate_candidate_score sqrt c col row)
      (fun n => n + Int.tdiv c.window_width 2) (fun m => m + Int.tdiv c.window_height 2)
      (-G_MAXDOUBLE, col, row)
      (fun n2 m2 => (mlo ≤ m2 ∧ m2 < mhi ∧ nlo ≤ n2 ∧ n2 < nhi) ∧ m2 < m) best)
    (BestOf_init _ _ _ _ _ (fun n m h => by omega))
    (by
      intro m best hlo hhi hInv
      have inner := forRange_induction nlo nhi
        (fun best n =>
          if crosscorrelate_candidate_score sqrt c col row n m > best.1 then
            (crosscorrelate_candidate_score sqrt c col row n m,
              n + Int.tdiv c.window_width 2, m + Int.tdiv c.window_height 2)
          else best)
        best
        (fun n best => BestOf (crosscorrelate_candidate_score sqrt c col row)
          (fun n => n + Int.tdiv c.window_width 2) (fun m => m + Int.tdiv c.window_height 2)
          (-G_MAXDOUBLE, col, row)
          (fun n2 m2 => (mlo ≤ m2 ∧ m2 < mhi ∧ nlo ≤ n2 ∧ n2 < nhi)
            ∧ (m2 < m ∨ (m2 = m ∧ n2 < n))) best)
        (BestOf_congr hInv (fun n2 m2 => by
          constructor
          · rintro ⟨hf, h | ⟨h1, h2⟩⟩
            · exact ⟨hf, h⟩
            · omega
          · rintro ⟨hf, h⟩
            exact ⟨hf, Or.inl h⟩))
        (by
          intro n best2 hnlo2 hnhi2 hInv2
          refine BestOf_congr (BestOf_step hInv2 n m) (fun n2 m2 => ?_)
          constructor
          · rintro ⟨hf, h | ⟨h1, h2⟩⟩
            · exact Or.inl ⟨hf, Or.inl h⟩
            · by_cases hn : n2 = n
              · exact Or.inr ⟨hn, h1⟩
              · exact Or.inl ⟨hf, Or.inr ⟨h1, by omega⟩⟩
          · rintro (⟨hf, h⟩ | ⟨h1, h2⟩)
            · refine ⟨hf, ?_⟩
              rcases h with h | ⟨h1, h2⟩
              · exact Or.inl h
              · exact Or.inr ⟨h1, by omega⟩
            · subst h1 h2
              exact ⟨⟨hlo, hhi, hnlo2, hnhi2⟩, Or.inr ⟨rfl, by omega⟩⟩)
      refine BestOf_congr inner (fun n2 m2 => ?_)
      constructor
      · rintro ⟨hf, h⟩
        refine ⟨hf, ?_⟩
        by_cases hm : m2 = m
        · exact Or.inr ⟨hm, by omega⟩
        · exact Or.inl (by omega)
      · rintro ⟨hf, h | ⟨h1, h2⟩⟩
        · exact ⟨hf, by omega⟩
        · exact ⟨hf, by omega⟩)
  refine BestOf_congr outer (fun n2 m2 => ?_)
  rw [hcand]
  constructor
  · intro hf
    exact ⟨hf, by omega⟩
  · rintro ⟨hf, _⟩
    exact hf

/-! ## Statement C16: the stored score is the best candidate score -/

theorem g_maxdouble_gt_two : (2 : R) < g_maxdouble := by
  unfold g_maxdouble
  norm_num

/-- Statement C16, as amended: for a cross-correlation job in state `Iterate`
at the grid point `(col, row)` that has a score field, whose call returns
(`y_dist` present or `x_dist` absent), whose search loops have at least one
candidate, every candidate score being above `-G_MAXDOUBLE`: after the call the
stored `score[col + xres*row]` is the maximum of the candidate scores (weighted
score after the tie-break factor) and the chosen `(colmax, rowmax)` is the
centre of a candidate that attains it. -/
theorem C16_stored_score_is_best_candidate (sqrt : R → R) (G_MAXDOUBLE : R)
    (gwy_math_refine_maximum : (Int → R) → Bool × R × R)
    (c : GwyCrossCorrelationState R) (f : GwyDataField R)
    (h : c.cs.state = GWY_COMPUTATION_STATE_ITERATE) (hscore : c.score = some f)
    (hcfg : c.x_dist = none ∨ c.y_dist ≠ none)
    (hne : ∃ n m, crosscorrelate_candidate c c.i c.j n m)
    (hG : ∀ n m, crosscorrelate_candidate c c.i c.j n m →
      -G_MAXDOUBLE < crosscorrelate_candidate_score sqrt c c.i c.j n m) :
    ∃ c2 f2 n0 m0,
      gwy_data_field_crosscorrelate_iteration sqrt G_MAXDOUBLE gwy_math_refine_maximum c
          = some c2
        ∧ c2.score = some f2
        ∧ f2.data (c.i + c.data_field1.xres * c.j)
          = crosscorrelate_candidate_score sqrt c c.i c.j n0 m0
        ∧ crosscorrelate_candidate c c.i c.j n0 m0
        ∧ (∀ n m, crosscorrelate_candidate c c.i c.j n m →
            crosscorrelate_candidate_score sqrt c c.i c.j n m
              ≤ crosscorrelate_candidate_score sqrt c c.i c.j n0 m0)
        ∧ crosscorrelate_search sqrt G_MAXDOUBLE c c.i c.j
          = (crosscorrelate_candidate_score sqrt c c.i c.j n0 m0,
              n0 + Int.tdiv c.window_width 2, m0 + Int.tdiv c.window_height 2) := by
  have bo := crosscorrelate_search_bestOf sqrt G_MAXDOUBLE c c.i c.j
  obtain ⟨n1, m1, hc1⟩ := hne
  have hlt : -G_MAXDOUBLE < (crosscorrelate_search sqrt G_MAXDOUBLE c c.i c.j).1 :=
    lt_of_lt_of_le (hG n1 m1 hc1) (bo.1 n1 m1 hc1)
  rcases bo.2.2 with h0 | ⟨n0, m0, hc0, e⟩
  · rw [h0] at hlt
    exact absurd hlt (lt_irrefl _)
  · have hmax : ∀ n m, crosscorrelate_candidate c c.i c.j n m →
        crosscorrelate_candidate_score sqrt c c.i c.j n m
          ≤ crosscorrelate_candidate_score sqrt c c.i c.j n0 m0 := by
      intro n m hnm
      have := bo.1 n m hnm
      rw [e] at this
      exact this
    have hstore : (f.store (c.i + c.data_field1.xres * c.j)
        (crosscorrelate_search sqrt G_MAXDOUBLE c c.i c.j).1).data
          (c.i + c.data_field1.xres * c.j)
        = crosscorrelate_candidate_score sqrt c c.i c.j n0 m0 := by
      show Function.update f.data _ _ _ = _
      rw [Function.update_same, e]
    rcases hx : c.x_dist with _ | xd
    · refine ⟨_, _, n0, m0,
        crosscorrelate_iteration_iterate_no_dist sqrt G_MAXDOUBLE gwy_math_refine_maximum c h hx,
        ?_, hstore, hc0, hmax, e⟩
      simp only [hscore, Option.map_some']
    · rcases hy : c.y_dist with _ | yd
      · rcases hcfg with h1 | h1
        · rw [hx] at h1
          exact absurd h1 (by simp)
        · exact absurd hy h1
      · refine ⟨_, _, n0, m0,
          crosscorrelate_iteration_iterate_dist sqrt G_MAXDOUBLE gwy_math_refine_maximum c
            xd yd h hx hy,
          ?_, hstore, hc0, hmax, e⟩
        simp only [hscore, Option.map_some']

/-- The claim C16 fails for a job with search area 1 x 1 (two 5 x 5 fields,
window 1 x 1, grid point `(1, 1)`): the search loops have no candidate, the
chosen offset stays `(col, row)`, and the stored score is `-G_MAXDOUBLE`, the
score of no candidate. -/
theorem C16_counterexample :
    (∀ n m : Int, ¬ crosscorrelate_candidate
        (sampleNarrowSearchState : GwyCrossCorrelationState ℝ) 1 1 n m)
      ∧ crosscorrelate_search Real.sqrt g_maxdouble
          (sampleNarrowSearchState : GwyCrossCorrelationState ℝ) 1 1 = (-g_maxdouble, 1, 1)
      ∧ ∃ c2 f2, gwy_data_field_crosscorrelate_iteration Real.sqrt g_maxdouble
            (fun _ => (false, 0, 0)) (sampleNarrowSearchState : GwyCrossCorrelationState ℝ)
            = some c2
          ∧ c2.score = some f2 ∧ f2.data (1 + 5 * 1) = -g_maxdouble := by
  have hnone : ∀ n m : Int, ¬ crosscorrelate_candidate
      (sampleNarrowSearchState : GwyCrossCorrelationState ℝ) 1 1 n m := by
    intro n m hc
    have e : Int.tdiv (1 : Int) 2 = 0 := by decide
    unfold crosscorrelate_candidate at hc
    have hc1 : max 0 ((1 : Int) - Int.tdiv 1 2 - Int.tdiv 1 2) ≤ m := hc.1
    have hc2 : m < min ((5 : Int) - 1) (1 + Int.tdiv 1 2 - Int.tdiv 1 2) := hc.2.1
    rw [e] at hc1 hc2
    simp at hc1 hc2
    omega
  have hsearch : crosscorrelate_search Real.sqrt g_maxdouble
      (sampleNarrowSearchState : GwyCrossCorrelationState ℝ) 1 1 = (-g_maxdouble, 1, 1) := by
    have bo := crosscorrelate_search_bestOf Real.sqrt g_maxdouble
      (sampleNarrowSearchState : GwyCrossCorrelationState ℝ) 1 1
    rcases bo.2.2 with h0 | ⟨n0, m0, hc0, -⟩
    · exact h0
    · exact absurd hc0 (hnone n0 m0)
  refine ⟨hnone, hsearch, _, _,
    crosscorrelate_iteration_iterate_no_dist Real.sqrt g_maxdouble (fun _ => (false, 0, 0))
      sampleNarrowSearchState rfl rfl, rfl, ?_⟩
  show Function.update (fieldOfList 5 5 ([] : List ℝ)).data ((1 : Int) + 5 * 1)
    (crosscorrelate_search Real.sqrt g_maxdouble
      (sampleNarrowSearchState : GwyCrossCorrelationState ℝ) 1 1).1 ((1 : Int) + 5 * 1)
    = -g_maxdouble
  rw [Function.update_same, hsearch]

/-! ## The self-correlation samples -/

theorem tdiv_small : Int.tdiv (1 : Int) 2 = 0 ∧ Int.tdiv (2 : Int) 2 = 1
    ∧ Int.tdiv (3 : Int) 2 = 1 := by decide

theorem crosscorrelate_init_eq (data_field1 data_field2 : GwyDataField R)
    (x_dist y_dist score : Option (GwyDataField R))
    (search_width search_height window_width window_height : Int)
    (hdx : data_field1.xres = data_field2.xres) (hdy : data_field1.yres = data_field2.yres) :
    gwy_data_field_crosscorrelate_init data_field1 data_field2 x_dist y_dist score
        search_width search_height window_width window_height
      = some
        { cs := { state := GWY_COMPUTATION_STATE_INIT, fraction := 0 }
          data_field1 := data_field1
          data_field2 := data_field2
          x_dist := x_dist
          y_dist := y_dist
          score := score
          search_width := search_width
          search_height := search_height
          window_width := window_width
          window_height := window_height
          weights :=
            gwy_data_field_fill
              (gwy_data_field_new window_width window_height (window_width : R)
                (window_height : R))
              1
          i := 0
          j := 0 } := by
  unfold gwy_data_field_crosscorrelate_init
  simp only [hdx, hdy, and_self, not_true_eq_false, if_false]

/-- The job of a field against itself after `gwy_data_field_crosscorrelate_init`
and the initialising call. -/
theorem sample_job_init (sqrt : R → R) (G_MAXDOUBLE : R)
    (gwy_math_refine_maximum : (Int → R) → Bool × R × R) (F : GwyDataField R) :
    ∃ c0, gwy_data_field_crosscorrelate_init F F (some (constantField 5 3 0))
          (some (constantField 5 3 0)) (some (constantField 5 3 0)) 3 3 2 1 = some c0
      ∧ gwy_data_field_crosscorrelate_iteration sqrt G_MAXDOUBLE gwy_math_refine_maximum c0
        = some (sampleSelfCorrelationState F) := by
  refine ⟨_, crosscorrelate_init_eq F F _ _ _ 3 3 2 1 rfl rfl, ?_⟩
  rw [crosscorrelate_iteration_init sqrt G_MAXDOUBLE gwy_math_refine_maximum _ rfl]
  simp only [sampleSelfCorrelationState, Option.map_some', tdiv_small]
  norm_num

theorem sample_candidates (F : GwyDataField R) (hx : F.xres = 5) (hy : F.yres = 3) (n m : Int) :
    crosscorrelate_candidate (sampleSelfCorrelationState F) 2 1 n m
      ↔ (0 ≤ m ∧ m < 2 ∧ 0 ≤ n ∧ n < 2) := by
  unfold crosscorrelate_candidate
  show (max 0 ((1 : Int) - Int.tdiv 3 2 - Int.tdiv 1 2) ≤ m
    ∧ m < min (F.yres - 1) (1 + Int.tdiv 3 2 - Int.tdiv 1 2)
    ∧ max 0 ((2 : Int) - Int.tdiv 3 2 - Int.tdiv 2 2) ≤ n
    ∧ n < min (F.xres - 2) (2 + Int.tdiv 3 2 - Int.tdiv 2 2)) ↔ _
  simp only [tdiv_small, hx, hy]
  norm_num

/-- The candidate scores of the repeating field against itself at the grid
point `(2, 1)`: the displaced candidate `(0, 0)` scores 1 and is scaled, the
unshifted candidate `(1, 1)` scores 1 and is not scaled. -/
theorem sample_candidate_scores :
    crosscorrelate_candidate_score Real.sqrt
        (sampleSelfCorrelationState (sampleRepeatingField : GwyDataField ℝ)) 2 1 0 0
        = 10001 / 10000
      ∧ crosscorrelate_candidate_score Real.sqrt
        (sampleSelfCorrelationState (sampleRepeatingField : GwyDataField ℝ)) 2 1 1 0 = -1
      ∧ crosscorrelate_candidate_score Real.sqrt
        (sampleSelfCorrelationState (sampleRepeatingField : GwyDataField ℝ)) 2 1 0 1 = 0
      ∧ crosscorrelate_candidate_score Real.sqrt
        (sampleSelfCorrelationState (sampleRepeatingField : GwyDataField ℝ)) 2 1 1 1 = 1 := by
  refine ⟨?_, ?_, ?_, ?_⟩ <;>
    norm_num [crosscorrelate_candidate_score, sampleSelfCorrelationState, tdiv_small,
      gwy_data_field_get_weighted_correlation_score, gwy_data_field_get_sum, windowLoop,
      forRange_step, forRange_done, sampleRepeatingField, gwy_data_field_fill,
      gwy_data_field_new]

/-- The candidate scores of a flat field against itself are all zero. -/
theorem flat_candidate_scores (n m : Int) (hn : 0 ≤ n) (hn2 : n < 2) (hm : 0 ≤ m)
    (hm2 : m < 2) :
    crosscorrelate_candidate_score Real.sqrt
        (sampleSelfCorrelationState (constantField 5 3 (7 : ℝ))) 2 1 n m = 0 := by
  have hn3 : n = 0 ∨ n = 1 := by omega
  have hm3 : m = 0 ∨ m = 1 := by omega
  rcases hn3 with rfl | rfl <;> rcases hm3 with rfl | rfl <;>
    norm_num [crosscorrelate_candidate_score, sampleSelfCorrelationState, tdiv_small,
      gwy_data_field_get_weighted_correlation_score, gwy_data_field_get_sum, windowLoop,
      forRange_step, forRange_done, constantField, gwy_data_field_fill,
      gwy_data_field_new]

/-- The search loops of the samples, with the bounds evaluated. -/
theorem sample_search_eq (F : GwyDataField ℝ) (hx : F.xres = 5) (hy : F.yres = 3) :
    crosscorrelate_search Real.sqrt g_maxdouble (sampleSelfCorrelationState F) 2 1
      = forRange 0 2
        (fun best m =>
          forRange 0 2
            (fun best n =>
              if crosscorrelate_candidate_score Real.sqrt (sampleSelfCorrelationState F) 2 1 n m
                  > best.1 then
                (crosscorrelate_candidate_score Real.sqrt (sampleSelfCorrelationState F) 2 1 n m,
                  n + 1, m + 0)
              else best)
            best)
        (-g_maxdouble, 2, 1) := by
  rw [crosscorrelate_search_eq]
  show forRange (max 0 ((1 : Int) - Int.tdiv 3 2 - Int.tdiv 1 2))
      (min (F.yres - 1) (1 + Int.tdiv 3 2 - Int.tdiv 1 2))
      (fun best m =>
        forRange (max 0 ((2 : Int) - Int.tdiv 3 2 - Int.tdiv 2 2))
          (min (F.xres - 2) (2 + Int.tdiv 3 2 - Int.tdiv 2 2))
          (fun best n =>
            if crosscorrelate_candidate_score Real.sqrt (sampleSelfCorrelationState F) 2 1 n m
                > best.1 then
              (crosscorrelate_candidate_score Real.sqrt (sampleSelfCorrelationState F) 2 1 n m,
                n + Int.tdiv 2 2, m + Int.tdiv 1 2)
            else best)
          best)
      (-g_maxdouble, 2, 1) = _
  simp only [tdiv_small, hx, hy]
  norm_num

/-- The search of the repeating field against itself at the grid point `(2, 1)`
ends on the displaced candidate `(0, 0)`, whose centre is `(1, 0)`. -/
theorem sample_search :
    crosscorrelate_search Real.sqrt g_maxdouble
        (sampleSelfCorrelationState (sampleRepeatingField : GwyDataField ℝ)) 2 1
      = (10001 / 10000, 1, 0) := by
  obtain ⟨s00, s10, s01, s11⟩ := sample_candidate_scores
  have hg : (10001 / 10000 : ℝ) > -g_maxdouble := by
    have := g_maxdouble_gt_two (R := ℝ)
    linarith
  rw [sample_search_eq _ rfl rfl]
  norm_num [forRange_step, forRange_done, s00, s10, s01, s11, hg]

/-- The search of a flat field against itself at the grid point `(2, 1)` ends
on the first candidate `(0, 0)`, whose centre is `(1, 0)`. -/
theorem flat_search :
    crosscorrelate_search Real.sqrt g_maxdouble
        (sampleSelfCorrelationState (constantField 5 3 (7 : ℝ))) 2 1
      = (0, 1, 0) := by
  have hg : (0 : ℝ) > -g_maxdouble := by
    have := g_maxdouble_gt_two (R := ℝ)
    linarith
  rw [sample_search_eq _ rfl rfl]
  norm_num [forRange_step, forRange_done, flat_candidate_scores, hg]

/-! ## Statements C16 (instance), C17, C18: the self-correlation samples -/

/-- A concrete instance of the amended C16: the repeating field against itself
at its grid point `(2, 1)`. -/
theorem C16_stored_score_is_best_candidate_witness :
    ∃ c2 f2 n0 m0,
      gwy_data_field_crosscorrelate_iteration Real.sqrt g_maxdouble (fun _ => (false, 0, 0))
          (sampleSelfCorrelationState (sampleRepeatingField : GwyDataField ℝ)) = some c2
        ∧ c2.score = some f2
        ∧ f2.data (2 + 5 * 1)
          = crosscorrelate_candidate_score Real.sqrt
              (sampleSelfCorrelationState (sampleRepeatingField : GwyDataField ℝ)) 2 1 n0 m0
        ∧ crosscorrelate_candidate
            (sampleSelfCorrelationState (sampleRepeatingField : GwyDataField ℝ)) 2 1 n0 m0 := by
  obtain ⟨c2, f2, n0, m0, h1, h2, h3, h4, -⟩ :=
    C16_stored_score_is_best_candidate Real.sqrt g_maxdouble (fun _ => (false, 0, 0))
      (sampleSelfCorrelationState (sampleRepeatingField : GwyDataField ℝ))
      (gwy_data_field_clear (constantField 5 3 0)) rfl rfl
      (Or.inr (by simp [sampleSelfCorrelationState]))
      ⟨0, 0, (sample_candidates sampleRepeatingField rfl rfl 0 0).mpr
        ⟨le_rfl, by decide, le_rfl, by decide⟩⟩
      (fun n m hc => by
        have hr := (sample_candidates (sampleRepeatingField : GwyDataField ℝ) rfl rfl n m).mp hc
        obtain ⟨s00, s10, s01, s11⟩ := sample_candidate_scores
        have hg := g_maxdouble_gt_two (R := ℝ)
        have hn3 : n = 0 ∨ n = 1 := by omega
        have hm3 : m = 0 ∨ m = 1 := by omega
        show -g_maxdouble < crosscorrelate_candidate_score Real.sqrt
          (sampleSelfCorrelationState (sampleRepeatingField : GwyDataField ℝ)) 2 1 n m
        rcases hn3 with rfl | rfl <;> rcases hm3 with rfl | rfl
        · rw [s00]; linarith
        · rw [s01]; linarith
        · rw [s10]; linarith
        · rw [s11]; linarith)
  exact ⟨c2, f2, n0, m0, h1, h2, h3, h4⟩

/-- Statement C17, the code at a failing input: in the job of the repeating
field against itself at the grid point `(2, 1)` (window 2 x 1), the unshifted
candidate is `(1, 1)`; its weighted score 1 enters the comparison unscaled,
while the score 1 of the candidate `(0, 0)`, displaced by one pixel in each
direction, is multiplied by 1.0001. -/
theorem C17_scaled_candidate_is_the_corner_candidate :
    ((2 : Int) - Int.tdiv 2 2 = 1 ∧ (1 : Int) - Int.tdiv 1 2 = 1)
      ∧ crosscorrelate_candidate
          (sampleSelfCorrelationState (sampleRepeatingField : GwyDataField ℝ)) 2 1 1 1
      ∧ crosscorrelate_candidate
          (sampleSelfCorrelationState (sampleRepeatingField : GwyDataField ℝ)) 2 1 0 0
      ∧ gwy_data_field_get_weighted_correlation_score Real.sqrt
          (sampleRepeatingField : GwyDataField ℝ) sampleRepeatingField
          (gwy_data_field_fill (gwy_data_field_new 2 1 2 1) 1) 1 1 1 1 2 1 = 1
      ∧ crosscorrelate_candidate_score Real.sqrt
          (sampleSelfCorrelationState (sampleRepeatingField : GwyDataField ℝ)) 2 1 1 1 = 1
      ∧ gwy_data_field_get_weighted_correlation_score Real.sqrt
          (sampleRepeatingField : GwyDataField ℝ) sampleRepeatingField
          (gwy_data_field_fill (gwy_data_field_new 2 1 2 1) 1) 1 1 0 0 2 1 = 1
      ∧ crosscorrelate_candidate_score Real.sqrt
          (sampleSelfCorrelationState (sampleRepeatingField : GwyDataField ℝ)) 2 1 0 0
        = 1 * (10001 / 10000) := by
  obtain ⟨s00, s10, s01, s11⟩ := sample_candidate_scores
  refine ⟨by decide,
    (sample_candidates sampleRepeatingField rfl rfl 1 1).mpr (by decide),
    (sample_candidates sampleRepeatingField rfl rfl 0 0).mpr (by decide), ?_, s11, ?_, ?_⟩
  · norm_num [gwy_data_field_get_weighted_correlation_score, gwy_data_field_get_sum,
      windowLoop, forRange_step, forRange_done, sampleRepeatingField, gwy_data_field_fill,
      gwy_data_field_new]
  · norm_num [gwy_data_field_get_weighted_correlation_score, gwy_data_field_get_sum,
      windowLoop, forRange_step, forRange_done, sampleRepeatingField, gwy_data_field_fill,
      gwy_data_field_new]
  · rw [s00, one_mul]

/-- The call of the self-correlation sample at its only grid point, given the
result `(s, 1, 0)` of its search: the job finishes and the displacements stored
at the grid point are those of the peak `(1, 0)`, moved by what the refinement
returns. -/
theorem sample_iterate (gwy_math_refine_maximum : (Int → ℝ) → Bool × ℝ × ℝ)
    (F : GwyDataField ℝ) (hx : F.xres = 5) (hy : F.yres = 3) (hxr : F.xreal = 1)
    (hyr : F.yreal = 1) (s : ℝ)
    (hsearch : crosscorrelate_search Real.sqrt g_maxdouble (sampleSelfCorrelationState F) 2 1
      = (s, 1, 0)) :
    ∃ c2 fx fy,
      gwy_data_field_crosscorrelate_iteration Real.sqrt g_maxdouble gwy_math_refine_maximum
          (sampleSelfCorrelationState F) = some c2
        ∧ c2.cs.state = GWY_COMPUTATION_STATE_FINISHED
        ∧ c2.x_dist = some fx ∧ c2.y_dist = some fy
        ∧ fx.data (2 + 5 * 1)
          = ((if (gwy_math_refine_maximum
                  (crosscorrelate_scores Real.sqrt (sampleSelfCorrelationState F) 2 1 s 1 0)).1
                then 1 + (gwy_math_refine_maximum
                  (crosscorrelate_scores Real.sqrt (sampleSelfCorrelationState F) 2 1 s 1 0)).2.1
                else 1) - 2) * 1 / 5
        ∧ fy.data (2 + 5 * 1)
          = ((if (gwy_math_refine_maximum
                  (crosscorrelate_scores Real.sqrt (sampleSelfCorrelationState F) 2 1 s 1 0)).1
                then 0 + (gwy_math_refine_maximum
                  (crosscorrelate_scores Real.sqrt (sampleSelfCorrelationState F) 2 1 s 1 0)).2.2
                else 0) - 1) * 1 / 3 := by
  have hsearch2 : crosscorrelate_search Real.sqrt g_maxdouble (sampleSelfCorrelationState F)
      (sampleSelfCorrelationState F).i (sampleSelfCorrelationState F).j = (s, 1, 0) := hsearch
  have href : crosscorrelate_refined Real.sqrt g_maxdouble gwy_math_refine_maximum
      (sampleSelfCorrelationState F)
      = (if (gwy_math_refine_maximum
              (crosscorrelate_scores Real.sqrt (sampleSelfCorrelationState F) 2 1 s 1 0)).1
            then 1 + (gwy_math_refine_maximum
              (crosscorrelate_scores Real.sqrt (sampleSelfCorrelationState F) 2 1 s 1 0)).2.1
            else 1,
          if (gwy_math_refine_maximum
              (crosscorrelate_scores Real.sqrt (sampleSelfCorrelationState F) 2 1 s 1 0)).1
            then 0 + (gwy_math_refine_maximum
              (crosscorrelate_scores Real.sqrt (sampleSelfCorrelationState F) 2 1 s 1 0)).2.2
            else 0) := by
    unfold crosscorrelate_refined
    simp only [hsearch2]
    norm_num
    constructor <;> rfl
  refine ⟨_, _, _,
    crosscorrelate_iteration_iterate_dist Real.sqrt g_maxdouble gwy_math_refine_maximum
      (sampleSelfCorrelationState F) _ _ rfl rfl rfl, ?_, rfl, rfl, ?_, ?_⟩
  · simp [crosscorrelate_advance, sampleSelfCorrelationState, tdiv_small, hx, hy]
  · show Function.update _ _ _ _ = _
    rw [href]
    simp [sampleSelfCorrelationState, hx, hxr, Function.update_same]
    rw [hx]
    exact Function.update_same _ _ _
  · show Function.update _ _ _ _ = _
    rw [href]
    simp [sampleSelfCorrelationState, hx, hy, hyr, Function.update_same]
    rw [hx]
    exact Function.update_same _ _ _

/-- Statement C18, the code at a failing input: for the repeating 5 x 3 field
against itself (window 2 x 1, search area 3 x 3, one grid point `(2, 1)`), and
likewise for a flat field, the job finishes after the initialising call and one
further call; the search ends on the peak `(1, 0)`, one pixel left of and above
the grid point, and the stored displacements are `(ipos - 2)/5` and
`(jpos - 1)/3` with `(ipos, jpos)` the peak `(1, 0)` moved by what
`gwy_math_refine_maximum` returns: `-1/5` and `-1/3` when the refinement fails,
and zero only if it moves the peak by a whole pixel along each axis. -/
theorem C18_self_correlation_is_displaced :
    ∀ gwy_math_refine_maximum : (Int → ℝ) → Bool × ℝ × ℝ,
      (∃ c0 c2 fx fy,
        gwy_data_field_crosscorrelate_init (sampleRepeatingField : GwyDataField ℝ)
            sampleRepeatingField (some (constantField 5 3 0)) (some (constantField 5 3 0))
            (some (constantField 5 3 0)) 3 3 2 1 = some c0
          ∧ crosscorrelate_calls Real.sqrt g_maxdouble gwy_math_refine_maximum 2 c0 = some c2
          ∧ c2.cs.state = GWY_COMPUTATION_STATE_FINISHED
          ∧ crosscorrelate_search Real.sqrt g_maxdouble
              (sampleSelfCorrelationState (sampleRepeatingField : GwyDataField ℝ)) 2 1
            = (10001 / 10000, 1, 0)
          ∧ c2.x_dist = some fx ∧ c2.y_dist = some fy
          ∧ fx.data (2 + 5 * 1)
            = ((if (gwy_math_refine_maximum
                    (crosscorrelate_scores Real.sqrt
                      (sampleSelfCorrelationState sampleRepeatingField) 2 1
                      (10001 / 10000) 1 0)).1
                  then 1 + (gwy_math_refine_maximum
                    (crosscorrelate_scores Real.sqrt
                      (sampleSelfCorrelationState sampleRepeatingField) 2 1
                      (10001 / 10000) 1 0)).2.1
                  else 1) - 2) * 1 / 5
          ∧ fy.data (2 + 5 * 1)
            = ((if (gwy_math_refine_maximum
                    (crosscorrelate_scores Real.sqrt
                      (sampleSelfCorrelationState sampleRepeatingField) 2 1
                      (10001 / 10000) 1 0)).1
                  then 0 + (gwy_math_refine_maximum
                    (crosscorrelate_scores Real.sqrt
                      (sampleSelfCorrelationState sampleRepeatingField) 2 1
                      (10001 / 10000) 1 0)).2.2
                  else 0) - 1) * 1 / 3)
        ∧ (∃ c0 c2 fx fy,
          gwy_data_field_crosscorrelate_init (constantField 5 3 (7 : ℝ))
              (constantField 5 3 7) (some (constantField 5 3 0)) (some (constantField 5 3 0))
              (some (constantField 5 3 0)) 3 3 2 1 = some c0
            ∧ crosscorrelate_calls Real.sqrt g_maxdouble gwy_math_refine_maximum 2 c0 = some c2
            ∧ c2.cs.state = GWY_COMPUTATION_STATE_FINISHED
            ∧ crosscorrelate_search Real.sqrt g_maxdouble
                (sampleSelfCorrelationState (constantField 5 3 (7 : ℝ))) 2 1 = (0, 1, 0)
            ∧ c2.x_dist = some fx ∧ c2.y_dist = some fy
            ∧ fx.data (2 + 5 * 1)
              = ((if (gwy_math_refine_maximum
                      (crosscorrelate_scores Real.sqrt
                        (sampleSelfCorrelationState (constantField 5 3 7)) 2 1 0 1 0)).1
                    then 1 + (gwy_math_refine_maximum
                      (crosscorrelate_scores Real.sqrt
                        (sampleSelfCorrelationState (constantField 5 3 7)) 2 1 0 1 0)).2.1
                    else 1) - 2) * 1 / 5
            ∧ fy.data (2 + 5 * 1)
              = ((if (gwy_math_refine_maximum
                      (crosscorrelate_scores Real.sqrt
                        (sampleSelfCorrelationState (constantField 5 3 7)) 2 1 0 1 0)).1
                    then 0 + (gwy_math_refine_maximum
                      (crosscorrelate_scores Real.sqrt
                        (sampleSelfCorrelationState (constantField 5 3 7)) 2 1 0 1 0)).2.2
                    else 0) - 1) * 1 / 3) := by
  intro gwy_math_refine_maximum
  constructor
  · obtain ⟨c0, hinit, hcall⟩ := sample_job_init Real.sqrt g_maxdouble gwy_math_refine_maximum
      (sampleRepeatingField : GwyDataField ℝ)
    obtain ⟨c2, fx, fy, h1, h2, h3, h4, h5, h6⟩ := sample_iterate gwy_math_refine_maximum
      (sampleRepeatingField : GwyDataField ℝ) rfl rfl rfl rfl _ sample_search
    refine ⟨c0, c2, fx, fy, hinit, ?_, h2, sample_search, h3, h4, h5, h6⟩
    simp only [crosscorrelate_calls, Option.some_bind, hcall, h1]
  · obtain ⟨c0, hinit, hcall⟩ := sample_job_init Real.sqrt g_maxdouble gwy_math_refine_maximum
      (constantField 5 3 (7 : ℝ))
    obtain ⟨c2, fx, fy, h1, h2, h3, h4, h5, h6⟩ := sample_iterate gwy_math_refine_maximum
      (constantField 5 3 (7 : ℝ)) rfl rfl rfl rfl _ flat_search
    refine ⟨c0, c2, fx, fy, hinit, ?_, h2, flat_search, h3, h4, h5, h6⟩
    simp only [crosscorrelate_calls, Option.some_bind, hcall, h1]

/-! ## Statement C19: the fraction of the cross-correlation iterator -/

/-- A call in state `Iterate` of a job without output fields only moves the
cursor, the state and the fraction. -/
theorem crosscorrelate_iteration_iterate_no_output (sqrt : R → R) (G_MAXDOUBLE : R)
    (gwy_math_refine_maximum : (Int → R) → Bool × R × R)
    (c : GwyCrossCorrelationState R) (h : c.cs.state = GWY_COMPUTATION_STATE_ITERATE)
    (hx : c.x_dist = none) (hs : c.score = none) :
    gwy_data_field_crosscorrelate_iteration sqrt G_MAXDOUBLE gwy_math_refine_maximum c
      = some (crosscorrelate_advance c) := by
  rw [crosscorrelate_iteration_iterate_no_dist sqrt G_MAXDOUBLE gwy_math_refine_maximum c h hx]
  simp only [hs, Option.map_none']
  congr 1
  unfold crosscorrelate_advance
  simp only [hs]

/-- The calls of the odd-window sample in state `Iterate`. -/
theorem sampleOddWindow_iterate (sqrt : R → R) (G_MAXDOUBLE : R)
    (gwy_math_refine_maximum : (Int → R) → Bool × R × R) (fraction : R) (i j : Int) :
    gwy_data_field_crosscorrelate_iteration sqrt G_MAXDOUBLE gwy_math_refine_maximum
        (sampleOddWindowState GWY_COMPUTATION_STATE_ITERATE fraction i j)
      = some (sampleOddWindowState
          (if i + 1 = 3 ∧ j + 1 = 3 then GWY_COMPUTATION_STATE_FINISHED
            else GWY_COMPUTATION_STATE_ITERATE)
          (min (fraction + 1) 1)
          (if i + 1 = 3 then 1 else i + 1) (if i + 1 = 3 then j + 1 else j)) := by
  rw [crosscorrelate_iteration_iterate_no_output sqrt G_MAXDOUBLE gwy_math_refine_maximum _
    rfl rfl rfl]
  have e : Int.tdiv (1 : Int) 2 = 0 := by decide
  unfold crosscorrelate_advance sampleOddWindowState
  simp only [constantField, e]
  by_cases hw : i + 1 = 3
  · by_cases hj : j + 1 = 3
    · simp [hw, hj]
    · simp [hw, hj]
  · simp [hw]

/-- Statement C19, the code at a failing input: the job of a 4 x 4 field against
itself with the odd window 1 x 1 has four grid points (columns and rows 1 and
2) and is `Finished` after the initialising call and four further calls, but
its fraction is already 1 after the first of the four, where `n/total` is
1/4, and stays 1 while the state is still `Iterate`. -/
theorem C19_odd_window_fraction_reaches_one_early :
    ∀ gwy_math_refine_maximum : (Int → ℝ) → Bool × ℝ × ℝ, ∃ c0,
      gwy_data_field_crosscorrelate_init (constantField 4 4 (0 : ℝ)) (constantField 4 4 0)
          none none none 3 3 1 1 = some c0
        ∧ crosscorrelate_calls Real.sqrt g_maxdouble gwy_math_refine_maximum 1 c0
          = some (sampleOddWindowState GWY_COMPUTATION_STATE_ITERATE 0 1 1)
        ∧ crosscorrelate_calls Real.sqrt g_maxdouble gwy_math_refine_maximum 2 c0
          = some (sampleOddWindowState GWY_COMPUTATION_STATE_ITERATE 1 2 1)
        ∧ crosscorrelate_calls Real.sqrt g_maxdouble gwy_math_refine_maximum 3 c0
          = some (sampleOddWindowState GWY_COMPUTATION_STATE_ITERATE 1 1 2)
        ∧ crosscorrelate_calls Real.sqrt g_maxdouble gwy_math_refine_maximum 4 c0
          = some (sampleOddWindowState GWY_COMPUTATION_STATE_ITERATE 1 2 2)
        ∧ crosscorrelate_calls Real.sqrt g_maxdouble gwy_math_refine_maximum 5 c0
          = some (sampleOddWindowState GWY_COMPUTATION_STATE_FINISHED 1 1 3)
        ∧ (sampleOddWindowState GWY_COMPUTATION_STATE_ITERATE (1 : ℝ) 2 1).cs.fraction
          ≠ 1 / 4 := by
  intro gwy_math_refine_maximum
  have h1 : gwy_data_field_crosscorrelate_iteration Real.sqrt g_maxdouble
      gwy_math_refine_maximum (sampleOddWindowState GWY_COMPUTATION_STATE_INIT 0 0 0)
      = some (sampleOddWindowState GWY_COMPUTATION_STATE_ITERATE (0 : ℝ) 1 1) := by
    rw [crosscorrelate_iteration_init Real.sqrt g_maxdouble _ _ rfl]
    simp [sampleOddWindowState, tdiv_small]
  have hstep := sampleOddWindow_iterate Real.sqrt g_maxdouble gwy_math_refine_maximum
  have h2 := hstep 0 1 1
  have h3 := hstep 1 2 1
  have h4 := hstep 1 1 2
  have h5 := hstep 1 2 2
  norm_num at h2 h3 h4 h5
  have c1 : crosscorrelate_calls Real.sqrt g_maxdouble gwy_math_refine_maximum 1
      (sampleOddWindowState GWY_COMPUTATION_STATE_INIT (0 : ℝ) 0 0)
      = some (sampleOddWindowState GWY_COMPUTATION_STATE_ITERATE 0 1 1) := by
    simp only [crosscorrelate_calls, Option.some_bind, h1]
  have c2 : crosscorrelate_calls Real.sqrt g_maxdouble gwy_math_refine_maximum 2
      (sampleOddWindowState GWY_COMPUTATION_STATE_INIT (0 : ℝ) 0 0)
      = some (sampleOddWindowState GWY_COMPUTATION_STATE_ITERATE 1 2 1) := by
    rw [crosscorrelate_calls, c1, Option.some_bind, h2]
  have c3 : crosscorrelate_calls Real.sqrt g_maxdouble gwy_math_refine_maximum 3
      (sampleOddWindowState GWY_COMPUTATION_STATE_INIT (0 : ℝ) 0 0)
      = some (sampleOddWindowState GWY_COMPUTATION_STATE_ITERATE 1 1 2) := by
    rw [crosscorrelate_calls, c2, Option.some_bind, h3]
  have c4 : crosscorrelate_calls Real.sqrt g_maxdouble gwy_math_refine_maximum 4
      (sampleOddWindowState GWY_COMPUTATION_STATE_INIT (0 : ℝ) 0 0)
      = some (sampleOddWindowState GWY_COMPUTATION_STATE_ITERATE 1 2 2) := by
    rw [crosscorrelate_calls, c3, Option.some_bind, h4]
  have c5 : crosscorrelate_calls Real.sqrt g_maxdouble gwy_math_refine_maximum 5
      (sampleOddWindowState GWY_COMPUTATION_STATE_INIT (0 : ℝ) 0 0)
      = some (sampleOddWindowState GWY_COMPUTATION_STATE_FINISHED 1 1 3) := by
    rw [crosscorrelate_calls, c4, Option.some_bind, h5]
  refine ⟨sampleOddWindowState GWY_COMPUTATION_STATE_INIT 0 0 0, ?_, c1, c2, c3, c4, c5, ?_⟩
  · rw [crosscorrelate_init_eq _ _ _ _ _ 3 3 1 1 rfl rfl]
    simp [sampleOddWindowState]
  · show (1 : ℝ) ≠ 1 / 4
    norm_num

/-! ## Statement C21: the weights of a cross-correlation job -/

/-- Statement C21: `gwy_data_field_crosscorrelate_set_weights` called on a job
in state `Iterate` or `Finished` returns the job unchanged (weights and every
other member); called on a job in state `Init` it changes the weights only, to
the windowed all-ones field; and the job that
`gwy_data_field_crosscorrelate_init` returns is in state `Init` with a weights
field of `window_width` columns and `window_height` rows whose samples are all
1. -/
theorem C21_set_weights_only_in_init
    (gwy_fft_window_data_field :
      GwyDataField R → GwyOrientation → GwyWindowingType → GwyDataField R)
    (c : GwyCrossCorrelationState R) (type : GwyWindowingType) :
    (c.cs.state = GWY_COMPUTATION_STATE_ITERATE ∨ c.cs.state = GWY_COMPUTATION_STATE_FINISHED →
        gwy_data_field_crosscorrelate_set_weights gwy_fft_window_data_field c type = c)
      ∧ (c.cs.state = GWY_COMPUTATION_STATE_INIT →
          gwy_data_field_crosscorrelate_set_weights gwy_fft_window_data_field c type
            = { c with
                weights :=
                  gwy_fft_window_data_field
                    (gwy_fft_window_data_field (gwy_data_field_fill c.weights 1)
                      GwyOrientation.GWY_ORIENTATION_HORIZONTAL type)
                    GwyOrientation.GWY_ORIENTATION_VERTICAL type })
      ∧ ∀ (data_field1 data_field2 : GwyDataField R)
          (x_dist y_dist score : Option (GwyDataField R))
          (search_width search_height window_width window_height : Int)
          (c0 : GwyCrossCorrelationState R),
          gwy_data_field_crosscorrelate_init data_field1 data_field2 x_dist y_dist score
              search_width search_height window_width window_height = some c0 →
            c0.cs.state = GWY_COMPUTATION_STATE_INIT
              ∧ c0.weights.xres = window_width ∧ c0.weights.yres = window_height
              ∧ ∀ k, 0 ≤ k → k < window_width * window_height → c0.weights.data k = 1 := by
  refine ⟨?_, ?_, ?_⟩
  · intro h
    unfold gwy_data_field_crosscorrelate_set_weights
    rcases h with h | h <;> simp [h]
  · intro h
    unfold gwy_data_field_crosscorrelate_set_weights
    simp [h]
  · intro data_field1 data_field2 x_dist y_dist score search_width search_height
      window_width window_height c0 h0
    unfold gwy_data_field_crosscorrelate_init at h0
    split_ifs at h0 with hd
    cases h0
    refine ⟨rfl, rfl, rfl, ?_⟩
    intro k hk0 hk1
    show (if 0 ≤ k ∧ k < window_width * window_height then (1 : R) else 0) = 1
    rw [if_pos ⟨hk0, hk1⟩]

/-- A concrete instance of C21: the sample job in state `Iterate` keeps its
weights under a windowing function that would set every weight to 5, and the
job that `gwy_data_field_crosscorrelate_init` returns for two 4 x 4 fields and
the window 1 x 1 has the single weight 1. -/
theorem C21_set_weights_only_in_init_witness :
    gwy_data_field_crosscorrelate_set_weights
          (fun f _ _ => gwy_data_field_fill f 5)
          (sampleSelfCorrelationState (sampleRepeatingField : GwyDataField ℝ)) 3
        = sampleSelfCorrelationState sampleRepeatingField
      ∧ (sampleOddWindowState GWY_COMPUTATION_STATE_INIT (0 : ℝ) 0 0).weights.data 0 = 1 :=
  ⟨(C21_set_weights_only_in_init (fun f _ _ => gwy_data_field_fill f 5)
      (sampleSelfCorrelationState (sampleRepeatingField : GwyDataField ℝ)) 3).1 (Or.inl rfl),
    ((C21_set_weights_only_in_init (fun f _ _ => gwy_data_field_fill f 5)
      (sampleSelfCorrelationState (sampleRepeatingField : GwyDataField ℝ)) 3).2.2
      (constantField 4 4 0) (constantField 4 4 0) none none none 3 3 1 1
      (sampleOddWindowState GWY_COMPUTATION_STATE_INIT 0 0 0)
      (by
        rw [crosscorrelate_init_eq _ _ _ _ _ 3 3 1 1 rfl rfl]
        simp [sampleOddWindowState])).2.2.2 0 le_rfl (by decide)⟩

/-! ## Loops that may fail -/

theorem forRange_none {α : Type} (lo hi : Int) (body : Option α → Int → Option α)
    (hnone : ∀ i, body none i = none) : forRange lo hi body none = none := by
  have h := forRange_induction lo hi body none (fun _ a => a = none) rfl
    (fun i a _ _ ha => by rw [ha]; exact hnone i)
  exact h

theorem forRange_none_of_fail {α : Type} (lo hi : Int) (body : Option α → Int → Option α)
    (hnone : ∀ i, body none i = none) (t : Int) (hlo : lo ≤ t) (hhi : t < hi)
    (hfail : ∀ a, body a t = none) (init : Option α) : forRange lo hi body init = none := by
  have h := forRange_induction lo hi body init (fun i a => t < i → a = none)
    (fun hlt => absurd hlt (by omega))
    (fun i a _ _ ha hlt => by
      rcases (show t = i ∨ t < i by omega) with rfl | h2
      · exact hfail a
      · rw [ha h2]
        exact hnone i)
  exact h (by
    have : hi ≤ max lo hi := le_max_right lo hi
    omega)

theorem gdouble_div_zero (a : R) : gdouble_div a 0 = none := by
  unfold gdouble_div
  rw [if_pos rfl]

theorem gdouble_div_of_ne (a b : R) (h : b ≠ 0) : gdouble_div a b = some (a / b) := by
  unfold gdouble_div
  rw [if_neg h]

/-! ## Statements C25 and C26: the loop over the frequency bins -/

/-- The bin `i` of the loop in the case `GWY_CORRELATION_FFT`. -/
theorem correlate_spectrum_bin_FFT (hypot : R → R → R) (method : GwyCorrelationType)
    (hm : method ≠ GwyCorrelationType.GWY_CORRELATION_POC)
    (data_out_re data_out_im kernel_out_re kernel_out_im : GwyDataField R)
    (fields : GwyDataField R × GwyDataField R) (i : Int) :
    correlate_spectrum_bin hypot method data_out_re data_out_im kernel_out_re kernel_out_im
        fields i
      = some (fields.1.store i
          (data_out_re.data i * kernel_out_re.data i + data_out_im.data i * kernel_out_im.data i),
        fields.2.store i
          (-data_out_re.data i * kernel_out_im.data i
            + data_out_im.data i * kernel_out_re.data i)) := by
  unfold correlate_spectrum_bin
  simp only [if_neg hm]

/-- The bin `i` of the loop in the case `GWY_CORRELATION_POC`: the two
divisions by `norm`. -/
theorem correlate_spectrum_bin_POC (hypot : R → R → R)
    (data_out_re data_out_im kernel_out_re kernel_out_im : GwyDataField R)
    (fields : GwyDataField R × GwyDataField R) (i : Int) :
    correlate_spectrum_bin hypot GwyCorrelationType.GWY_CORRELATION_POC
        data_out_re data_out_im kernel_out_re kernel_out_im fields i
      = (gdouble_div
          (data_out_re.data i * kernel_out_re.data i + data_out_im.data i * kernel_out_im.data i)
          (hypot
            (data_out_re.data i * kernel_out_re.data i
              + data_out_im.data i * kernel_out_im.data i)
            (-data_out_re.data i * kernel_out_im.data i
              + data_out_im.data i * kernel_out_re.data i))).bind (fun re =>
        (gdouble_div
          (-data_out_re.data i * kernel_out_im.data i + data_out_im.data i * kernel_out_re.data i)
          (hypot
            (data_out_re.data i * kernel_out_re.data i
              + data_out_im.data i * kernel_out_im.data i)
            (-data_out_re.data i * kernel_out_im.data i
              + data_out_im.data i * kernel_out_re.data i))).map (fun im =>
          ((fields.1.store i
              (data_out_re.data i * kernel_out_re.data i
                + data_out_im.data i * kernel_out_im.data i)).store i re,
            (fields.2.store i
              (-data_out_re.data i * kernel_out_im.data i
                + data_out_im.data i * kernel_out_re.data i)).store i im))) := by
  unfold correlate_spectrum_bin
  simp only [if_true, GwyDataField.store, Function.update_same]

/-- The loop over the bins returns, and every bin holds its value, when no
bin of the case `GWY_CORRELATION_POC` has magnitude zero. -/
theorem correlate_spectrum_values (hypot : R → R → R) (method : GwyCorrelationType)
    (xres yres : Int)
    (data_out_re data_out_im kernel_out_re kernel_out_im data_in_re kernel_in_re :
      GwyDataField R)
    (hnz : method = GwyCorrelationType.GWY_CORRELATION_POC →
      ∀ i, 0 ≤ i → i < xres * yres →
        hypot
          (data_out_re.data i * kernel_out_re.data i + data_out_im.data i * kernel_out_im.data i)
          (-data_out_re.data i * kernel_out_im.data i
            + data_out_im.data i * kernel_out_re.data i) ≠ 0) :
    ∃ re im,
      correlate_spectrum hypot method xres yres data_out_re data_out_im kernel_out_re
          kernel_out_im data_in_re kernel_in_re = some (re, im)
        ∧ ∀ i, 0 ≤ i → i < xres * yres →
          re.data i
              = (if method = GwyCorrelationType.GWY_CORRELATION_POC then
                  (data_out_re.data i * kernel_out_re.data i
                      + data_out_im.data i * kernel_out_im.data i)
                    / hypot
                      (data_out_re.data i * kernel_out_re.data i
                        + data_out_im.data i * kernel_out_im.data i)
                      (-data_out_re.data i * kernel_out_im.data i
                        + data_out_im.data i * kernel_out_re.data i)
                else
                  data_out_re.data i * kernel_out_re.data i
                    + data_out_im.data i * kernel_out_im.data i)
            ∧ im.data i
              = (if method = GwyCorrelationType.GWY_CORRELATION_POC then
                  (-data_out_re.data i * kernel_out_im.data i
                      + data_out_im.data i * kernel_out_re.data i)
                    / hypot
                      (data_out_re.data i * kernel_out_re.data i
                        + data_out_im.data i * kernel_out_im.data i)
                      (-data_out_re.data i * kernel_out_im.data i
                        + data_out_im.data i * kernel_out_re.data i)
                else
                  -data_out_re.data i * kernel_out_im.data i
                    + data_out_im.data i * kernel_out_re.data i) := by
  unfold correlate_spectrum
  have h := forRange_induction 0 (xres * yres)
    (fun acc i =>
      acc.bind (fun fields =>
        correlate_spectrum_bin hypot method data_out_re data_out_im kernel_out_re kernel_out_im
          fields i))
    (some (data_in_re, kernel_in_re))
    (fun n acc => ∃ re im, acc = some (re, im)
      ∧ ∀ i, 0 ≤ i → i < n →
          re.data i
              = (if method = GwyCorrelationType.GWY_CORRELATION_POC then
                  (data_out_re.data i * kernel_out_re.data i
                      + data_out_im.data i * kernel_out_im.data i)
                    / hypot
                      (data_out_re.data i * kernel_out_re.data i
                        + data_out_im.data i * kernel_out_im.data i)
                      (-data_out_re.data i * kernel_out_im.data i
                        + data_out_im.data i * kernel_out_re.data i)
                else
                  data_out_re.data i * kernel_out_re.data i
                    + data_out_im.data i * kernel_out_im.data i)
            ∧ im.data i
              = (if method = GwyCorrelationType.GWY_CORRELATION_POC then
                  (-data_out_re.data i * kernel_out_im.data i
                      + data_out_im.data i * kernel_out_re.data i)
                    / hypot
                      (data_out_re.data i * kernel_out_re.data i
                        + data_out_im.data i * kernel_out_im.data i)
                      (-data_out_re.data i * kernel_out_im.data i
                        + data_out_im.data i * kernel_out_re.data i)
                else
                  -data_out_re.data i * kernel_out_im.data i
                    + data_out_im.data i * kernel_out_re.data i))
    ⟨data_in_re, kernel_in_re, rfl, fun i h0 h1 => absurd h1 (by omega)⟩
    (fun n acc hn0 hn1 hacc => by
      obtain ⟨re, im, rfl, hval⟩ := hacc
      simp only [Option.some_bind]
      by_cases hm : method = GwyCorrelationType.GWY_CORRELATION_POC
      · subst hm
        have hz := hnz rfl n hn0 hn1
        rw [correlate_spectrum_bin_POC, gdouble_div_of_ne _ _ hz, Option.some_bind,
          gdouble_div_of_ne _ _ hz, Option.map_some']
        refine ⟨_, _, rfl, ?_⟩
        intro i hi0 hi1
        rcases (show i = n ∨ i < n by omega) with rfl | hlt
        · simp [GwyDataField.store]
        · have hne : i ≠ n := by omega
          simp only [GwyDataField.store, Function.update_noteq hne]
          exact hval i hi0 hlt
      · rw [correlate_spectrum_bin_FFT hypot method hm]
        refine ⟨_, _, rfl, ?_⟩
        intro i hi0 hi1
        rcases (show i = n ∨ i < n by omega) with rfl | hlt
        · simp [GwyDataField.store, hm]
        · have hne : i ≠ n := by omega
          simp only [GwyDataField.store, Function.update_noteq hne]
          exact hval i hi0 hlt)
  obtain ⟨re, im, hres, hval⟩ := h
  refine ⟨re, im, hres, ?_⟩
  intro i hi0 hi1
  exact hval i hi0 (lt_of_lt_of_le hi1 (le_max_right _ _))

/-- Statement C25: in the cases `GWY_CORRELATION_FFT` and `GWY_CORRELATION_POC`
the loop over the frequency bins returns (in the case POC when no bin has
magnitude zero), and in every bin the pair `Re = Ra*Kre + Ia*Kim`,
`Im = -Ra*Kim + Ia*Kre` it forms is the complex product
`(Ra + i*Ia) * conj(Kre + i*Kim)`; in the case FFT this pair is what the bin
holds after the loop, in the case POC the bin holds the pair divided by its
magnitude. -/
theorem C25_cross_spectrum_is_conjugate_product (hypot : ℝ → ℝ → ℝ)
    (method : GwyCorrelationType) (xres yres : Int)
    (data_out_re data_out_im kernel_out_re kernel_out_im data_in_re kernel_in_re :
      GwyDataField ℝ)
    (hm : method = GwyCorrelationType.GWY_CORRELATION_FFT
      ∨ method = GwyCorrelationType.GWY_CORRELATION_POC)
    (hnz : method = GwyCorrelationType.GWY_CORRELATION_POC →
      ∀ i, 0 ≤ i → i < xres * yres →
        hypot
          (data_out_re.data i * kernel_out_re.data i + data_out_im.data i * kernel_out_im.data i)
          (-data_out_re.data i * kernel_out_im.data i
            + data_out_im.data i * kernel_out_re.data i) ≠ 0) :
    ∃ re im,
      correlate_spectrum hypot method xres yres data_out_re data_out_im kernel_out_re
          kernel_out_im data_in_re kernel_in_re = some (re, im)
        ∧ ∀ i, 0 ≤ i → i < xres * yres →
          Complex.mk
              (data_out_re.data i * kernel_out_re.data i
                + data_out_im.data i * kernel_out_im.data i)
              (-data_out_re.data i * kernel_out_im.data i
                + data_out_im.data i * kernel_out_re.data i)
            = Complex.mk (data_out_re.data i) (data_out_im.data i)
              * (starRingEnd ℂ) (Complex.mk (kernel_out_re.data i) (kernel_out_im.data i))
          ∧ (method = GwyCorrelationType.GWY_CORRELATION_FFT →
              re.data i
                  = data_out_re.data i * kernel_out_re.data i
                    + data_out_im.data i * kernel_out_im.data i
                ∧ im.data i
                  = -data_out_re.data i * kernel_out_im.data i
                    + data_out_im.data i * kernel_out_re.data i)
          ∧ (method = GwyCorrelationType.GWY_CORRELATION_POC →
              re.data i
                  = (data_out_re.data i * kernel_out_re.data i
                      + data_out_im.data i * kernel_out_im.data i)
                    / hypot
                      (data_out_re.data i * kernel_out_re.data i
                        + data_out_im.data i * kernel_out_im.data i)
                      (-data_out_re.data i * kernel_out_im.data i
                        + data_out_im.data i * kernel_out_re.data i)
                ∧ im.data i
                  = (-data_out_re.data i * kernel_out_im.data i
                      + data_out_im.data i * kernel_out_re.data i)
                    / hypot
                      (data_out_re.data i * kernel_out_re.data i
                        + data_out_im.data i * kernel_out_im.data i)
                      (-data_out_re.data i * kernel_out_im.data i
                        + data_out_im.data i * kernel_out_re.data i)) := by
  obtain ⟨re, im, hres, hval⟩ := correlate_spectrum_values hypot method xres yres data_out_re
    data_out_im kernel_out_re kernel_out_im data_in_re kernel_in_re hnz
  refine ⟨re, im, hres, ?_⟩
  intro i hi0 hi1
  refine ⟨?_, ?_, ?_⟩
  · apply Complex.ext
    · simp
    · simp
  · intro hf
    have hne : method ≠ GwyCorrelationType.GWY_CORRELATION_POC := by
      rw [hf]
      decide
    have h := hval i hi0 hi1
    rw [if_neg hne, if_neg hne] at h
    exact h
  · intro hp
    have h := hval i hi0 hi1
    rw [if_pos hp, if_pos hp] at h
    exact h

/-- A concrete instance of C25: one bin with `Ra = 3`, `Ia = 4`, `Kre = 1`,
`Kim = 2` in the case FFT holds `Re = 11` and `Im = -2`. -/
theorem C25_cross_spectrum_is_conjugate_product_witness :
    ∃ re im,
      correlate_spectrum (fun x y => Real.sqrt (x * x + y * y))
          GwyCorrelationType.GWY_CORRELATION_FFT 1 1 (constantField 1 1 3) (constantField 1 1 4)
          (constantField 1 1 1) (constantField 1 1 2) (constantField 1 1 0) (constantField 1 1 0)
          = some (re, im)
        ∧ re.data 0 = 11 ∧ im.data 0 = -2 := by
  obtain ⟨re, im, hres, hval⟩ :=
    C25_cross_spectrum_is_conjugate_product (fun x y => Real.sqrt (x * x + y * y))
      GwyCorrelationType.GWY_CORRELATION_FFT 1 1 (constantField 1 1 3) (constantField 1 1 4)
      (constantField 1 1 1) (constantField 1 1 2) (constantField 1 1 0) (constantField 1 1 0)
      (Or.inl rfl) (fun h => absurd h (by decide))
  have h := (hval 0 le_rfl (by decide)).2.1 rfl
  refine ⟨re, im, hres, ?_, ?_⟩
  · rw [h.1]
    norm_num [constantField]
  · rw [h.2]
    norm_num [constantField]

/-- Statement C26, the code at a failing input: when both forward transforms
are zero (8 x 8 bins, as for an all-zero data field) the first bin of the
cross-spectrum has `Re = Im = 0` and magnitude `hypot(0, 0) = 0`, and the loop
of the case `GWY_CORRELATION_POC` divides by it: the model has no result there,
where the claim says the bin is left unscaled.  In the case
`GWY_CORRELATION_FFT` the same loop returns. -/
theorem C26_zero_bin_is_divided_by_zero :
    Real.sqrt ((0 : ℝ) * 0 + 0 * 0) = 0
      ∧ correlate_spectrum (fun x y => Real.sqrt (x * x + y * y))
          GwyCorrelationType.GWY_CORRELATION_POC 8 8 (constantField 8 8 0) (constantField 8 8 0)
          (constantField 8 8 0) (constantField 8 8 0) (constantField 8 8 0) (constantField 8 8 0)
        = none
      ∧ ∃ re im, correlate_spectrum (fun x y => Real.sqrt (x * x + y * y))
          GwyCorrelationType.GWY_CORRELATION_FFT 8 8 (constantField 8 8 0) (constantField 8 8 0)
          (constantField 8 8 0) (constantField 8 8 0) (constantField 8 8 0) (constantField 8 8 0)
        = some (re, im) := by
  refine ⟨by simp, ?_, ?_⟩
  · unfold correlate_spectrum
    apply forRange_none_of_fail 0 (8 * 8) _ (fun _ => rfl) 0 le_rfl (by decide)
    intro a
    rcases a with _ | fields
    · rfl
    · simp only [Option.some_bind]
      rw [correlate_spectrum_bin_POC]
      simp [constantField, gdouble_div]
  · obtain ⟨re, im, h, -⟩ := correlate_spectrum_values (fun x y => Real.sqrt (x * x + y * y))
      GwyCorrelationType.GWY_CORRELATION_FFT 8 8 (constantField 8 8 (0 : ℝ))
      (constantField 8 8 0) (constantField 8 8 0) (constantField 8 8 0) (constantField 8 8 0)
      (constantField 8 8 0) (fun h => absurd h (by decide))
    exact ⟨re, im, h⟩

/-! ## Statements C22 and C23: the displacement stored by the iterator -/

/-- The array `scores[9]` of a call in state `Iterate`: the entry of the
neighbour `(n, m)`, at index `3*(m+1) + (n+1)`, is `cormax` in the centre and
the weighted score of the block of field 2 displaced by `(n, m)` from the peak
elsewhere. -/
theorem crosscorrelate_scores_spec (sqrt : R → R) (c : GwyCrossCorrelationState R)
    (col row : Int) (cormax : R) (colmax rowmax : Int) (m n : Int)
    (hm0 : -1 ≤ m) (hm1 : m ≤ 1) (hn0 : -1 ≤ n) (hn1 : n ≤ 1) :
    crosscorrelate_scores sqrt c col row cormax colmax rowmax (3 * (m + 1) + (n + 1))
      = if m = 0 ∧ n = 0 then cormax
        else gwy_data_field_get_weighted_correlation_score sqrt
          c.data_field1 c.data_field2 c.weights
          (col - Int.tdiv c.window_width 2) (row - Int.tdiv c.window_height 2)
          (colmax - Int.tdiv c.window_width 2 + n) (rowmax - Int.tdiv c.window_height 2 + m)
          c.window_width c.window_height := by
  unfold crosscorrelate_scores
  rw [forRange_step _ _ _ _ (by decide), forRange_step _ _ _ _ (by decide),
    forRange_step _ _ _ _ (by decide), forRange_done _ _ _ _ (by decide)]
  simp only [forRange_step (-1 : Int) 2 _ _ (by decide), forRange_step (-1 + 1 : Int) 2 _ _ (by decide),
    forRange_step (-1 + 1 + 1 : Int) 2 _ _ (by decide),
    forRange_done (-1 + 1 + 1 + 1 : Int) 2 _ _ (by decide)]
  interval_cases m <;> interval_cases n <;> simp [Function.update]

/-- Statement C23: a call in state `Iterate` of a job with both displacement
fields returns and stores, at the index `col + xres*row` of the processed point,
`x_dist = (ipos - col)*xreal/xres` and `y_dist = (jpos - row)*yreal/yres`, and
nothing else in the two fields; `(ipos, jpos)` is
`(colmax + xmaximum, rowmax + ymaximum)` when `gwy_math_refine_maximum` returns
true on the nine neighbour scores and `(colmax, rowmax)` when it returns false;
the nine scores are `cormax` in the centre and the weighted scores of the eight
neighbours of the peak. -/
theorem C23_displacement_in_physical_units (sqrt : R → R) (G_MAXDOUBLE : R)
    (gwy_math_refine_maximum : (Int → R) → Bool × R × R)
    (c : GwyCrossCorrelationState R) (xd yd : GwyDataField R)
    (h : c.cs.state = GWY_COMPUTATION_STATE_ITERATE)
    (hx : c.x_dist = some xd) (hy : c.y_dist = some yd) :
    ∃ c2 fx fy,
      gwy_data_field_crosscorrelate_iteration sqrt G_MAXDOUBLE gwy_math_refine_maximum c
          = some c2
        ∧ c2.x_dist = some fx ∧ c2.y_dist = some fy
        ∧ fx.data (c.i + c.data_field1.xres * c.j)
          = ((crosscorrelate_refined sqrt G_MAXDOUBLE gwy_math_refine_maximum c).1 - (c.i : R))
            * c.data_field1.xreal / (c.data_field1.xres : R)
        ∧ fy.data (c.i + c.data_field1.xres * c.j)
          = ((crosscorrelate_refined sqrt G_MAXDOUBLE gwy_math_refine_maximum c).2 - (c.j : R))
            * c.data_field1.yreal / (c.data_field1.yres : R)
        ∧ (∀ k, k ≠ c.i + c.data_field1.xres * c.j →
            fx.data k = xd.data k ∧ fy.data k = yd.data k)
        ∧ ((gwy_math_refine_maximum
              (crosscorrelate_scores sqrt c c.i c.j
                (crosscorrelate_search sqrt G_MAXDOUBLE c c.i c.j).1
                (crosscorrelate_search sqrt G_MAXDOUBLE c c.i c.j).2.1
                (crosscorrelate_search sqrt G_MAXDOUBLE c c.i c.j).2.2)).1 = true →
            crosscorrelate_refined sqrt G_MAXDOUBLE gwy_math_refine_maximum c
              = (((crosscorrelate_search sqrt G_MAXDOUBLE c c.i c.j).2.1 : R)
                  + (gwy_math_refine_maximum
                      (crosscorrelate_scores sqrt c c.i c.j
                        (crosscorrelate_search sqrt G_MAXDOUBLE c c.i c.j).1
                        (crosscorrelate_search sqrt G_MAXDOUBLE c c.i c.j).2.1
                        (crosscorrelate_search sqrt G_MAXDOUBLE c c.i c.j).2.2)).2.1,
                ((crosscorrelate_search sqrt G_MAXDOUBLE c c.i c.j).2.2 : R)
                  + (gwy_math_refine_maximum
                      (crosscorrelate_scores sqrt c c.i c.j
                        (crosscorrelate_search sqrt G_MAXDOUBLE c c.i c.j).1
                        (crosscorrelate_search sqrt G_MAXDOUBLE c c.i c.j).2.1
                        (crosscorrelate_search sqrt G_MAXDOUBLE c c.i c.j).2.2)).2.2))
        ∧ ((gwy_math_refine_maximum
              (crosscorrelate_scores sqrt c c.i c.j
                (crosscorrelate_search sqrt G_MAXDOUBLE c c.i c.j).1
                (crosscorrelate_search sqrt G_MAXDOUBLE c c.i c.j).2.1
                (crosscorrelate_search sqrt G_MAXDOUBLE c c.i c.j).2.2)).1 = false →
            crosscorrelate_refined sqrt G_MAXDOUBLE gwy_math_refine_maximum c
              = (((crosscorrelate_search sqrt G_MAXDOUBLE c c.i c.j).2.1 : R),
                ((crosscorrelate_search sqrt G_MAXDOUBLE c c.i c.j).2.2 : R)))
        ∧ ∀ m n : Int, -1 ≤ m → m ≤ 1 → -1 ≤ n → n ≤ 1 →
            crosscorrelate_scores sqrt c c.i c.j
                (crosscorrelate_search sqrt G_MAXDOUBLE c c.i c.j).1
                (crosscorrelate_search sqrt G_MAXDOUBLE c c.i c.j).2.1
                (crosscorrelate_search sqrt G_MAXDOUBLE c c.i c.j).2.2 (3 * (m + 1) + (n + 1))
              = if m = 0 ∧ n = 0 then (crosscorrelate_search sqrt G_MAXDOUBLE c c.i c.j).1
                else gwy_data_field_get_weighted_correlation_score sqrt
                  c.data_field1 c.data_field2 c.weights
                  (c.i - Int.tdiv c.window_width 2) (c.j - Int.tdiv c.window_height 2)
                  ((crosscorrelate_search sqrt G_MAXDOUBLE c c.i c.j).2.1
                    - Int.tdiv c.window_width 2 + n)
                  ((crosscorrelate_search sqrt G_MAXDOUBLE c c.i c.j).2.2
                    - Int.tdiv c.window_height 2 + m)
                  c.window_width c.window_height := by
  refine ⟨_, _, _,
    crosscorrelate_iteration_iterate_dist sqrt G_MAXDOUBLE gwy_math_refine_maximum c xd yd
      h hx hy, rfl, rfl, ?_, ?_, ?_, ?_, ?_, ?_⟩
  · show Function.update xd.data _ _ _ = _
    rw [Function.update_same]
  · show Function.update yd.data _ _ _ = _
    rw [Function.update_same]
  · intro k hk
    constructor
    · show Function.update xd.data _ _ _ = _
      rw [Function.update_noteq hk]
    · show Function.update yd.data _ _ _ = _
      rw [Function.update_noteq hk]
  · intro ht
    unfold crosscorrelate_refined
    simp only [ht, if_true]
  · intro hf
    unfold crosscorrelate_refined
    simp only [hf]
    rfl
  · intro m n hm0 hm1 hn0 hn1
    exact crosscorrelate_scores_spec sqrt c c.i c.j _ _ _ m n hm0 hm1 hn0 hn1

/-- A concrete instance of C23: the repeating field against itself at its grid
point `(2, 1)`. -/
theorem C23_displacement_in_physical_units_witness :
    ∃ c2 fx fy,
      gwy_data_field_crosscorrelate_iteration Real.sqrt g_maxdouble (fun _ => (false, 0, 0))
          (sampleSelfCorrelationState (sampleRepeatingField : GwyDataField ℝ)) = some c2
        ∧ c2.x_dist = some fx ∧ c2.y_dist = some fy
        ∧ fx.data (2 + 5 * 1)
          = ((crosscorrelate_refined Real.sqrt g_maxdouble (fun _ => (false, 0, 0))
                (sampleSelfCorrelationState (sampleRepeatingField : GwyDataField ℝ))).1
              - ((2 : Int) : ℝ)) * 1 / ((5 : Int) : ℝ) := by
  obtain ⟨c2, fx, fy, h1, h2, h3, h4, -⟩ :=
    C23_displacement_in_physical_units Real.sqrt g_maxdouble (fun _ => (false, 0, 0))
      (sampleSelfCorrelationState (sampleRepeatingField : GwyDataField ℝ))
      (gwy_data_field_clear (constantField 5 3 0)) (gwy_data_field_clear (constantField 5 3 0))
      rfl rfl rfl
  exact ⟨c2, fx, fy, h1, h2, h3, h4⟩

/-- Statement C22, the code at a failing input: the job of the repeating field
against itself at its grid point `(2, 1)`, the refinement failing.  With all
three output fields the call stores the y displacement -1/3.  With `x_dist`
absent the same call returns and leaves `y_dist` as it was, cleared, so the
sample of the processed point stays 0.  With `y_dist` absent and `x_dist`
present the call has no result: it stores through the NULL `y_dist`. -/
theorem C22_outputs_are_not_independent :
    (∃ c2 fy,
        gwy_data_field_crosscorrelate_iteration Real.sqrt g_maxdouble (fun _ => (false, 0, 0))
            (sampleSelfCorrelationState (sampleRepeatingField : GwyDataField ℝ)) = some c2
          ∧ c2.y_dist = some fy ∧ fy.data (2 + 5 * 1) = -(1 / 3))
      ∧ (∃ c2,
          gwy_data_field_crosscorrelate_iteration Real.sqrt g_maxdouble (fun _ => (false, 0, 0))
              { sampleSelfCorrelationState (sampleRepeatingField : GwyDataField ℝ) with
                x_dist := none } = some c2
            ∧ c2.y_dist = some (gwy_data_field_clear (constantField 5 3 0))
            ∧ (gwy_data_field_clear (constantField 5 3 (0 : ℝ))).data (2 + 5 * 1) = 0)
      ∧ gwy_data_field_crosscorrelate_iteration Real.sqrt g_maxdouble (fun _ => (false, 0, 0))
          { sampleSelfCorrelationState (sampleRepeatingField : GwyDataField ℝ) with
            y_dist := none } = none := by
  refine ⟨?_, ?_, ?_⟩
  · obtain ⟨c2, fx, fy, h1, h2, h3, h4, h5, h6⟩ := sample_iterate (fun _ => (false, 0, 0))
      (sampleRepeatingField : GwyDataField ℝ) rfl rfl rfl rfl _ sample_search
    refine ⟨c2, fy, h1, h4, ?_⟩
    rw [h6]
    norm_num
  · refine ⟨_, crosscorrelate_iteration_iterate_no_dist Real.sqrt g_maxdouble _ _ rfl rfl,
      rfl, ?_⟩
    simp [gwy_data_field_clear, gwy_data_field_fill, constantField]
  · exact crosscorrelate_iteration_null_y_dist Real.sqrt g_maxdouble _ _
      (gwy_data_field_clear (constantField 5 3 0)) rfl rfl rfl

/-! ## Statement C29: unit weights give the unweighted score -/

/-- The sum of a weight field of the window's dimensions whose weights are all
1 is the number of samples of the window. -/
theorem unit_weights_sum (weight_field : GwyDataField R) (width height : Int)
    (hw : 0 ≤ width) (hh : 0 ≤ height)
    (hwx : weight_field.xres = width) (hwy : weight_field.yres = height)
    (hone : ∀ i j, 0 ≤ i → i < width → 0 ≤ j → j < height →
      weight_field.data (i + weight_field.xres * j) = 1) :
    gwy_data_field_get_sum weight_field = ((width * height : Int) : R) := by
  unfold gwy_data_field_get_sum
  rw [windowLoop_zero, hwx, hwy,
    windowSum_congr width height _ (fun _ _ => (1 : R)) (fun i j hi0 hi1 hj0 hj1 => by
      have := hone i j hi0 hi1 hj0 hj1
      rw [hwx] at this
      exact this),
    windowSum_one width height hw hh]

theorem unit_weights_avg (f weight_field : GwyDataField R) (col row width height : Int)
    (hw : 0 ≤ width) (hh : 0 ≤ height)
    (hwx : weight_field.xres = width) (hwy : weight_field.yres = height)
    (hone : ∀ i j, 0 ≤ i → i < width → 0 ≤ j → j < height →
      weight_field.data (i + weight_field.xres * j) = 1) :
    weighted_window_avg f weight_field col row width height
      = gwy_data_field_area_get_avg f col row width height := by
  unfold weighted_window_avg gwy_data_field_area_get_avg
  rw [unit_weights_sum weight_field width height hw hh hwx hwy hone, windowLoop_zero,
    windowLoop_zero,
    windowSum_congr width height _
      (fun i j => f.data ((i + col) + f.xres * (j + row))) (fun i j hi0 hi1 hj0 hj1 => by
        beta_reduce
        rw [hone i j hi0 hi1 hj0 hj1, mul_one])]

theorem unit_weights_rms (sqrt : R → R) (f weight_field : GwyDataField R)
    (col row width height : Int) (hw : 0 ≤ width) (hh : 0 ≤ height)
    (hwx : weight_field.xres = width) (hwy : weight_field.yres = height)
    (hone : ∀ i j, 0 ≤ i → i < width → 0 ≤ j → j < height →
      weight_field.data (i + weight_field.xres * j) = 1) :
    sqrt (weighted_window_variance f weight_field col row width height)
      = gwy_data_field_area_get_rms sqrt f col row width height := by
  unfold weighted_window_variance gwy_data_field_area_get_rms
  rw [unit_weights_sum weight_field width height hw hh hwx hwy hone,
    unit_weights_avg f weight_field col row width height hw hh hwx hwy hone, windowLoop_zero]
  simp only [windowLoop_zero]
  congr 2
  apply windowSum_congr
  intro i j hi0 hi1 hj0 hj1
  beta_reduce
  rw [hone i j hi0 hi1 hj0 hj1, one_mul]

/-- Statement C29: on a valid geometry, with a weight field of the window's
dimensions whose weights are all 1, the weighted scorer returns the value of
the unweighted scorer on the same two windows; the default weights that
`gwy_data_field_crosscorrelate_init` creates are such a field. -/
theorem C29_unit_weights_give_unweighted_score (sqrt : R → R)
    (data_field kernel_field weight_field : GwyDataField R)
    (col row kernel_col kernel_row kernel_width kernel_height : Int)
    (hw : 1 ≤ kernel_width) (hh : 1 ≤ kernel_height)
    (hcol : 0 ≤ col) (hcolw : col + kernel_width ≤ data_field.xres)
    (hrow : 0 ≤ row) (hrowh : row + kernel_height ≤ data_field.yres)
    (hkcol : 0 ≤ kernel_col) (hkcolw : kernel_col + kernel_width ≤ kernel_field.xres)
    (hkrow : 0 ≤ kernel_row) (hkrowh : kernel_row + kernel_height ≤ kernel_field.yres)
    (hwx : weight_field.xres = kernel_width) (hwy : weight_field.yres = kernel_height)
    (hone : ∀ i j, 0 ≤ i → i < kernel_width → 0 ≤ j → j < kernel_height →
      weight_field.data (i + weight_field.xres * j) = 1) :
    gwy_data_field_get_weighted_correlation_score sqrt data_field kernel_field weight_field
          col row kernel_col kernel_row kernel_width kernel_height
        = gwy_data_field_get_correlation_score sqrt data_field kernel_field
            col row kernel_col kernel_row kernel_width kernel_height
      ∧ gwy_data_field_get_weighted_correlation_score sqrt data_field kernel_field
            (gwy_data_field_fill
              (gwy_data_field_new kernel_width kernel_height (kernel_width : R)
                (kernel_height : R)) 1)
            col row kernel_col kernel_row kernel_width kernel_height
          = gwy_data_field_get_correlation_score sqrt data_field kernel_field
              col row kernel_col kernel_row kernel_width kernel_height := by
  have key : ∀ wf : GwyDataField R, wf.xres = kernel_width → wf.yres = kernel_height →
      (∀ i j, 0 ≤ i → i < kernel_width → 0 ≤ j → j < kernel_height →
        wf.data (i + wf.xres * j) = 1) →
      gwy_data_field_get_weighted_correlation_score sqrt data_field kernel_field wf
          col row kernel_col kernel_row kernel_width kernel_height
        = gwy_data_field_get_correlation_score sqrt data_field kernel_field
            col row kernel_col kernel_row kernel_width kernel_height := by
    intro wf hx hy h1
    have hw0 : 0 ≤ kernel_width := by omega
    have hh0 : 0 ≤ kernel_height := by omega
    rw [weighted_score_unfold sqrt data_field kernel_field wf col row kernel_col kernel_row
      kernel_width kernel_height hw hh hcol hcolw hrow hrowh hkcol hkcolw hkrow hkrowh
      hx.symm hy.symm,
      unit_weights_rms sqrt data_field wf col row kernel_width kernel_height hw0 hh0 hx hy h1,
      unit_weights_rms sqrt kernel_field wf kernel_col kernel_row kernel_width kernel_height
        hw0 hh0 hx hy h1,
      unit_weights_avg data_field wf col row kernel_width kernel_height hw0 hh0 hx hy h1,
      unit_weights_avg kernel_field wf kernel_col kernel_row kernel_width kernel_height
        hw0 hh0 hx hy h1,
      unit_weights_sum wf kernel_width kernel_height hw0 hh0 hx hy h1]
    have g1 : ¬ (kernel_col > kernel_field.xres ∨ kernel_row > kernel_field.yres) := by omega
    have g2 : ¬ (col < 0 ∨ row < 0 ∨ col + kernel_width > data_field.xres
        ∨ row + kernel_height > data_field.yres) := by omega
    have g3 : ¬ (kernel_col < 0 ∨ kernel_row < 0
        ∨ kernel_col + kernel_width > kernel_field.xres
        ∨ kernel_row + kernel_height > kernel_field.yres) := by omega
    unfold gwy_data_field_get_correlation_score
    simp only [g1, g2, g3, if_false, windowLoop_zero]
    split_ifs
    · rfl
    · rfl
    · congr 1
      apply windowSum_congr
      intro i j hi0 hi1 hj0 hj1
      beta_reduce
      rw [h1 i j hi0 hi1 hj0 hj1, one_mul]
  refine ⟨key weight_field hwx hwy hone, key _ rfl rfl ?_⟩
  intro i j hi0 hi1 hj0 hj1
  show (if 0 ≤ i + kernel_width * j ∧ i + kernel_width * j < kernel_width * kernel_height
    then (1 : R) else 0) = 1
  rw [if_pos]
  constructor
  · have := mul_nonneg (by omega : (0 : Int) ≤ kernel_width) hj0
    omega
  · have h2 : kernel_width * (j + 1) ≤ kernel_width * kernel_height :=
      mul_le_mul_of_nonneg_left (by omega) (by omega)
    have h3 : kernel_width * (j + 1) = kernel_width * j + kernel_width := by ring
    omega

/-- A concrete instance of C29: the windows 0, 2 and 1, 5 under the weights
1, 1. -/
theorem C29_unit_weights_give_unweighted_score_witness :
    gwy_data_field_get_weighted_correlation_score Real.sqrt
        (fieldOfList 2 1 [0, 2]) (fieldOfList 2 1 [1, 5]) (constantField 2 1 1)
        0 0 0 0 2 1
      = gwy_data_field_get_correlation_score Real.sqrt
        (fieldOfList 2 1 [0, 2]) (fieldOfList 2 1 [1, 5]) 0 0 0 0 2 1 :=
  (C29_unit_weights_give_unweighted_score Real.sqrt (fieldOfList 2 1 [0, 2])
    (fieldOfList 2 1 [1, 5]) (constantField 2 1 1) 0 0 0 0 2 1
    (by decide) (by decide) (by decide) (by decide) (by decide) (by decide)
    (by decide) (by decide) (by decide) (by decide) rfl rfl
    (fun _ _ _ _ _ _ => rfl)).1

/-! ## Statement C27: the score field of the spatial iterator between calls -/

/-- Raster order: with `W` columns per row, the rank `a*W + b` of a position is
below the rank of another exactly when the position comes first in row-major
order. -/
theorem raster_rank_lt (W a b A B : Int) (hb0 : 0 ≤ b) (hb1 : b < W) (hB0 : 0 ≤ B)
    (hB1 : B < W) : a * W + b < A * W + B ↔ a < A ∨ (a = A ∧ b < B) := by
  constructor
  · intro h
    rcases lt_trichotomy a A with h1 | h1 | h1
    · exact Or.inl h1
    · subst h1
      exact Or.inr ⟨rfl, by omega⟩
    · exfalso
      have h2 : (A + 1) * W ≤ a * W := mul_le_mul_of_nonneg_right (by omega) (by omega)
      have h3 : (A + 1) * W = A * W + W := by ring
      omega
  · rintro (h | ⟨rfl, h⟩)
    · have h2 : (a + 1) * W ≤ A * W := mul_le_mul_of_nonneg_right (by omega) (by omega)
      have h3 : (a + 1) * W = a * W + W := by ring
      omega
    · omega

/-- Statement C27: for a spatial correlation job with a kernel of positive size
that fits into the data field and a score field of the data field's
dimensions, after the initialising call and `n` further calls (`n` at most the
number of valid positions) the first `n` valid positions in row-major order
hold their one-shot NORMAL values, every other sample of the score field holds
-1, and the data and kernel fields are the ones of the job; and a call in state
`Iterate` stores into exactly one sample of the score field, the one at the
cursor, and leaves the data and kernel fields as they are. -/
theorem C27_score_field_is_consistent (sqrt : R → R)
    (data_field kernel_field score : GwyDataField R)
    (hkx : 1 ≤ kernel_field.xres) (hky : 1 ≤ kernel_field.yres)
    (hx : kernel_field.xres ≤ data_field.xres) (hy : kernel_field.yres ≤ data_field.yres)
    (hsx : score.xres = data_field.xres) (hsy : score.yres = data_field.yres) :
    (∃ s0, gwy_data_field_correlate_init data_field kernel_field score = some s0
      ∧ ∀ n : ℕ, (n : Int) ≤ (data_field.xres - kernel_field.xres + 1)
            * (data_field.yres - kernel_field.yres + 1) →
          (∀ i j, kernel_fits data_field kernel_field i j →
              (i - Int.tdiv (kernel_field.yres - 1) 2) * (data_field.xres - kernel_field.xres + 1)
                + (j - Int.tdiv (kernel_field.xres - 1) 2) < n →
              ((gwy_data_field_correlate_iteration sqrt)^[n + 1] s0).score.data
                  (i * data_field.xres + j)
                = (gwy_data_field_correlate_NORMAL sqrt data_field kernel_field score).data
                  (i * data_field.xres + j))
            ∧ (∀ k, 0 ≤ k → k < data_field.xres * data_field.yres →
                (∀ i j, kernel_fits data_field kernel_field i j →
                  (i - Int.tdiv (kernel_field.yres - 1) 2)
                      * (data_field.xres - kernel_field.xres + 1)
                    + (j - Int.tdiv (kernel_field.xres - 1) 2) < n →
                  k ≠ i * data_field.xres + j) →
                ((gwy_data_field_correlate_iteration sqrt)^[n + 1] s0).score.data k = -1)
            ∧ ((gwy_data_field_correlate_iteration sqrt)^[n + 1] s0).data_field = data_field
            ∧ ((gwy_data_field_correlate_iteration sqrt)^[n + 1] s0).kernel_field = kernel_field)
      ∧ ∀ s : GwyCorrelationState R, s.cs.state = GWY_COMPUTATION_STATE_ITERATE →
          (∃ value, (gwy_data_field_correlate_iteration sqrt s).score
              = s.score.store (s.i * s.data_field.xres + s.j) value)
            ∧ (∀ k, k ≠ s.i * s.data_field.xres + s.j →
                (gwy_data_field_correlate_iteration sqrt s).score.data k = s.score.data k)
            ∧ (gwy_data_field_correlate_iteration sqrt s).data_field = s.data_field
            ∧ (gwy_data_field_correlate_iteration sqrt s).kernel_field = s.kernel_field := by
  constructor
  · obtain ⟨s0, h0, hd, hk, hs, hst⟩ := correlate_init_some data_field kernel_field score hx hy
    refine ⟨s0, h0, ?_⟩
    intro n hn
    have prog := correlate_progress_iterate sqrt s0 (by rw [hk]; exact hkx)
      (by rw [hk]; exact hky) (by rw [hk, hd]; exact hx) (by rw [hk, hd]; exact hy) hst n
      (by rw [hk, hd]; exact hn)
    rw [hd, hk, hs] at prog
    obtain ⟨p1, p2, -, -, -, -, p7, p8, p9, p10, -, -, pw⟩ := prog
    have one := correlate_NORMAL_written sqrt data_field kernel_field score hkx hky hx hy
    have hrank : ∀ i j, kernel_fits data_field kernel_field i j →
        ((i - Int.tdiv (kernel_field.yres - 1) 2) * (data_field.xres - kernel_field.xres + 1)
            + (j - Int.tdiv (kernel_field.xres - 1) 2) < n
          ↔ (i < ((gwy_data_field_correlate_iteration sqrt)^[n + 1] s0).i
            ∨ (i = ((gwy_data_field_correlate_iteration sqrt)^[n + 1] s0).i
              ∧ j < ((gwy_data_field_correlate_iteration sqrt)^[n + 1] s0).j))) := by
      intro i j hfit
      unfold kernel_fits at hfit
      rw [p10, raster_rank_lt _ _ _ _ _ (by omega) (by omega) (by omega) (by omega)]
      constructor
      · rintro (h | ⟨h1, h2⟩)
        · exact Or.inl (by omega)
        · exact Or.inr ⟨by omega, by omega⟩
      · rintro (h | ⟨h1, h2⟩)
        · exact Or.inl (by omega)
        · exact Or.inr ⟨by omega, by omega⟩
    refine ⟨?_, ?_, p1, p2⟩
    · intro i j hfit hlt
      rw [pw.2.2.1 i j ⟨hfit, (hrank i j hfit).mp hlt⟩, one.2.2.1 i j hfit]
    · intro k hk0 hk1 hother
      rw [pw.2.2.2 k (fun i j hS => hother i j hS.1 ((hrank i j hS.1).mpr hS.2))]
      show (if 0 ≤ k ∧ k < score.xres * score.yres then (-1 : R) else score.data k) = -1
      rw [hsx, hsy, if_pos ⟨hk0, hk1⟩]
  · intro s hst
    rw [correlate_iteration_iterate sqrt s hst]
    refine ⟨⟨_, rfl⟩, ?_, rfl, rfl⟩
    intro k hk
    show Function.update s.score.data _ _ k = _
    rw [Function.update_noteq hk]

/-- A concrete instance of C27: the field 0, 2, 1 and the kernel 1, 5 after the
initialising call and one further call. -/
theorem C27_score_field_is_consistent_witness :
    ∃ s0, gwy_data_field_correlate_init (fieldOfList 3 1 [(0 : ℝ), 2, 1])
          (fieldOfList 2 1 [1, 5]) (fieldOfList 3 1 []) = some s0
      ∧ ((gwy_data_field_correlate_iteration Real.sqrt)^[1 + 1] s0).score.data (0 * 3 + 0)
        = (gwy_data_field_correlate_NORMAL Real.sqrt (fieldOfList 3 1 [0, 2, 1])
            (fieldOfList 2 1 [1, 5]) (fieldOfList 3 1 [])).data (0 * 3 + 0)
      ∧ ((gwy_data_field_correlate_iteration Real.sqrt)^[1 + 1] s0).score.data 2 = -1 := by
  obtain ⟨s0, h0, hn⟩ :=
    (C27_score_field_is_consistent Real.sqrt (fieldOfList 3 1 [(0 : ℝ), 2, 1])
      (fieldOfList 2 1 [1, 5]) (fieldOfList 3 1 []) (by decide) (by decide) (by decide)
      (by decide) rfl rfl).1
  have h1 := hn 1 (by decide)
  refine ⟨s0, h0, h1.1 0 0 (by unfold kernel_fits; decide) (by decide), ?_⟩
  apply h1.2.1 2 (by decide) (by decide)
  intro i j hfit hlt
  have hfit2 : Int.tdiv ((1 : Int) - 1) 2 ≤ i ∧ i + 1 - Int.tdiv ((1 : Int) - 1) 2 ≤ 1
      ∧ Int.tdiv ((2 : Int) - 1) 2 ≤ j ∧ j + 2 - Int.tdiv ((2 : Int) - 1) 2 ≤ 3 := hfit
  have hlt2 : (i - Int.tdiv ((1 : Int) - 1) 2) * ((3 : Int) - 2 + 1)
      + (j - Int.tdiv ((2 : Int) - 1) 2) < ((1 : ℕ) : Int) := hlt
  have e1 : Int.tdiv ((1 : Int) - 1) 2 = 0 := by decide
  have e2 : Int.tdiv ((2 : Int) - 1) 2 = 0 := by decide
  rw [e1, e2] at hfit2 hlt2
  show (2 : Int) ≠ i * 3 + j
  omega

/-! ## Statement C24: the parabola of the one-shot cross-correlation -/

/-- The unweighted score of two windows of a constant field: -1 when a bounds
check fails, 0 otherwise (the rms of a constant window is zero). -/
theorem flat_score_eq {sqrt : R → R} (hs : IsSqrt sqrt) (X Y : Int) (v : R)
    (col row kernel_col kernel_row kernel_width kernel_height : Int)
    (hw : 1 ≤ kernel_width) (hh : 1 ≤ kernel_height) :
    gwy_data_field_get_correlation_score sqrt (constantField X Y v) (constantField X Y v)
        col row kernel_col kernel_row kernel_width kernel_height
      = if col < 0 ∨ row < 0 ∨ col + kernel_width > X ∨ row + kernel_height > Y
            ∨ kernel_col < 0 ∨ kernel_row < 0 ∨ kernel_col + kernel_width > X
            ∨ kernel_row + kernel_height > Y then -1
        else 0 := by
  split_ifs with hbad
  · unfold gwy_data_field_get_correlation_score
    simp only [constantField]
    by_cases g1 : kernel_col > X ∨ kernel_row > Y
    · rw [if_pos g1]
    · rw [if_neg g1]
      by_cases g2 : col < 0 ∨ row < 0 ∨ col + kernel_width > X ∨ row + kernel_height > Y
      · rw [if_pos g2]
      · rw [if_neg g2, if_pos (by omega)]
  · exact score_zero_of_rms_zero sqrt (constantField X Y v) (constantField X Y v) col row
      kernel_col kernel_row kernel_width kernel_height hw hh
      (by simp only [not_or, not_lt] at hbad; omega)
      (by simp only [not_or, not_lt, gt_iff_lt] at hbad; exact hbad.2.2.1)
      (by simp only [not_or, not_lt] at hbad; omega)
      (by simp only [not_or, not_lt, gt_iff_lt] at hbad; exact hbad.2.2.2.1)
      (by simp only [not_or, not_lt] at hbad; omega)
      (by simp only [not_or, not_lt, gt_iff_lt] at hbad; exact hbad.2.2.2.2.2.2.1)
      (by simp only [not_or, not_lt] at hbad; omega)
      (by simp only [not_or, not_lt, gt_iff_lt] at hbad; exact hbad.2.2.2.2.2.2.2)
      (Or.inl (area_get_rms_of_const hs (constantField X Y v) col row kernel_width
        kernel_height hw hh v (fun _ _ _ _ _ _ => rfl)))

/-- The search of the one-shot cross-correlation of the flat 6 x 3 field
against itself, search area 2 x 2, at the point `(3, 1)`. -/
theorem flat_point_search :
    crosscorrelate_point_search Real.sqrt (constantField 6 3 (0 : ℝ)) (constantField 6 3 0)
      2 2 3 1 = (0, 2, 1) := by
  unfold crosscorrelate_point_search
  rw [forRange_step _ _ _ _ (by decide), forRange_step _ _ _ _ (by decide),
    forRange_done _ _ _ _ (by decide)]
  simp only [forRange_step ((1 : Int) - 2) 1 _ _ (by decide),
    forRange_step ((1 : Int) - 2 + 1) 1 _ _ (by decide),
    forRange_done ((1 : Int) - 2 + 1 + 1) 1 _ _ (by decide), tdiv_small]
  norm_num [flat_score_eq isSqrt_real]

/-- The point `(3, 1)` of the flat 6 x 3 field, search area 2 x 2: all three
scores of the x parabola are 0, so its denominator is zero. -/
theorem flat_point_fails (out : GwyDataField ℝ × GwyDataField ℝ × GwyDataField ℝ) :
    crosscorrelate_point Real.sqrt (constantField 6 3 (0 : ℝ)) (constantField 6 3 0) 2 2
      out 3 1 = none := by
  unfold crosscorrelate_point
  simp only [flat_point_search, tdiv_small]
  norm_num [flat_score_eq isSqrt_real, gdouble_div]

/-- Statement C24, the code at a failing input: the flat 6 x 3 field against
itself with search area 2 x 2.  At the point `(3, 1)` the search ends with
`cormax = 0` at `(imax, jmax) = (2, 1)`, the two neighbour scores `zm` and `zp`
of the x parabola are 0 as well, so `zm + zp - 2*z0 = 0` and the code divides
`zm - zp = 0` by it: the point, and with it the whole call, has no result,
where the claim says the integer-pixel offset is stored without a division. -/
theorem C24_flat_field_divides_by_zero :
    crosscorrelate_point_search Real.sqrt (constantField 6 3 (0 : ℝ)) (constantField 6 3 0)
        2 2 3 1 = (0, 2, 1)
      ∧ gwy_data_field_get_correlation_score Real.sqrt (constantField 6 3 (0 : ℝ))
          (constantField 6 3 0) (3 - Int.tdiv 2 2) (1 - Int.tdiv 2 2)
          (2 - Int.tdiv 2 2 - 1) (1 - Int.tdiv 2 2) (2 + Int.tdiv 2 2 - 1) (1 + Int.tdiv 2 2) = 0
      ∧ gwy_data_field_get_correlation_score Real.sqrt (constantField 6 3 (0 : ℝ))
          (constantField 6 3 0) (3 - Int.tdiv 2 2) (1 - Int.tdiv 2 2)
          (2 - Int.tdiv 2 2 + 1) (1 - Int.tdiv 2 2) (2 + Int.tdiv 2 2 + 1) (1 + Int.tdiv 2 2) = 0
      ∧ gdouble_div ((0 : ℝ) - 0) (0 + 0 - 2 * 0) = none
      ∧ (∀ out, crosscorrelate_point Real.sqrt (constantField 6 3 (0 : ℝ))
          (constantField 6 3 0) 2 2 out 3 1 = none)
      ∧ gwy_data_field_crosscorrelate Real.sqrt (constantField 6 3 (0 : ℝ))
          (constantField 6 3 0) (constantField 6 3 0) (constantField 6 3 0)
          (constantField 6 3 0) 2 2 = none := by
  refine ⟨flat_point_search, ?_, ?_, ?_, flat_point_fails, ?_⟩
  · simp only [tdiv_small]
    norm_num [flat_score_eq isSqrt_real]
  · simp only [tdiv_small]
    norm_num [flat_score_eq isSqrt_real]
  · norm_num [gdouble_div]
  · unfold gwy_data_field_crosscorrelate
    rw [if_neg (by simp [constantField])]
    apply forRange_none_of_fail _ _ _ (fun i => forRange_none _ _ _ (fun j => rfl)) 3
    · simp only [tdiv_small]
      decide
    · simp only [tdiv_small]
      show (3 : Int) < 6 - 1
      decide
    · intro a
      apply forRange_none_of_fail _ _ _ (fun j => rfl) 1
      · simp only [tdiv_small]
        decide
      · simp only [tdiv_small]
        show (1 : Int) < 3 - 1
        decide
      · intro b
        rcases b with _ | out
        · rfl
        · exact flat_point_fails out

/-! ## Statements C28 and C30: the cursor of the cross-correlation iterator -/

/-- What a returning call of `gwy_data_field_crosscorrelate_iteration` leaves
unchanged, and how it moves the cursor and the state. -/
theorem crosscorrelate_iteration_frame (sqrt : R → R) (G_MAXDOUBLE : R)
    (gwy_math_refine_maximum : (Int → R) → Bool × R × R)
    (c c2 : GwyCrossCorrelationState R)
    (hres : gwy_data_field_crosscorrelate_iteration sqrt G_MAXDOUBLE gwy_math_refine_maximum c
      = some c2) :
    c2.data_field1 = c.data_field1 ∧ c2.data_field2 = c.data_field2
      ∧ c2.weights = c.weights
      ∧ c2.window_width = c.window_width ∧ c2.window_height = c.window_height
      ∧ c2.search_width = c.search_width ∧ c2.search_height = c.search_height
      ∧ (c.cs.state = GWY_COMPUTATION_STATE_INIT →
          c2.cs.state = GWY_COMPUTATION_STATE_ITERATE
            ∧ c2.i = Int.tdiv c.window_width 2 + 1 ∧ c2.j = Int.tdiv c.window_height 2 + 1)
      ∧ (c.cs.state = GWY_COMPUTATION_STATE_ITERATE →
          c2.cs = (crosscorrelate_advance c).cs
            ∧ c2.i = (crosscorrelate_advance c).i ∧ c2.j = (crosscorrelate_advance c).j)
      ∧ (c.cs.state = GWY_COMPUTATION_STATE_FINISHED → c2 = c) := by
  rcases hst : c.cs.state with _ | _ | _
  · rw [crosscorrelate_iteration_init sqrt G_MAXDOUBLE gwy_math_refine_maximum c hst] at hres
    cases hres
    simp
  · rcases hx : c.x_dist with _ | xd
    · rw [crosscorrelate_iteration_iterate_no_dist sqrt G_MAXDOUBLE gwy_math_refine_maximum c
        hst hx] at hres
      cases hres
      simp [crosscorrelate_advance]
    · rcases hy : c.y_dist with _ | yd
      · rw [crosscorrelate_iteration_null_y_dist sqrt G_MAXDOUBLE gwy_math_refine_maximum c xd
          hst hx hy] at hres
        cases hres
      · rw [crosscorrelate_iteration_iterate_dist sqrt G_MAXDOUBLE gwy_math_refine_maximum c
          xd yd hst hx hy] at hres
        cases hres
        simp [crosscorrelate_advance]
  · unfold gwy_data_field_crosscorrelate_iteration at hres
    simp only [hst] at hres
    cases hres
    simp

/-- The cursor after a call in state `Iterate` at a grid point: the next grid
point in row-major order, or the state `Finished` after the last one. -/
theorem crosscorrelate_advance_grid (c : GwyCrossCorrelationState R)
    (hst : c.cs.state = GWY_COMPUTATION_STATE_ITERATE)
    (hg : crosscorrelate_grid c c.i c.j) :
    ((crosscorrelate_advance c).cs.state = GWY_COMPUTATION_STATE_ITERATE
        ∨ (crosscorrelate_advance c).cs.state = GWY_COMPUTATION_STATE_FINISHED)
      ∧ ((crosscorrelate_advance c).cs.state = GWY_COMPUTATION_STATE_ITERATE →
          crosscorrelate_grid c (crosscorrelate_advance c).i (crosscorrelate_advance c).j) := by
  unfold crosscorrelate_grid at hg ⊢
  unfold crosscorrelate_advance
  simp only [hst, decide_eq_true_eq]
  by_cases hw : c.i + 1 = c.data_field1.xres - Int.tdiv c.window_width 2 - 1
  · by_cases hj : c.j + 1 = c.data_field1.yres - Int.tdiv c.window_height 2 - 1
    · simp [hw, hj]
    · simp only [hw, hj, if_true, and_false, if_false, true_and]
      refine ⟨Or.inl trivial, fun _ => ?_⟩
      omega
  · simp only [hw, if_false, false_and]
    refine ⟨Or.inl trivial, fun _ => ?_⟩
    omega

/-- The jobs reached from a job in state `Init` by calls that return: the input
fields, the weights and the geometry stay, and when the grid is not empty a
job in state `Iterate` has its cursor on a grid point. -/
theorem crosscorrelate_calls_invariant (sqrt : R → R) (G_MAXDOUBLE : R)
    (gwy_math_refine_maximum : (Int → R) → Bool × R × R)
    (c0 : GwyCrossCorrelationState R) (h0 : c0.cs.state = GWY_COMPUTATION_STATE_INIT)
    (k : ℕ) (c : GwyCrossCorrelationState R)
    (hk : crosscorrelate_calls sqrt G_MAXDOUBLE gwy_math_refine_maximum k c0 = some c) :
    c.data_field1 = c0.data_field1 ∧ c.data_field2 = c0.data_field2
      ∧ c.weights = c0.weights
      ∧ c.window_width = c0.window_width ∧ c.window_height = c0.window_height
      ∧ c.search_width = c0.search_width ∧ c.search_height = c0.search_height
      ∧ (1 ≤ c0.data_field1.xres - 2 * Int.tdiv c0.window_width 2 - 2 →
          1 ≤ c0.data_field1.yres - 2 * Int.tdiv c0.window_height 2 - 2 →
          c.cs.state = GWY_COMPUTATION_STATE_ITERATE → crosscorrelate_grid c c.i c.j) := by
  induction k generalizing c with
  | zero =>
    cases hk
    refine ⟨rfl, rfl, rfl, rfl, rfl, rfl, rfl, ?_⟩
    intro _ _ hst
    rw [h0] at hst
    cases hst
  | succ k ih =>
    rw [crosscorrelate_calls] at hk
    rcases hprev : crosscorrelate_calls sqrt G_MAXDOUBLE gwy_math_refine_maximum k c0
      with _ | c1
    · rw [hprev] at hk
      cases hk
    · rw [hprev, Option.some_bind] at hk
      obtain ⟨i1, i2, i3, i4, i5, i6, i7, i8⟩ := ih c1 hprev
      obtain ⟨f1, f2, f3, f4, f5, f6, f7, f8, f9, f10⟩ :=
        crosscorrelate_iteration_frame sqrt G_MAXDOUBLE gwy_math_refine_maximum c1 c hk
      refine ⟨f1.trans i1, f2.trans i2, f3.trans i3, f4.trans i4, f5.trans i5, f6.trans i6,
        f7.trans i7, ?_⟩
      intro hnx hny hst
      rcases hst1 : c1.cs.state with _ | _ | _
      · obtain ⟨-, hi, hj⟩ := f8 hst1
        unfold crosscorrelate_grid
        rw [hi, hj, f1, f4, f5, i1, i4, i5]
        omega
      · obtain ⟨hcs, hi, hj⟩ := f9 hst1
        have hg := crosscorrelate_advance_grid c1 hst1 (i8 hnx hny hst1)
        have hg2 := hg.2 (by rw [← hcs]; exact hst)
        unfold crosscorrelate_grid at hg2 ⊢
        rw [hi, hj, f1, f4, f5]
        exact hg2
      · have := f10 hst1
        subst this
        rw [hst1] at hst
        cases hst

/-- The weighted score of two windows inside their fields, under non-negative
weights of positive sum, lies in `[-1, 1]`. -/
theorem weighted_score_range (sqrt : R → R) (hs : IsSqrt sqrt)
    (data_field kernel_field weight_field : GwyDataField R)
    (col row kernel_col kernel_row kernel_width kernel_height : Int)
    (hw : 1 ≤ kernel_width) (hh : 1 ≤ kernel_height)
    (hcol : 0 ≤ col) (hcolw : col + kernel_width ≤ data_field.xres)
    (hrow : 0 ≤ row) (hrowh : row + kernel_height ≤ data_field.yres)
    (hkcol : 0 ≤ kernel_col) (hkcolw : kernel_col + kernel_width ≤ kernel_field.xres)
    (hkrow : 0 ≤ kernel_row) (hkrowh : kernel_row + kernel_height ≤ kernel_field.yres)
    (hwx : weight_field.xres = kernel_width) (hwy : weight_field.yres = kernel_height)
    (hnn : ∀ i j, 0 ≤ i → i < kernel_width → 0 ≤ j → j < kernel_height →
      0 ≤ weight_field.data (i + weight_field.xres * j))
    (hsum : 0 < gwy_data_field_get_sum weight_field) :
    -1 ≤ gwy_data_field_get_weighted_correlation_score sqrt data_field kernel_field
          weight_field col row kernel_col kernel_row kernel_width kernel_height
      ∧ gwy_data_field_get_weighted_correlation_score sqrt data_field kernel_field
          weight_field col row kernel_col kernel_row kernel_width kernel_height ≤ 1 := by
  rw [weighted_score_unfold sqrt data_field kernel_field weight_field col row kernel_col
    kernel_row kernel_width kernel_height hw hh hcol hcolw hrow hrowh hkcol hkcolw hkrow hkrowh
    hwx.symm hwy.symm]
  have v1 := weighted_window_variance_nonneg data_field weight_field col row
    kernel_width kernel_height hnn hsum
  have v2 := weighted_window_variance_nonneg kernel_field weight_field kernel_col kernel_row
    kernel_width kernel_height hnn hsum
  have s1 := hs _ v1
  have s2 := hs _ v2
  split_ifs with z1 z2
  · constructor <;> norm_num
  · constructor <;> norm_num
  · exact weighted_pearson_bound
      (Finset.range kernel_height.toNat ×ˢ Finset.range kernel_width.toNat)
      (fun p => weight_field.data ((p.2 : Int) + weight_field.xres * (p.1 : Int)))
      (fun p => data_field.data (((p.2 : Int) + col) + data_field.xres * ((p.1 : Int) + row)))
      (fun p => kernel_field.data
        (((p.2 : Int) + kernel_col) + kernel_field.xres * ((p.1 : Int) + kernel_row)))
      (weighted_window_avg data_field weight_field col row kernel_width kernel_height)
      (weighted_window_avg kernel_field weight_field kernel_col kernel_row
        kernel_width kernel_height)
      (sqrt (weighted_window_variance data_field weight_field col row
        kernel_width kernel_height))
      (sqrt (weighted_window_variance kernel_field weight_field kernel_col kernel_row
        kernel_width kernel_height))
      (gwy_data_field_get_sum weight_field)
      (fun p hp => by
        rw [Finset.mem_product, Finset.mem_range, Finset.mem_range] at hp
        exact hnn (p.2 : Int) (p.1 : Int) (by omega) (by omega) (by omega) (by omega))
      hsum
      (by
        rw [s1.2]
        unfold weighted_window_variance
        rw [windowLoop_zero]
        rfl)
      (by
        rw [s2.2]
        unfold weighted_window_variance
        rw [windowLoop_zero]
        rfl)
      s1.1 s2.1 z1 z2

/-- The default weights of a cross-correlation job are 1 on the window. -/
theorem default_weights_unit (width height : Int) (xreal yreal : R) (hw : 0 ≤ width)
    (i j : Int) (hi0 : 0 ≤ i) (hi1 : i < width) (hj0 : 0 ≤ j) (hj1 : j < height) :
    (gwy_data_field_fill (gwy_data_field_new width height xreal yreal) 1).data
      (i + (gwy_data_field_fill (gwy_data_field_new width height xreal yreal) 1).xres * j)
      = 1 := by
  show (if 0 ≤ i + width * j ∧ i + width * j < width * height then (1 : R) else 0) = 1
  rw [if_pos]
  constructor
  · have := mul_nonneg hw hj0
    omega
  · have h2 : width * (j + 1) ≤ width * height := mul_le_mul_of_nonneg_left (by omega) hw
    have h3 : width * (j + 1) = width * j + width := by ring
    omega

/-- The search on the grid: for a cross-correlation job with a window of
positive size, in every state `Iterate` reached by calls from the initial job
the cursor is a grid point when the grid is not empty, and at a grid point the
reference window lies inside field 1, every candidate `(n, m)` of the search
loops has its window inside field 2 and a weighted score in `[-1, 1]`, so none
of the sentinels -2, -3, -4, and the window of the chosen offset
`(colmax, rowmax)` lies inside field 2. -/
theorem search_stays_in_bounds_on_grid (sqrt : R → R) (hs : IsSqrt sqrt) (G_MAXDOUBLE : R)
    (gwy_math_refine_maximum : (Int → R) → Bool × R × R)
    (data_field1 data_field2 : GwyDataField R)
    (x_dist y_dist score : Option (GwyDataField R))
    (search_width search_height window_width window_height : Int)
    (hdx : data_field1.xres = data_field2.xres) (hdy : data_field1.yres = data_field2.yres)
    (hww : 1 ≤ window_width) (hwh : 1 ≤ window_height) :
    ∃ c0, gwy_data_field_crosscorrelate_init data_field1 data_field2 x_dist y_dist score
          search_width search_height window_width window_height = some c0
      ∧ ∀ (k : ℕ) (c : GwyCrossCorrelationState R),
          crosscorrelate_calls sqrt G_MAXDOUBLE gwy_math_refine_maximum k c0 = some c →
          c.cs.state = GWY_COMPUTATION_STATE_ITERATE →
          (1 ≤ data_field1.xres - 2 * Int.tdiv window_width 2 - 2 →
            1 ≤ data_field1.yres - 2 * Int.tdiv window_height 2 - 2 →
            crosscorrelate_grid c c.i c.j)
          ∧ (crosscorrelate_grid c c.i c.j →
              (0 ≤ c.i - Int.tdiv window_width 2
                ∧ c.i - Int.tdiv window_width 2 + window_width ≤ data_field1.xres
                ∧ 0 ≤ c.j - Int.tdiv window_height 2
                ∧ c.j - Int.tdiv window_height 2 + window_height ≤ data_field1.yres)
              ∧ (∀ n m, crosscorrelate_candidate c c.i c.j n m →
                  (0 ≤ n ∧ n + window_width ≤ data_field2.xres
                    ∧ 0 ≤ m ∧ m + window_height ≤ data_field2.yres)
                  ∧ -1 ≤ gwy_data_field_get_weighted_correlation_score sqrt
                      c.data_field1 c.data_field2 c.weights
                      (c.i - Int.tdiv c.window_width 2) (c.j - Int.tdiv c.window_height 2)
                      n m c.window_width c.window_height
                  ∧ gwy_data_field_get_weighted_correlation_score sqrt
                      c.data_field1 c.data_field2 c.weights
                      (c.i - Int.tdiv c.window_width 2) (c.j - Int.tdiv c.window_height 2)
                      n m c.window_width c.window_height ≤ 1
                  ∧ gwy_data_field_get_weighted_correlation_score sqrt
                      c.data_field1 c.data_field2 c.weights
                      (c.i - Int.tdiv c.window_width 2) (c.j - Int.tdiv c.window_height 2)
                      n m c.window_width c.window_height ≠ -2
                  ∧ gwy_data_field_get_weighted_correlation_score sqrt
                      c.data_field1 c.data_field2 c.weights
                      (c.i - Int.tdiv c.window_width 2) (c.j - Int.tdiv c.window_height 2)
                      n m c.window_width c.window_height ≠ -3
                  ∧ gwy_data_field_get_weighted_correlation_score sqrt
                      c.data_field1 c.data_field2 c.weights
                      (c.i - Int.tdiv c.window_width 2) (c.j - Int.tdiv c.window_height 2)
                      n m c.window_width c.window_height ≠ -4)
              ∧ (0 ≤ (crosscorrelate_search sqrt G_MAXDOUBLE c c.i c.j).2.1
                    - Int.tdiv window_width 2
                ∧ (crosscorrelate_search sqrt G_MAXDOUBLE c c.i c.j).2.1
                    - Int.tdiv window_width 2 + window_width ≤ data_field2.xres
                ∧ 0 ≤ (crosscorrelate_search sqrt G_MAXDOUBLE c c.i c.j).2.2
                    - Int.tdiv window_height 2
                ∧ (crosscorrelate_search sqrt G_MAXDOUBLE c c.i c.j).2.2
                    - Int.tdiv window_height 2 + window_height ≤ data_field2.yres)) := by
  refine ⟨_, crosscorrelate_init_eq data_field1 data_field2 x_dist y_dist score search_width
    search_height window_width window_height hdx hdy, ?_⟩
  intro k c hk hst
  obtain ⟨e1, e2, e3, e4, e5, -, -, hgrid⟩ := crosscorrelate_calls_invariant sqrt G_MAXDOUBLE
    gwy_math_refine_maximum _ rfl k c hk
  have e1 : c.data_field1 = data_field1 := e1
  have e2 : c.data_field2 = data_field2 := e2
  have e3 : c.weights = gwy_data_field_fill
      (gwy_data_field_new window_width window_height (window_width : R) (window_height : R))
      1 := e3
  have e4 : c.window_width = window_width := e4
  have e5 : c.window_height = window_height := e5
  have tw := tdiv_two window_width (by omega)
  have th := tdiv_two window_height (by omega)
  refine ⟨fun hnx hny => hgrid hnx hny hst, ?_⟩
  intro hg
  unfold crosscorrelate_grid at hg
  rw [e1, e4, e5] at hg
  have href : 0 ≤ c.i - Int.tdiv window_width 2
      ∧ c.i - Int.tdiv window_width 2 + window_width ≤ data_field1.xres
      ∧ 0 ≤ c.j - Int.tdiv window_height 2
      ∧ c.j - Int.tdiv window_height 2 + window_height ≤ data_field1.yres := by
    rw [tw, th] at hg ⊢
    omega
  have hcand : ∀ n m, crosscorrelate_candidate c c.i c.j n m →
      0 ≤ n ∧ n + window_width ≤ data_field2.xres
        ∧ 0 ≤ m ∧ m + window_height ≤ data_field2.yres := by
    intro n m hc
    unfold crosscorrelate_candidate at hc
    rw [e1, e4, e5] at hc
    obtain ⟨c1, c2, c3, c4⟩ := hc
    have a1 := le_trans (le_max_left _ _) c1
    have a2 := lt_of_lt_of_le c2 (min_le_left _ _)
    have a3 := le_trans (le_max_left _ _) c3
    have a4 := lt_of_lt_of_le c4 (min_le_left _ _)
    omega
  refine ⟨href, ?_, ?_⟩
  · intro n m hc
    have hb := hcand n m hc
    have hrange := weighted_score_range sqrt hs c.data_field1 c.data_field2 c.weights
      (c.i - Int.tdiv c.window_width 2) (c.j - Int.tdiv c.window_height 2) n m
      c.window_width c.window_height (by rw [e4]; exact hww) (by rw [e5]; exact hwh)
      (by rw [e4]; exact href.1) (by rw [e4, e1]; exact href.2.1)
      (by rw [e5]; exact href.2.2.1) (by rw [e5, e1]; exact href.2.2.2)
      hb.1 (by rw [e4, e2]; exact hb.2.1) hb.2.2.1 (by rw [e5, e2]; exact hb.2.2.2)
      (by rw [e3, e4]; rfl) (by rw [e3, e5]; rfl)
      (fun i j hi0 hi1 hj0 hj1 => by
        rw [e4] at hi1
        rw [e5] at hj1
        rw [e3, default_weights_unit window_width window_height _ _ (by omega) i j hi0 hi1
          hj0 hj1]
        exact zero_le_one)
      (by
        rw [e3, unit_weights_sum _ window_width window_height (by omega) (by omega) rfl rfl
          (fun i j hi0 hi1 hj0 hj1 =>
            default_weights_unit window_width window_height _ _ (by omega) i j hi0 hi1
              hj0 hj1)]
        exact cast_window_pos window_width window_height hww hwh)
    refine ⟨hb, hrange.1, hrange.2, ?_, ?_, ?_⟩
    · intro h
      rw [h] at hrange
      norm_num at hrange
    · intro h
      rw [h] at hrange
      norm_num at hrange
    · intro h
      rw [h] at hrange
      norm_num at hrange
  · have bo := crosscorrelate_search_bestOf sqrt G_MAXDOUBLE c c.i c.j
    rcases bo.2.2 with h0 | ⟨n0, m0, hc0, e⟩
    · rw [h0]
      rw [← hdx, ← hdy]
      exact href
    · have hb := hcand n0 m0 hc0
      rw [e]
      show 0 ≤ n0 + Int.tdiv c.window_width 2 - Int.tdiv window_width 2
        ∧ n0 + Int.tdiv c.window_width 2 - Int.tdiv window_width 2 + window_width
          ≤ data_field2.xres
        ∧ 0 ≤ m0 + Int.tdiv c.window_height 2 - Int.tdiv window_height 2
        ∧ m0 + Int.tdiv c.window_height 2 - Int.tdiv window_height 2 + window_height
          ≤ data_field2.yres
      rw [e4, e5]
      omega

/-- A concrete instance of the search on the grid: the job of the repeating
5 x 3 field against itself (window 2 x 1, search area 3 x 3) after the
initialising call: the cursor `(2, 1)` is a grid point and the candidate
`(0, 0)` lies inside field 2 with a score in `[-1, 1]`. -/
theorem search_stays_in_bounds_on_grid_sample :
    crosscorrelate_grid (sampleSelfCorrelationState (sampleRepeatingField : GwyDataField ℝ)) 2 1
      ∧ -1 ≤ gwy_data_field_get_weighted_correlation_score Real.sqrt
          (sampleRepeatingField : GwyDataField ℝ) sampleRepeatingField
          (gwy_data_field_fill (gwy_data_field_new 2 1 2 1) 1)
          (2 - Int.tdiv 2 2) (1 - Int.tdiv 1 2) 0 0 2 1 := by
  obtain ⟨c0, hinit, hall⟩ := search_stays_in_bounds_on_grid Real.sqrt isSqrt_real g_maxdouble
    (fun _ => (false, 0, 0)) (sampleRepeatingField : GwyDataField ℝ) sampleRepeatingField
    (some (constantField 5 3 0)) (some (constantField 5 3 0)) (some (constantField 5 3 0))
    3 3 2 1 rfl rfl (by decide) (by decide)
  obtain ⟨c1, hinit1, hcall⟩ := sample_job_init Real.sqrt g_maxdouble
    (fun _ => ((false, 0, 0) : Bool × ℝ × ℝ)) (sampleRepeatingField : GwyDataField ℝ)
  rw [hinit] at hinit1
  cases hinit1
  have hcalls : crosscorrelate_calls Real.sqrt g_maxdouble (fun _ => (false, 0, 0)) 1 c0
      = some (sampleSelfCorrelationState sampleRepeatingField) := by
    simp only [crosscorrelate_calls, Option.some_bind, hcall]
  have h := hall 1 _ hcalls rfl
  have hg := h.1 (by decide) (by decide)
  exact ⟨hg, ((h.2 hg).2.1 0 0
    ((sample_candidates sampleRepeatingField rfl rfl 0 0).mpr (by decide))).2.1⟩

theorem crosscorrelate_calls_none (sqrt : R → R) (G_MAXDOUBLE : R)
    (gwy_math_refine_maximum : (Int → R) → Bool × R × R)
    (c0 : GwyCrossCorrelationState R) (k0 : ℕ)
    (h : crosscorrelate_calls sqrt G_MAXDOUBLE gwy_math_refine_maximum k0 c0 = none)
    (k : ℕ) (hk : k0 ≤ k) :
    crosscorrelate_calls sqrt G_MAXDOUBLE gwy_math_refine_maximum k c0 = none := by
  induction k, hk using Nat.le_induction with
  | base => exact h
  | succ k _ ih => rw [crosscorrelate_calls, ih, Option.none_bind]

/-- Statement C30, the code at a failing input: the job of the repeating 5 x 3
field against itself with window 2 x 1, search area 3 x 3, the output fields
`x_dist` and `score`, and no `y_dist`.  Here `nx = ny = 1`.  The initialising
call returns the job in state `Iterate` on the grid point `(2, 1)`; the second
call, after which the claim has the job `Finished`, stores through the NULL
`y_dist` and has no result, and so no number of calls reaches `Finished`.  With
`y_dist` present the same job is `Finished` after the second call. -/
theorem C30_null_y_dist_never_finishes :
    ((5 : Int) - 2 * Int.tdiv 2 2 - 2 = 1 ∧ (3 : Int) - 2 * Int.tdiv 1 2 - 2 = 1)
      ∧ (∃ c0,
          gwy_data_field_crosscorrelate_init (sampleRepeatingField : GwyDataField ℝ)
              sampleRepeatingField (some (constantField 5 3 0)) none
              (some (constantField 5 3 0)) 3 3 2 1 = some c0
            ∧ crosscorrelate_calls Real.sqrt g_maxdouble (fun _ => (false, 0, 0)) 1 c0
              = some { sampleSelfCorrelationState (sampleRepeatingField : GwyDataField ℝ) with
                  y_dist := none }
            ∧ ∀ k : ℕ, 2 ≤ k →
                crosscorrelate_calls Real.sqrt g_maxdouble (fun _ => (false, 0, 0)) k c0 = none)
      ∧ ∃ c0 c2,
          gwy_data_field_crosscorrelate_init (sampleRepeatingField : GwyDataField ℝ)
              sampleRepeatingField (some (constantField 5 3 0)) (some (constantField 5 3 0))
              (some (constantField 5 3 0)) 3 3 2 1 = some c0
            ∧ crosscorrelate_calls Real.sqrt g_maxdouble (fun _ => (false, 0, 0)) 2 c0 = some c2
            ∧ c2.cs.state = GWY_COMPUTATION_STATE_FINISHED := by
  refine ⟨by decide, ?_, ?_⟩
  · refine ⟨_, crosscorrelate_init_eq _ _ _ _ _ 3 3 2 1 rfl rfl, ?_⟩
    have h1 : crosscorrelate_calls Real.sqrt g_maxdouble (fun _ => (false, 0, 0)) 1
        ({ cs := { state := GWY_COMPUTATION_STATE_INIT, fraction := 0 }
           data_field1 := sampleRepeatingField
           data_field2 := sampleRepeatingField
           x_dist := some (constantField 5 3 0)
           y_dist := none
           score := some (constantField 5 3 0)
           search_width := 3
           search_height := 3
           window_width := 2
           window_height := 1
           weights :=
             gwy_data_field_fill
               (gwy_data_field_new 2 1 ((2 : Int) : ℝ) ((1 : Int) : ℝ)) 1
           i := 0
           j := 0 } : GwyCrossCorrelationState ℝ)
        = some { sampleSelfCorrelationState (sampleRepeatingField : GwyDataField ℝ) with
            y_dist := none } := by
      simp only [crosscorrelate_calls, Option.some_bind]
      rw [crosscorrelate_iteration_init Real.sqrt g_maxdouble _ _ rfl]
      simp only [sampleSelfCorrelationState, Option.map_some', Option.map_none', tdiv_small]
      norm_num
    refine ⟨h1, ?_⟩
    intro k hk
    apply crosscorrelate_calls_none Real.sqrt g_maxdouble _ _ 2 _ k hk
    rw [crosscorrelate_calls, h1, Option.some_bind]
    exact crosscorrelate_iteration_null_y_dist Real.sqrt g_maxdouble _ _
      (gwy_data_field_clear (constantField 5 3 0)) rfl rfl rfl
  · obtain ⟨c0, hinit, hcall⟩ := sample_job_init Real.sqrt g_maxdouble
      (fun _ => ((false, 0, 0) : Bool × ℝ × ℝ)) (sampleRepeatingField : GwyDataField ℝ)
    obtain ⟨c2, fx, fy, h1, h2, -⟩ := sample_iterate (fun _ => (false, 0, 0))
      (sampleRepeatingField : GwyDataField ℝ) rfl rfl rfl rfl _ sample_search
    refine ⟨c0, c2, hinit, ?_, h2⟩
    simp only [crosscorrelate_calls, Option.some_bind, hcall, h1]

/-- The rank of the cursor in row-major order grows by one with every grid
point: `a` is the row and `b` the column of the cursor within the grid of `nx`
columns and `ny` rows. -/
theorem cursor_rank_step (nx ny a b k : Int) (hnx : 1 ≤ nx) (ha : 0 ≤ a) (hb0 : 0 ≤ b)
    (hb1 : b < nx) (hk : k = a * nx + b) (hlt : k < nx * ny) :
    a < ny
      ∧ (b + 1 = nx → k + 1 = (a + 1) * nx
          ∧ (a + 1 = ny → ¬ k + 1 < nx * ny) ∧ (a + 1 ≠ ny → k + 1 < nx * ny))
      ∧ (b + 1 ≠ nx → k + 1 < nx * ny) := by
  have hany : a < ny := by
    by_contra hcon
    have h1 : ny * nx ≤ a * nx := mul_le_mul_of_nonneg_right (by omega) (by omega)
    have h2 : ny * nx = nx * ny := mul_comm _ _
    omega
  have e1 : (a + 1) * nx = a * nx + nx := by ring
  have h3 : (a + 1) * nx ≤ ny * nx := mul_le_mul_of_nonneg_right (by omega) (by omega)
  have h4 : ny * nx = nx * ny := mul_comm _ _
  refine ⟨hany, ?_, ?_⟩
  · intro hb
    refine ⟨by omega, ?_, ?_⟩
    · intro hny
      rw [← hny, mul_comm nx (a + 1)]
      omega
    · intro hny
      have h5 : (a + 1 + 1) * nx ≤ ny * nx := mul_le_mul_of_nonneg_right (by omega) (by omega)
      have e2 : (a + 1 + 1) * nx = a * nx + nx + nx := by ring
      omega
  · intro hb
    omega

/-- A call on a job whose displacement fields allow it (`x_dist` absent or
`y_dist` present) returns, and the job after the call allows it again. -/
theorem crosscorrelate_iteration_returns (sqrt : R → R) (G_MAXDOUBLE : R)
    (gwy_math_refine_maximum : (Int → R) → Bool × R × R)
    (c : GwyCrossCorrelationState R) (hcfg : c.x_dist = none ∨ c.y_dist ≠ none) :
    ∃ c2, gwy_data_field_crosscorrelate_iteration sqrt G_MAXDOUBLE gwy_math_refine_maximum c
        = some c2
      ∧ (c2.x_dist = none ∨ c2.y_dist ≠ none) := by
  rcases hst : c.cs.state with _ | _ | _
  · refine ⟨_, crosscorrelate_iteration_init sqrt G_MAXDOUBLE gwy_math_refine_maximum c hst, ?_⟩
    rcases hcfg with h | h
    · exact Or.inl (by simp [h])
    · refine Or.inr ?_
      rcases hy : c.y_dist with _ | yd
      · exact absurd hy h
      · simp [hy]
  · rcases hx : c.x_dist with _ | xd
    · exact ⟨_, crosscorrelate_iteration_iterate_no_dist sqrt G_MAXDOUBLE
        gwy_math_refine_maximum c hst hx, Or.inl (by simp [crosscorrelate_advance, hx])⟩
    · rcases hy : c.y_dist with _ | yd
      · rcases hcfg with h | h
        · rw [hx] at h
          cases h
        · exact absurd hy h
      · exact ⟨_, crosscorrelate_iteration_iterate_dist sqrt G_MAXDOUBLE
          gwy_math_refine_maximum c xd yd hst hx hy, Or.inr (by simp)⟩
  · refine ⟨c, ?_, hcfg⟩
    unfold gwy_data_field_crosscorrelate_iteration
    simp only [hst]

/-- Termination of the cross-correlation iterator: for a job in state `Init`
whose displacement fields allow the calls to return, with a grid of `nx >= 1`
columns and `ny >= 1` rows, the call number `k + 1` (`k` at most `nx*ny`)
returns with the cursor on the grid point of rank `k` in row-major order, in
state `Iterate` while `k < nx*ny` and in state `Finished` when `k = nx*ny`. -/
theorem crosscorrelate_progress (sqrt : R → R) (G_MAXDOUBLE : R)
    (gwy_math_refine_maximum : (Int → R) → Bool × R × R)
    (c0 : GwyCrossCorrelationState R) (h0 : c0.cs.state = GWY_COMPUTATION_STATE_INIT)
    (hcfg : c0.x_dist = none ∨ c0.y_dist ≠ none)
    (hnx : 1 ≤ c0.data_field1.xres - 2 * Int.tdiv c0.window_width 2 - 2)
    (hny : 1 ≤ c0.data_field1.yres - 2 * Int.tdiv c0.window_height 2 - 2)
    (k : ℕ)
    (hk : (k : Int) ≤ (c0.data_field1.xres - 2 * Int.tdiv c0.window_width 2 - 2)
      * (c0.data_field1.yres - 2 * Int.tdiv c0.window_height 2 - 2)) :
    ∃ c, crosscorrelate_calls sqrt G_MAXDOUBLE gwy_math_refine_maximum (k + 1) c0 = some c
      ∧ (c.x_dist = none ∨ c.y_dist ≠ none)
      ∧ Int.tdiv c0.window_width 2 + 1 ≤ c.i
      ∧ c.i ≤ c0.data_field1.xres - Int.tdiv c0.window_width 2 - 2
      ∧ Int.tdiv c0.window_height 2 + 1 ≤ c.j
      ∧ c.j ≤ c0.data_field1.yres - Int.tdiv c0.window_height 2 - 1
      ∧ (k : Int)
        = (c.j - (Int.tdiv c0.window_height 2 + 1))
            * (c0.data_field1.xres - 2 * Int.tdiv c0.window_width 2 - 2)
          + (c.i - (Int.tdiv c0.window_width 2 + 1))
      ∧ c.cs.state
        = (if (k : Int) < (c0.data_field1.xres - 2 * Int.tdiv c0.window_width 2 - 2)
              * (c0.data_field1.yres - 2 * Int.tdiv c0.window_height 2 - 2)
            then GWY_COMPUTATION_STATE_ITERATE else GWY_COMPUTATION_STATE_FINISHED) := by
  induction k with
  | zero =>
    obtain ⟨c1, hc1, hcfg1⟩ := crosscorrelate_iteration_returns sqrt G_MAXDOUBLE
      gwy_math_refine_maximum c0 hcfg
    obtain ⟨f1, -, -, f4, f5, -, -, f8, -, -⟩ := crosscorrelate_iteration_frame sqrt G_MAXDOUBLE
      gwy_math_refine_maximum c0 c1 hc1
    obtain ⟨hs, hi, hj⟩ := f8 h0
    have hpos : (0 : Int) < (c0.data_field1.xres - 2 * Int.tdiv c0.window_width 2 - 2)
        * (c0.data_field1.yres - 2 * Int.tdiv c0.window_height 2 - 2) :=
      mul_pos (by omega) (by omega)
    refine ⟨c1, ?_, hcfg1, by omega, by omega, by omega, by omega, ?_, ?_⟩
    · simp only [crosscorrelate_calls, Option.some_bind, hc1]
    · rw [hi, hj]
      simp
    · rw [hs, if_pos]
      exact_mod_cast hpos
  | succ k ih =>
    have hlt : (k : Int) < (c0.data_field1.xres - 2 * Int.tdiv c0.window_width 2 - 2)
        * (c0.data_field1.yres - 2 * Int.tdiv c0.window_height 2 - 2) := by
      push_cast at hk
      omega
    obtain ⟨c, hc, hcfgc, b1, b2, b3, b4, hrank, hstate⟩ := ih (le_of_lt hlt)
    rw [if_pos hlt] at hstate
    obtain ⟨e1, -, -, e4, e5, -, -, -⟩ := crosscorrelate_calls_invariant sqrt G_MAXDOUBLE
      gwy_math_refine_maximum c0 h0 (k + 1) c hc
    obtain ⟨c2, hc2, hcfg2⟩ := crosscorrelate_iteration_returns sqrt G_MAXDOUBLE
      gwy_math_refine_maximum c hcfgc
    obtain ⟨-, -, -, -, -, -, -, -, f9, -⟩ := crosscorrelate_iteration_frame sqrt G_MAXDOUBLE
      gwy_math_refine_maximum c c2 hc2
    obtain ⟨hcs, hi, hj⟩ := f9 hstate
    have step := cursor_rank_step
      (c0.data_field1.xres - 2 * Int.tdiv c0.window_width 2 - 2)
      (c0.data_field1.yres - 2 * Int.tdiv c0.window_height 2 - 2)
      (c.j - (Int.tdiv c0.window_height 2 + 1)) (c.i - (Int.tdiv c0.window_width 2 + 1))
      (k : Int) hnx (by omega) (by omega) (by omega) hrank hlt
    have hi2 : c2.i = if c.i + 1 = c0.data_field1.xres - Int.tdiv c0.window_width 2 - 1
        then Int.tdiv c0.window_width 2 + 1 else c.i + 1 := by
      rw [hi]
      unfold crosscorrelate_advance
      simp only [e1, e4, decide_eq_true_eq]
    have hj2 : c2.j = if c.i + 1 = c0.data_field1.xres - Int.tdiv c0.window_width 2 - 1
        then c.j + 1 else c.j := by
      rw [hj]
      unfold crosscorrelate_advance
      simp only [e1, e4, decide_eq_true_eq]
    have hs2 : c2.cs.state = if c.i + 1 = c0.data_field1.xres - Int.tdiv c0.window_width 2 - 1
        ∧ c.j + 1 = c0.data_field1.yres - Int.tdiv c0.window_height 2 - 1
        then GWY_COMPUTATION_STATE_FINISHED else GWY_COMPUTATION_STATE_ITERATE := by
      rw [hcs]
      unfold crosscorrelate_advance
      simp only [e1, e4, e5, hstate, decide_eq_true_eq]
      by_cases hw : c.i + 1 = c0.data_field1.xres - Int.tdiv c0.window_width 2 - 1
      · simp [hw]
      · simp [hw]
    refine ⟨c2, ?_, hcfg2, ?_⟩
    · rw [crosscorrelate_calls, hc, Option.some_bind, hc2]
    · by_cases hw : c.i + 1 = c0.data_field1.xres - Int.tdiv c0.window_width 2 - 1
      · have hb : c.i - (Int.tdiv c0.window_width 2 + 1) + 1
            = c0.data_field1.xres - 2 * Int.tdiv c0.window_width 2 - 2 := by omega
        obtain ⟨s1, s2, s3⟩ := step.2.1 hb
        rw [hi2, hj2, hs2, if_pos hw, if_pos hw]
        refine ⟨le_rfl, by omega, by omega, by omega, ?_, ?_⟩
        · push_cast
          rw [s1]
          ring
        · by_cases hjl : c.j + 1 = c0.data_field1.yres - Int.tdiv c0.window_height 2 - 1
          · have := s2 (by omega)
            rw [if_pos ⟨hw, hjl⟩, if_neg (by push_cast; exact this)]
          · have := s3 (by omega)
            rw [if_neg (fun h => hjl h.2), if_pos (by push_cast; exact this)]
      · have hb : c.i - (Int.tdiv c0.window_width 2 + 1) + 1
            ≠ c0.data_field1.xres - 2 * Int.tdiv c0.window_width 2 - 2 := by omega
        have s := step.2.2 hb
        rw [hi2, hj2, hs2, if_neg hw, if_neg hw]
        refine ⟨by omega, by omega, by omega, by omega, ?_, ?_⟩
        · push_cast
          rw [hrank]
          ring
        · rw [if_neg (fun h => hw h.1), if_pos (by push_cast; exact s)]

/-- The true half of the statement C26: in the case `GWY_CORRELATION_POC`,
when no bin has magnitude zero, the loop returns and every bin has unit
magnitude afterwards. -/
theorem correlate_spectrum_POC_unit (hypot : R → R → R) (hh : IsHypot hypot) (xres yres : Int)
    (data_out_re data_out_im kernel_out_re kernel_out_im data_in_re kernel_in_re :
      GwyDataField R)
    (hnz : ∀ i, 0 ≤ i → i < xres * yres →
        hypot
          (data_out_re.data i * kernel_out_re.data i + data_out_im.data i * kernel_out_im.data i)
          (-data_out_re.data i * kernel_out_im.data i
            + data_out_im.data i * kernel_out_re.data i) ≠ 0) :
    ∃ re im,
      correlate_spectrum hypot GwyCorrelationType.GWY_CORRELATION_POC xres yres data_out_re
          data_out_im kernel_out_re kernel_out_im data_in_re kernel_in_re = some (re, im)
        ∧ ∀ i, 0 ≤ i → i < xres * yres →
          re.data i * re.data i + im.data i * im.data i = 1 := by
  obtain ⟨re, im, hres, hval⟩ := correlate_spectrum_values hypot
    GwyCorrelationType.GWY_CORRELATION_POC xres yres data_out_re data_out_im kernel_out_re
    kernel_out_im data_in_re kernel_in_re (fun _ => hnz)
  refine ⟨re, im, hres, ?_⟩
  intro i hi0 hi1
  obtain ⟨h1, h2⟩ := hval i hi0 hi1
  rw [if_pos rfl] at h1 h2
  have hz := hnz i hi0 hi1
  have hsq := (hh
    (data_out_re.data i * kernel_out_re.data i + data_out_im.data i * kernel_out_im.data i)
    (-data_out_re.data i * kernel_out_im.data i
      + data_out_im.data i * kernel_out_re.data i)).2
  rw [h1, h2, div_mul_div_comm, div_mul_div_comm, ← add_div, ← hsq]
  exact div_self (mul_ne_zero hz hz)

/-- Statement C8, the code at a failing input: the cross-correlation job on two
5 x 5 fields of zeros (window 1 x 1, search area 3 x 3, cursor `(1, 1)`) in
state `Iterate`, with the output fields `score` and `x_dist` and no `y_dist`.
The call ends in no state: it stores through the NULL `y_dist` and has no
result, where the claim has it end in `Iterate` or `Finished`.  Without
`x_dist` the same call returns in state `Iterate`. -/
theorem C8_iterate_call_with_null_y_dist_has_no_end_state :
    ({ (sampleCrossCorrelationState : GwyCrossCorrelationState ℝ) with
          x_dist := some (fieldOfList 5 5 []) }).cs.state = GWY_COMPUTATION_STATE_ITERATE
      ∧ ({ (sampleCrossCorrelationState : GwyCrossCorrelationState ℝ) with
          x_dist := some (fieldOfList 5 5 []) }).y_dist = none
      ∧ (∀ gwy_math_refine_maximum : (Int → ℝ) → Bool × ℝ × ℝ,
          gwy_data_field_crosscorrelate_iteration Real.sqrt g_maxdouble gwy_math_refine_maximum
            { (sampleCrossCorrelationState : GwyCrossCorrelationState ℝ) with
              x_dist := some (fieldOfList 5 5 []) } = none)
      ∧ ∀ gwy_math_refine_maximum : (Int → ℝ) → Bool × ℝ × ℝ,
          ∃ c2, gwy_data_field_crosscorrelate_iteration Real.sqrt g_maxdouble
              gwy_math_refine_maximum (sampleCrossCorrelationState : GwyCrossCorrelationState ℝ)
              = some c2
            ∧ c2.cs.state = GWY_COMPUTATION_STATE_ITERATE := by
  refine ⟨rfl, rfl, ?_, ?_⟩
  · intro gwy_math_refine_maximum
    exact crosscorrelate_iteration_null_y_dist Real.sqrt g_maxdouble gwy_math_refine_maximum _
      (fieldOfList 5 5 []) rfl rfl rfl
  · intro gwy_math_refine_maximum
    refine ⟨_, crosscorrelate_iteration_iterate_no_dist Real.sqrt g_maxdouble
      gwy_math_refine_maximum _ rfl rfl, ?_⟩
    simp [crosscorrelate_advance, sampleCrossCorrelationState, fieldOfList, tdiv_small]

theorem g_maxdouble_gt_four : (4 : R) < g_maxdouble := by
  unfold g_maxdouble
  norm_num

/-- A returning call in state `Iterate` of a job with a score field and without
`x_dist`: what it keeps, what it stores and where the cursor goes. -/
theorem crosscorrelate_iteration_score_only (sqrt : R → R) (G_MAXDOUBLE : R)
    (gwy_math_refine_maximum : (Int → R) → Bool × R × R)
    (c : GwyCrossCorrelationState R) (f : GwyDataField R)
    (h : c.cs.state = GWY_COMPUTATION_STATE_ITERATE)
    (hx : c.x_dist = none) (hs : c.score = some f) :
    ∃ c2, gwy_data_field_crosscorrelate_iteration sqrt G_MAXDOUBLE gwy_math_refine_maximum c
        = some c2
      ∧ c2.data_field1 = c.data_field1 ∧ c2.data_field2 = c.data_field2
      ∧ c2.weights = c.weights
      ∧ c2.window_width = c.window_width ∧ c2.window_height = c.window_height
      ∧ c2.search_width = c.search_width ∧ c2.search_height = c.search_height
      ∧ c2.x_dist = none
      ∧ c2.score = some (f.store (c.i + c.data_field1.xres * c.j)
          (crosscorrelate_search sqrt G_MAXDOUBLE c c.i c.j).1)
      ∧ c2.i = (if c.i + 1 = c.data_field1.xres - Int.tdiv c.window_width 2 - 1
          then Int.tdiv c.window_width 2 + 1 else c.i + 1)
      ∧ c2.j = (if c.i + 1 = c.data_field1.xres - Int.tdiv c.window_width 2 - 1
          then c.j + 1 else c.j)
      ∧ c2.cs.state
        = (if c.i + 1 = c.data_field1.xres - Int.tdiv c.window_width 2 - 1
            ∧ c.j + 1 = c.data_field1.yres - Int.tdiv c.window_height 2 - 1
          then GWY_COMPUTATION_STATE_FINISHED else GWY_COMPUTATION_STATE_ITERATE) := by
  refine ⟨_, crosscorrelate_iteration_iterate_no_dist sqrt G_MAXDOUBLE gwy_math_refine_maximum
    c h hx, rfl, rfl, rfl, rfl, rfl, rfl, rfl, ?_, ?_, ?_, ?_, ?_⟩
  · simp [crosscorrelate_advance, hx]
  · simp [hs]
  · simp [crosscorrelate_advance]
  · simp [crosscorrelate_advance]
  · simp only [crosscorrelate_advance, h, decide_eq_true_eq]
    by_cases hw : c.i + 1 = c.data_field1.xres - Int.tdiv c.window_width 2 - 1
    · simp [hw]
    · simp [hw]

/-- The search of a job on the 4 x 3 field of zeros with window 2 x 1 and
search area 8 x 3 at the cursor `(4, 1)`: every candidate scores -3. -/
theorem empty_grid_search (c : GwyCrossCorrelationState ℝ)
    (h1 : c.data_field1 = constantField 4 3 0) (h2 : c.data_field2 = constantField 4 3 0)
    (hw : c.weights = gwy_data_field_fill (gwy_data_field_new 2 1 ((2 : Int) : ℝ)
      ((1 : Int) : ℝ)) 1)
    (hsw : c.search_width = 8) (hsh : c.search_height = 3)
    (hww : c.window_width = 2) (hwh : c.window_height = 1) :
    crosscorrelate_candidate c 4 1 1 0
      ∧ gwy_data_field_get_weighted_correlation_score Real.sqrt c.data_field1 c.data_field2
          c.weights (4 - Int.tdiv c.window_width 2) (1 - Int.tdiv c.window_height 2) 1 0
          c.window_width c.window_height = -3
      ∧ crosscorrelate_search Real.sqrt g_maxdouble c 4 1 = (-3, 2, 0) := by
  have e8 : Int.tdiv (8 : Int) 2 = 4 := by decide
  have hscore : ∀ (a b : ℝ) (n m : Int), gwy_data_field_get_weighted_correlation_score Real.sqrt
      (constantField 4 3 (0 : ℝ)) (constantField 4 3 0)
      (gwy_data_field_fill (gwy_data_field_new 2 1 a b) 1)
      3 1 n m 2 1 = if n > 4 ∨ m > 3 then -2 else -3 := by
    intro a b n m
    simp [gwy_data_field_get_weighted_correlation_score, constantField, gwy_data_field_fill,
      gwy_data_field_new]
  have hg := g_maxdouble_gt_four (R := ℝ)
  refine ⟨?_, ?_, ?_⟩
  · unfold crosscorrelate_candidate
    rw [h1, hsw, hsh, hww, hwh]
    simp only [tdiv_small, e8, constantField]
    decide
  · rw [h1, h2, hw, hww, hwh]
    simp only [tdiv_small]
    norm_num [hscore]
  · unfold crosscorrelate_search
    rw [h1, h2, hw, hsw, hsh, hww, hwh]
    have hx : (constantField 4 3 (0 : ℝ)).xres = 4 := rfl
    have hy : (constantField 4 3 (0 : ℝ)).yres = 3 := rfl
    simp only [tdiv_small, e8, hx, hy]
    have hA : (30003 / 10000 : ℝ) < g_maxdouble := by linarith
    norm_num [forRange_step, forRange_done, hscore, hA]

/-- Statement C28, the code at a failing input: the job of the 4 x 3 field of
zeros against itself with window 2 x 1 and search area 8 x 3, with a score
field.  The window fits into the field, but the grid has no column
(`4 - 2*(2/2) - 2 = 0`): the cursor starts at column 2, the wrap test
`i == xres - window_width/2 - 1 = 2` never holds, and after three calls the job
is in state `Iterate` with the cursor at `(4, 1)`, outside the field.  There the
reference window, columns 3 and 4, is not inside field 1, the scorer returns
the sentinel -3 for the candidate `(1, 0)` and for every other candidate, the
search ends with `cormax = -3`, and the fourth call stores -3 in the score
field. -/
theorem C28_empty_grid_cursor_leaves_field :
    ((2 : Int) ≤ 4 ∧ (1 : Int) ≤ 3 ∧ (4 : Int) - 2 * Int.tdiv 2 2 - 2 = 0)
      ∧ ∀ gwy_math_refine_maximum : (Int → ℝ) → Bool × ℝ × ℝ,
        ∃ c0 c3 c4 f,
          gwy_data_field_crosscorrelate_init (constantField 4 3 (0 : ℝ)) (constantField 4 3 0)
              none none (some (constantField 4 3 0)) 8 3 2 1 = some c0
            ∧ crosscorrelate_calls Real.sqrt g_maxdouble gwy_math_refine_maximum 3 c0 = some c3
            ∧ c3.cs.state = GWY_COMPUTATION_STATE_ITERATE
            ∧ c3.i = 4 ∧ c3.j = 1
            ∧ c3.data_field1.xres < c3.i - Int.tdiv c3.window_width 2 + c3.window_width
            ∧ crosscorrelate_candidate c3 4 1 1 0
            ∧ gwy_data_field_get_weighted_correlation_score Real.sqrt c3.data_field1
                c3.data_field2 c3.weights (4 - Int.tdiv c3.window_width 2)
                (1 - Int.tdiv c3.window_height 2) 1 0 c3.window_width c3.window_height = -3
            ∧ crosscorrelate_search Real.sqrt g_maxdouble c3 4 1 = (-3, 2, 0)
            ∧ crosscorrelate_calls Real.sqrt g_maxdouble gwy_math_refine_maximum 4 c0 = some c4
            ∧ c4.score = some f ∧ f.data (4 + 4 * 1) = -3 := by
  refine ⟨by decide, ?_⟩
  intro gwy_math_refine_maximum
  obtain ⟨c0, hinit, z1, z2, z3, z4, z5, z6, z7, z8, z9, z10⟩ :
      ∃ c0 : GwyCrossCorrelationState ℝ,
        gwy_data_field_crosscorrelate_init (constantField 4 3 (0 : ℝ)) (constantField 4 3 0)
            none none (some (constantField 4 3 0)) 8 3 2 1 = some c0
          ∧ c0.cs.state = GWY_COMPUTATION_STATE_INIT
          ∧ c0.x_dist = none ∧ c0.score = some (constantField 4 3 0)
          ∧ c0.data_field1 = constantField 4 3 0 ∧ c0.data_field2 = constantField 4 3 0
          ∧ c0.weights = gwy_data_field_fill
              (gwy_data_field_new 2 1 ((2 : Int) : ℝ) ((1 : Int) : ℝ)) 1
          ∧ c0.window_width = 2 ∧ c0.window_height = 1
          ∧ c0.search_width = 8 ∧ c0.search_height = 3 :=
    ⟨_, crosscorrelate_init_eq (constantField 4 3 (0 : ℝ)) (constantField 4 3 0)
      none none (some (constantField 4 3 0)) 8 3 2 1 rfl rfl,
      rfl, rfl, rfl, rfl, rfl, rfl, rfl, rfl, rfl, rfl⟩
  obtain ⟨c1, h1, y1, y2, y3, y4, y5, y6, y7, y8, y9, y10, y11, y12⟩ :
      ∃ c1 : GwyCrossCorrelationState ℝ,
        gwy_data_field_crosscorrelate_iteration Real.sqrt g_maxdouble gwy_math_refine_maximum
            c0 = some c1
          ∧ c1.cs.state = GWY_COMPUTATION_STATE_ITERATE
          ∧ c1.x_dist = none
          ∧ c1.score = some (gwy_data_field_clear (constantField 4 3 0))
          ∧ c1.data_field1 = constantField 4 3 0 ∧ c1.data_field2 = constantField 4 3 0
          ∧ c1.weights = gwy_data_field_fill
              (gwy_data_field_new 2 1 ((2 : Int) : ℝ) ((1 : Int) : ℝ)) 1
          ∧ c1.window_width = 2 ∧ c1.window_height = 1
          ∧ c1.search_width = 8 ∧ c1.search_height = 3
          ∧ c1.i = 2 ∧ c1.j = 1 :=
    ⟨_, crosscorrelate_iteration_init Real.sqrt g_maxdouble gwy_math_refine_maximum c0 z1,
      rfl, by simp [z2], by simp [z3], z4, z5, z6, z7, z8, z9, z10,
      by simp [z7, tdiv_small], by simp [z8, tdiv_small]⟩
  obtain ⟨c2, h2, a1, a2, a3, a4, a5, a6, a7, a8, a9, a10, a11, a12⟩ :=
    crosscorrelate_iteration_score_only Real.sqrt g_maxdouble gwy_math_refine_maximum c1
      _ y1 y2 y3
  rw [y4, y7, y11] at a10 a11
  rw [y4, y7, y8, y11, y12] at a12
  simp only [tdiv_small] at a10 a11 a12
  have a1x : c2.data_field1 = constantField 4 3 0 := a1.trans y4
  have a2x : c2.data_field2 = constantField 4 3 0 := a2.trans y5
  have a3x : c2.weights = gwy_data_field_fill
      (gwy_data_field_new 2 1 ((2 : Int) : ℝ) ((1 : Int) : ℝ)) 1 := a3.trans y6
  have a4x : c2.window_width = 2 := a4.trans y7
  have a5x : c2.window_height = 1 := a5.trans y8
  have a6x : c2.search_width = 8 := a6.trans y9
  have a7x : c2.search_height = 3 := a7.trans y10
  have a10x : c2.i = 3 := by
    rw [a10]
    simp [constantField]
  have a11x : c2.j = 1 := by
    rw [a11, y12]
    simp [constantField]
  have a12x : c2.cs.state = GWY_COMPUTATION_STATE_ITERATE := by
    rw [a12]
    simp [constantField]
  obtain ⟨c3, h3, b1, b2, b3, b4, b5, b6, b7, b8, b9, b10, b11, b12⟩ :=
    crosscorrelate_iteration_score_only Real.sqrt g_maxdouble gwy_math_refine_maximum c2
      _ a12x a8 a9
  rw [a1x, a4x, a10x] at b10 b11
  rw [a1x, a4x, a5x, a10x, a11x] at b12
  simp only [tdiv_small] at b10 b11 b12
  have b10x : c3.i = 4 := by
    rw [b10]
    simp [constantField]
  have b11x : c3.j = 1 := by
    rw [b11, a11x]
    simp [constantField]
  have b12x : c3.cs.state = GWY_COMPUTATION_STATE_ITERATE := by
    rw [b12]
    simp [constantField]
  obtain ⟨c4, h4, d1, d2, d3, d4, d5, d6, d7, d8, d9, -⟩ :=
    crosscorrelate_iteration_score_only Real.sqrt g_maxdouble gwy_math_refine_maximum c3
      _ b12x b8 b9
  have hs := empty_grid_search c3 (b1.trans a1x) (b2.trans a2x) (b3.trans a3x)
    (b6.trans a6x) (b7.trans a7x) (b4.trans a4x) (b5.trans a5x)
  have hc3 : crosscorrelate_calls Real.sqrt g_maxdouble gwy_math_refine_maximum 3 c0
      = some c3 := by
    simp only [crosscorrelate_calls, Option.some_bind, h1, h2, h3]
  refine ⟨c0, c3, c4, _, hinit, hc3, b12x, b10x, b11x, ?_, hs.1, hs.2.1, hs.2.2, ?_, d9, ?_⟩
  · rw [b1, a1x, b10x, b4, a4x]
    simp only [tdiv_small]
    decide
  · rw [crosscorrelate_calls, hc3, Option.some_bind, h4]
  · show Function.update _ _ _ _ = _
    rw [b10x, b11x, b1, a1x, hs.2.2]
    exact Function.update_same _ _ _

end Fields

end Gwy
